import Mathlib

/-!
# tiquin: two-phase transfer orchestrator and chain listener

A shallow embedding of `services/tokenization_service.go`,
`services/solana_integration_service.go`, `blockchain_listener/listener.go` and
`handlers/user_handler.go`.

* `float64` is kept abstract: the development is generic in a type `F`, and the
  two operations the code applies to amounts (`uint64(amount * 1e9)` and
  `amountFloat / 1e9`) are fields of the environment.
* The collaborators (store lookups, chain client, key derivation, randomness,
  clock) are fields of `Env`; every call that reaches the store or the chain is
  appended to the trace `World.calls`.
* A Go panic (failed single-value type assertion, `MustPublicKeyFromBase58`)
  is the outcome `Outcome.panicked`.
-/

namespace Tiquin

/-! ## Go values -/

/-- Go `error` values as built by `errors.New` and `fmt.Errorf("...: %w", err)`. -/
inductive GoError where
  | new (msg : String)
  | wrap (ctx : String) (inner : GoError)
  deriving DecidableEq, Repr

/-- The `Error()` method: the message a caller (the HTTP handler) sees. -/
def GoError.Error : GoError → String
  | .new msg => msg
  | .wrap ctx inner => ctx ++ inner.Error

/-- A `solana.PublicKey`, identified with its base58 rendering. -/
structure PublicKey where
  b58 : String
  deriving DecidableEq, Repr

/-- The zero value `solana.PublicKey{}` (32 zero bytes). -/
def PublicKey.zero : PublicKey := ⟨"11111111111111111111111111111111"⟩

/-- The method `PublicKey.String()`. -/
def PublicKey.String (k : PublicKey) : String := k.b58

/-- A `solana.Signature`, identified with its base58 rendering. -/
structure Signature where
  b58 : String
  deriving DecidableEq, Repr

/-- The method `Signature.String()`. -/
def Signature.String (s : Signature) : String := s.b58

/-! ## models -/

/-- The struct `models.User` (fields the services read). -/
structure User where
  ID : String
  Name : String
  Email : String
  SolanaPubKey : String
  CreatedAt : Nat
  deriving DecidableEq, Repr

/-- The struct `models.Asset`. -/
structure Asset (F : Type) where
  ID : String
  Symbol : String
  Name : String
  TotalShares : F
  CreatedAt : Nat
  MintAddress : String
  deriving DecidableEq, Repr

/-- The struct `models.Token`: one ownership record. -/
structure Token (F : Type) where
  ID : String
  AssetID : String
  OwnerID : String
  Amount : F
  SmartContractRules : String
  IsTradable : Bool
  CreatedAt : Nat
  MintAddress : String
  TokenAccountAddress : String
  TransactionID : String
  deriving DecidableEq, Repr

/-- The zero value `models.Token{}`. -/
def Token.zero {F : Type} [Zero F] : Token F :=
  { ID := "", AssetID := "", OwnerID := "", Amount := 0, SmartContractRules := "",
    IsTradable := false, CreatedAt := 0, MintAddress := "", TokenAccountAddress := "",
    TransactionID := "" }

/-- The Go result triple `(value, found, err)` of the store lookups. -/
structure Lookup (α : Type) where
  val : α
  found : Bool
  err : Option GoError

/-- A decoded JSON value as Go's `interface{}` holds it. -/
inductive JVal (F : Type) where
  | null
  | bool (b : Bool)
  | num (x : F)
  | str (s : String)
  | arr (xs : List (JVal F))
  | obj (kv : List (String × JVal F))

/-- Indexing `infoMap[key]`: a missing key yields the nil interface. -/
def JVal.index {F : Type} (kv : List (String × JVal F)) (key : String) : JVal F :=
  match kv.lookup key with
  | some v => v
  | none => .null

/-- The type assertion `v.(string)` (two-value form; `none` is `ok = false`). -/
def JVal.asString {F : Type} : JVal F → Option String
  | .str s => some s
  | _ => none

/-- The type assertion `v.(float64)`. -/
def JVal.asFloat64 {F : Type} : JVal F → Option F
  | .num x => some x
  | _ => none

/-! ## Collaborators and world -/

/-- Calls that reach the store or the chain client, as recorded in the trace. -/
inductive Call (F : Type) where
  | GetUser (id : String)
  | GetAsset (id : String)
  | GetAssetByMintAddress (mint : String)
  | GetUserBySolanaPubKey (pubKey : String)
  | SaveToken (t : Token F)
  | GetAccountInfo (account : PublicKey)
  | GetTokenAccountBalance (account : PublicKey)
  | PrepareTransferTransaction (mint fromATA toATA fromOwner : PublicKey) (amount : Nat)
  | SendSignedTransaction (signedTxBase64 : String)
  | GetTransaction (signature : Signature)
  | SignatureSubscribe (account : PublicKey)
  | Unsubscribe
  | Sleep (seconds : Nat)
  | SaveUser (u : User)
  deriving DecidableEq

/-- Responses of everything outside `TokenizationService` and the listener. -/
structure Env (F : Type) where
  GetUser : String → Lookup User
  GetAsset : String → Lookup (Asset F)
  GetAssetByMintAddress : String → Lookup (Asset F)
  GetUserBySolanaPubKey : String → Lookup User
  /-- Whether the store rejects a write of this record. -/
  saveTokenErr : Token F → Option GoError
  PublicKeyFromBase58 : String → Except GoError PublicKey
  FindAssociatedTokenAddress : PublicKey → PublicKey → Except GoError PublicKey
  GetAccountInfo : PublicKey → Except GoError (List Nat)
  /-- The method `token.Account.UnmarshalBinary` followed by reading `.Mint`. -/
  decodeTokenAccountMint : List Nat → Except GoError PublicKey
  GetTokenAccountBalance : PublicKey → Except GoError Nat
  PrepareTransferTransaction :
    PublicKey → PublicKey → PublicKey → PublicKey → Nat → Except GoError String
  SendSignedTransaction : String → Except GoError Signature
  /-- The conversion `uint64(amount * 1e9)`. -/
  toAtomic : F → Nat
  /-- The division `amountFloat / 1e9`. -/
  divE9 : F → F
  parseAmountFromString : String → Except GoError F
  /-- The n-th random identifier (`uuid.New()`, `solana.NewRandomPrivateKey()`). -/
  rand : Nat → String
  /-- The reading of `time.Now()` at the n-th draw. -/
  now : Nat → Nat

/-- The mutable part: ownership records, the call trace, the number of draws. -/
structure World (F : Type) where
  tokens : List (Token F)
  calls : List (Call F)
  draws : Nat

/-- Append a call to the trace. -/
def World.log {F : Type} (w : World F) (c : Call F) : World F :=
  { w with calls := w.calls ++ [c] }

/-- Replace the record with the identifier of `t`, or append `t` when none has it. -/
def upsert {F : Type} (ts : List (Token F)) (t : Token F) : List (Token F) :=
  if ts.any (fun x => decide (x.ID = t.ID)) then
    ts.map (fun x => if x.ID = t.ID then t else x)
  else ts ++ [t]

/-- Modelled from the spec: `storage.DB.SaveToken` is not among the sources
(`storage/db.go` elides it, noting only that it includes ON CONFLICT for updates).
The spec calls it `upsertOwnershipRecord(record) -> ok|error`, gives every
ownership record an identifier, and says the system appends a new record per
event; a failed write is assumed not applied. So: on error the records are
unchanged, otherwise the record is upserted on its identifier. -/
def SaveToken {F : Type} (env : Env F) (w : World F) (t : Token F) :
    Option GoError × World F :=
  let w := w.log (.SaveToken t)
  match env.saveTokenErr t with
  | some e => (some e, w)
  | none => (none, { w with tokens := upsert w.tokens t })

/-- The sum of the amounts of the records of one (asset, owner) pair. -/
def balance {F : Type} [Add F] [Zero F] (ts : List (Token F)) (assetID ownerID : String) : F :=
  ((ts.filter (fun t => decide (t.AssetID = assetID ∧ t.OwnerID = ownerID))).map
    (fun t => t.Amount)).sum

/-- The sum of the amounts of all records of one asset. -/
def assetTotal {F : Type} [Add F] [Zero F] (ts : List (Token F)) (assetID : String) : F :=
  ((ts.filter (fun t => decide (t.AssetID = assetID))).map (fun t => t.Amount)).sum

/-! ## services/tokenization_service.go -/

/-- The result triple of `PrepareTransferTokenFromUser`. -/
structure PrepareResult where
  serializedTx : String
  toATA : PublicKey
  err : Option GoError
  deriving DecidableEq, Repr

/-- The early return `return "", solana.PublicKey{}, err`. -/
def PrepareResult.fail (e : GoError) : PrepareResult := ⟨"", PublicKey.zero, some e⟩

/-- The check of the destination account (tokenization_service.go, lines 70-86):
`GetAccountInfo` is called on the recipient's associated token account, and its
answer only decides whether a line is logged. -/
def checkDestinationATA {F : Type} (env : Env F) (w : World F) (toATA : PublicKey) : World F :=
  let w := w.log (.GetAccountInfo toATA)
  match env.GetAccountInfo toATA with
  | .error err => if err.Error = "account not found" then w else w
  | .ok _ => w

/-- The method `TokenizationService.PrepareTransferTokenFromUser`. -/
def PrepareTransferTokenFromUser {F : Type} (env : Env F) (w : World F)
    (assetID fromUserID toUserID : String) (amount : F) : PrepareResult × World F :=
  let w := w.log (.GetUser fromUserID)
  let fromUser := env.GetUser fromUserID
  match fromUser.err with
  | some e => (.fail (.wrap "erro ao buscar usuário remetente: " e), w)
  | none =>
  if fromUser.found = false ∨ fromUser.val.SolanaPubKey = "" then
    (.fail (.new "usuário remetente não encontrado ou sem chave pública Solana"), w)
  else
  let w := w.log (.GetUser toUserID)
  let toUser := env.GetUser toUserID
  match toUser.err with
  | some e => (.fail (.wrap "erro ao buscar usuário destinatário: " e), w)
  | none =>
  if toUser.found = false ∨ toUser.val.SolanaPubKey = "" then
    (.fail (.new "usuário destinatário não encontrado ou sem chave pública Solana"), w)
  else
  let w := w.log (.GetAsset assetID)
  let asset := env.GetAsset assetID
  match asset.err with
  | some e => (.fail (.wrap "erro ao buscar ativo: " e), w)
  | none =>
  if asset.found = false ∨ asset.val.MintAddress = "" then
    (.fail (.new "ativo não encontrado ou não tokenizado"), w)
  else
  match env.PublicKeyFromBase58 asset.val.MintAddress with
  | .error e => (.fail (.wrap "endereço de Mint inválido: " e), w)
  | .ok mintAddress =>
  match env.PublicKeyFromBase58 fromUser.val.SolanaPubKey with
  | .error e => (.fail (.wrap "chave pública do remetente inválida: " e), w)
  | .ok fromUserPubKey =>
  match env.PublicKeyFromBase58 toUser.val.SolanaPubKey with
  | .error e => (.fail (.wrap "chave pública do destinatário inválida: " e), w)
  | .ok toUserPubKey =>
  match env.FindAssociatedTokenAddress fromUserPubKey mintAddress with
  | .error e => (.fail (.wrap "falha ao encontrar ATA do remetente: " e), w)
  | .ok fromATA =>
  match env.FindAssociatedTokenAddress toUserPubKey mintAddress with
  | .error e => (.fail (.wrap "falha ao encontrar ATA do destinatário: " e), w)
  | .ok toATA =>
  let w := checkDestinationATA env w toATA
  let w := w.log (.GetTokenAccountBalance fromATA)
  match env.GetTokenAccountBalance fromATA with
  | .error e => (.fail (.wrap "falha ao verificar saldo do remetente na Solana: " e), w)
  | .ok currentBalance =>
  let amountAtomic := env.toAtomic amount
  if currentBalance < amountAtomic then
    (.fail (.new "saldo insuficiente para transferência na Solana"), w)
  else
  let w := w.log (.PrepareTransferTransaction mintAddress fromATA toATA fromUserPubKey amountAtomic)
  match env.PrepareTransferTransaction mintAddress fromATA toATA fromUserPubKey amountAtomic with
  | .error e => (.fail (.wrap "falha ao preparar transação de transferência: " e), w)
  | .ok serializedTx => (⟨serializedTx, toATA, none⟩, w)

/-- The method `TokenizationService.CompleteTransferTokenFromUser`. -/
def CompleteTransferTokenFromUser {F : Type} [Zero F] (env : Env F) (w : World F)
    (assetID fromUserID toUserID : String) (amount : F) (signedTxBase64 : String)
    (destinationATA : PublicKey) : (Token F × Option GoError) × World F :=
  let w := w.log (.GetUser fromUserID)
  let fromUser := env.GetUser fromUserID
  match fromUser.err with
  | some e => ((Token.zero, some (.wrap "erro ao buscar usuário remetente: " e)), w)
  | none =>
  if fromUser.found = false then
    ((Token.zero, some (.new "usuário remetente não encontrado")), w)
  else
  let w := w.log (.GetUser toUserID)
  let toUser := env.GetUser toUserID
  match toUser.err with
  | some e => ((Token.zero, some (.wrap "erro ao buscar usuário destinatário: " e)), w)
  | none =>
  if toUser.found = false then
    ((Token.zero, some (.new "usuário destinatário não encontrado")), w)
  else
  let w := w.log (.GetAsset assetID)
  let asset := env.GetAsset assetID
  match asset.err with
  | some e => ((Token.zero, some (.wrap "erro ao buscar ativo: " e)), w)
  | none =>
  if asset.found = false ∨ asset.val.MintAddress = "" then
    ((Token.zero, some (.new "ativo não encontrado ou não tokenizado")), w)
  else
  -- the source passes `signedTxBase624` here, a misspelling of the parameter
  let w := w.log (.SendSignedTransaction signedTxBase64)
  match env.SendSignedTransaction signedTxBase64 with
  | .error e =>
    ((Token.zero, some (.wrap "falha ao enviar transação assinada para a Solana: " e)), w)
  | .ok txID =>
  let transferredToken : Token F :=
    { ID := env.rand w.draws
      AssetID := asset.val.ID
      OwnerID := toUser.val.ID
      Amount := amount
      SmartContractRules := asset.val.Name ++ " rules"
      IsTradable := true
      CreatedAt := env.now w.draws
      MintAddress := asset.val.MintAddress
      TokenAccountAddress := destinationATA.String
      TransactionID := txID.String }
  match SaveToken env { w with draws := w.draws + 1 } transferredToken with
  | (some e, w) =>
    ((Token.zero, some (.wrap "transação enviada, mas falha ao registrar internamente: " e)), w)
  | (none, w) => ((transferredToken, none), w)

/-! ## blockchain_listener/listener.go -/

/-- How a listener handler ends: a normal return, or a Go panic. -/
inductive Outcome where
  | returned
  | panicked
  deriving DecidableEq, Repr

/-- The decoding of the field `amount` (listener.go, lines 133-147 and 207-221):
a `float64` is taken as it is, a string goes through `parseAmountFromString`,
anything else (or a parse error) makes the handler return. -/
def decodeAmount {F : Type} (env : Env F) (v : JVal F) : Option F :=
  match v.asFloat64 with
  | some x => some x
  | none =>
    match v.asString with
    | some amountStr =>
      match env.parseAmountFromString amountStr with
      | .ok x => some x
      | .error _ => none
    | none => none

/-- The method `BlockchainListener.handleMintTo`. -/
def handleMintTo {F : Type} (env : Env F) (w : World F) (signature : Signature)
    (info : JVal F) : Outcome × World F :=
  match info with
  | .obj infoMap =>
    match (JVal.index infoMap "mint").asString with
    | none => (.panicked, w)
    | some mint =>
    match (JVal.index infoMap "account").asString with
    | none => (.panicked, w)
    | some account =>
    match decodeAmount env (JVal.index infoMap "amount") with
    | none => (.returned, w)
    | some amountFloat =>
    let w := w.log (.GetAssetByMintAddress mint)
    let asset := env.GetAssetByMintAddress mint
    match asset.err with
    | some _ => (.returned, w)
    | none =>
    if asset.found = false then (.returned, w) else
    match (JVal.index infoMap "owner").asString with
    | none => (.panicked, w)
    | some owner =>
    let w := w.log (.GetUserBySolanaPubKey owner)
    let ownerUser := env.GetUserBySolanaPubKey owner
    match ownerUser.err with
    | some _ => (.returned, w)
    | none =>
    if ownerUser.found = false then (.returned, w) else
    let tokenRecord : Token F :=
      { ID := env.rand w.draws
        AssetID := asset.val.ID
        OwnerID := ownerUser.val.ID
        Amount := env.divE9 amountFloat
        SmartContractRules := asset.val.Name ++ " rules"
        IsTradable := true
        MintAddress := mint
        TokenAccountAddress := account
        TransactionID := signature.String
        CreatedAt := env.now w.draws }
    -- a failed save is only logged
    (.returned, (SaveToken env { w with draws := w.draws + 1 } tokenRecord).2)
  | _ => (.returned, w)

/-- The method `BlockchainListener.handleTransfer`. -/
def handleTransfer {F : Type} (env : Env F) (w : World F) (signature : Signature)
    (info : JVal F) : Outcome × World F :=
  match info with
  | .obj infoMap =>
    match (JVal.index infoMap "source").asString with
    | none => (.panicked, w)
    | some source =>
    match (JVal.index infoMap "destination").asString with
    | none => (.panicked, w)
    | some destination =>
    match decodeAmount env (JVal.index infoMap "amount") with
    | none => (.returned, w)
    | some amountFloat =>
    -- solana.MustPublicKeyFromBase58(source)
    match env.PublicKeyFromBase58 source with
    | .error _ => (.panicked, w)
    | .ok sourceKey =>
    let w := w.log (.GetAccountInfo sourceKey)
    match env.GetAccountInfo sourceKey with
    | .error _ => (.returned, w)
    | .ok data =>
    match env.decodeTokenAccountMint data with
    | .error _ => (.returned, w)
    | .ok mintKey =>
    let mintAddress := mintKey.String
    let w := w.log (.GetAssetByMintAddress mintAddress)
    let asset := env.GetAssetByMintAddress mintAddress
    match asset.err with
    | some _ => (.returned, w)
    | none =>
    if asset.found = false then (.returned, w) else
    match (JVal.index infoMap "authority").asString with
    | none => (.panicked, w)
    | some fromOwnerPubKey =>
    match (JVal.index infoMap "destinationOwner").asString with
    | none => (.panicked, w)
    | some toOwnerPubKey =>
    let w := w.log (.GetUserBySolanaPubKey fromOwnerPubKey)
    let fromUser := env.GetUserBySolanaPubKey fromOwnerPubKey
    match fromUser.err with
    | some _ => (.returned, w)
    | none =>
    let w := w.log (.GetUserBySolanaPubKey toOwnerPubKey)
    let toUser := env.GetUserBySolanaPubKey toOwnerPubKey
    match toUser.err with
    | some _ => (.returned, w)
    | none =>
    if fromUser.found = false ∨ toUser.found = false then (.returned, w) else
    let transferredTokenRecord : Token F :=
      { ID := env.rand w.draws
        AssetID := asset.val.ID
        OwnerID := toUser.val.ID
        Amount := env.divE9 amountFloat
        SmartContractRules := "Transferido via blockchain"
        IsTradable := true
        MintAddress := mintAddress
        TokenAccountAddress := destination
        TransactionID := signature.String
        CreatedAt := env.now w.draws }
    (.returned, (SaveToken env { w with draws := w.draws + 1 } transferredTokenRecord).2)
  | _ => (.returned, w)

/-! ## Specification vocabulary -/

/-- The calls made since the world `w`. -/
def newCalls {F : Type} (w w' : World F) : List (Call F) := w'.calls.drop w.calls.length

/-- Both users and the asset are found with non-empty chain identities, the
identities are valid base58, and both associated token accounts derive. -/
structure Resolves {F : Type} (env : Env F) (assetID fromUserID toUserID : String)
    (mintAddress fromUserPubKey toUserPubKey fromATA toATA : PublicKey) : Prop where
  fromErr : (env.GetUser fromUserID).err = none
  fromFound : (env.GetUser fromUserID).found = true
  fromKey : (env.GetUser fromUserID).val.SolanaPubKey ≠ ""
  toErr : (env.GetUser toUserID).err = none
  toFound : (env.GetUser toUserID).found = true
  toKey : (env.GetUser toUserID).val.SolanaPubKey ≠ ""
  assetErr : (env.GetAsset assetID).err = none
  assetFound : (env.GetAsset assetID).found = true
  assetMint : (env.GetAsset assetID).val.MintAddress ≠ ""
  mintB58 : env.PublicKeyFromBase58 (env.GetAsset assetID).val.MintAddress = .ok mintAddress
  fromB58 : env.PublicKeyFromBase58 (env.GetUser fromUserID).val.SolanaPubKey = .ok fromUserPubKey
  toB58 : env.PublicKeyFromBase58 (env.GetUser toUserID).val.SolanaPubKey = .ok toUserPubKey
  fromDerives : env.FindAssociatedTokenAddress fromUserPubKey mintAddress = .ok fromATA
  toDerives : env.FindAssociatedTokenAddress toUserPubKey mintAddress = .ok toATA

/-- Both users are found and the asset is found and tokenized (what Complete checks). -/
structure Found {F : Type} (env : Env F) (assetID fromUserID toUserID : String) : Prop where
  fromErr : (env.GetUser fromUserID).err = none
  fromFound : (env.GetUser fromUserID).found = true
  toErr : (env.GetUser toUserID).err = none
  toFound : (env.GetUser toUserID).found = true
  assetErr : (env.GetAsset assetID).err = none
  assetFound : (env.GetAsset assetID).found = true
  assetMint : (env.GetAsset assetID).val.MintAddress ≠ ""

/-- The payload of a decoded mintTo event: a map whose fields `mint`, `account`
and `owner` are strings. -/
structure MintFields {F : Type} (infoMap : List (String × JVal F))
    (mint account owner : String) : Prop where
  mint : (JVal.index infoMap "mint").asString = some mint
  account : (JVal.index infoMap "account").asString = some account
  owner : (JVal.index infoMap "owner").asString = some owner

/-- The payload of a decoded transfer event: a map whose fields `source`,
`destination`, `authority` and `destinationOwner` are strings. -/
structure TransferFields {F : Type} (infoMap : List (String × JVal F))
    (source destination authority destinationOwner : String) : Prop where
  source : (JVal.index infoMap "source").asString = some source
  destination : (JVal.index infoMap "destination").asString = some destination
  authority : (JVal.index infoMap "authority").asString = some authority
  destinationOwner : (JVal.index infoMap "destinationOwner").asString = some destinationOwner

/-- The identifier `id` is carried by no record of `ts`. -/
def FreshID {F : Type} (ts : List (Token F)) (id : String) : Prop :=
  ∀ t ∈ ts, t.ID ≠ id

/-- The record `handleMintTo` builds at draw `n`. -/
def mintRecord {F : Type} (env : Env F) (n : Nat) (signature : Signature)
    (mint account owner : String) (amountFloat : F) : Token F :=
  { ID := env.rand n
    AssetID := (env.GetAssetByMintAddress mint).val.ID
    OwnerID := (env.GetUserBySolanaPubKey owner).val.ID
    Amount := env.divE9 amountFloat
    SmartContractRules := (env.GetAssetByMintAddress mint).val.Name ++ " rules"
    IsTradable := true
    MintAddress := mint
    TokenAccountAddress := account
    TransactionID := signature.String
    CreatedAt := env.now n }

/-- The record `handleTransfer` builds at draw `n`. -/
def transferRecord {F : Type} (env : Env F) (n : Nat) (signature : Signature)
    (mintAddress destination destinationOwner : String) (amountFloat : F) : Token F :=
  { ID := env.rand n
    AssetID := (env.GetAssetByMintAddress mintAddress).val.ID
    OwnerID := (env.GetUserBySolanaPubKey destinationOwner).val.ID
    Amount := env.divE9 amountFloat
    SmartContractRules := "Transferido via blockchain"
    IsTradable := true
    MintAddress := mintAddress
    TokenAccountAddress := destination
    TransactionID := signature.String
    CreatedAt := env.now n }

/-- The record `CompleteTransferTokenFromUser` builds at draw `n`. -/
def completeRecord {F : Type} (env : Env F) (n : Nat) (assetID toUserID : String) (amount : F)
    (destinationATA : PublicKey) (txID : Signature) : Token F :=
  { ID := env.rand n
    AssetID := (env.GetAsset assetID).val.ID
    OwnerID := (env.GetUser toUserID).val.ID
    Amount := amount
    SmartContractRules := (env.GetAsset assetID).val.Name ++ " rules"
    IsTradable := true
    CreatedAt := env.now n
    MintAddress := (env.GetAsset assetID).val.MintAddress
    TokenAccountAddress := destinationATA.String
    TransactionID := txID.String }

/-- The mint and the owner of a mintTo event resolve, its amount decodes, and
the store accepts writes. -/
structure MintResolves {F : Type} (env : Env F) (infoMap : List (String × JVal F))
    (mint account owner : String) (amountFloat : F) : Prop where
  fields : MintFields infoMap mint account owner
  amount : decodeAmount env (JVal.index infoMap "amount") = some amountFloat
  assetErr : (env.GetAssetByMintAddress mint).err = none
  assetFound : (env.GetAssetByMintAddress mint).found = true
  ownerErr : (env.GetUserBySolanaPubKey owner).err = none
  ownerFound : (env.GetUserBySolanaPubKey owner).found = true
  saves : ∀ t, env.saveTokenErr t = none

/-- The source account of a transfer event decodes to a mint that resolves, both
owners resolve, the amount decodes, and the store accepts writes. -/
structure TransferResolves {F : Type} (env : Env F) (infoMap : List (String × JVal F))
    (source destination authority destinationOwner : String) (amountFloat : F)
    (mintAddress : String) : Prop where
  fields : TransferFields infoMap source destination authority destinationOwner
  amount : decodeAmount env (JVal.index infoMap "amount") = some amountFloat
  sourceMint : ∃ sourceKey data mintKey, env.PublicKeyFromBase58 source = .ok sourceKey
    ∧ env.GetAccountInfo sourceKey = .ok data
    ∧ env.decodeTokenAccountMint data = .ok mintKey ∧ mintKey.String = mintAddress
  assetErr : (env.GetAssetByMintAddress mintAddress).err = none
  assetFound : (env.GetAssetByMintAddress mintAddress).found = true
  fromErr : (env.GetUserBySolanaPubKey authority).err = none
  fromFound : (env.GetUserBySolanaPubKey authority).found = true
  toErr : (env.GetUserBySolanaPubKey destinationOwner).err = none
  toFound : (env.GetUserBySolanaPubKey destinationOwner).found = true
  saves : ∀ t, env.saveTokenErr t = none

/-- The context with which Complete wraps a store failure that follows a
successful submission. -/
def submittedNotRecorded : String := "transação enviada, mas falha ao registrar internamente: "

/-- What a caller can test on an error: its message begins with `ctx`. -/
def GoError.HasContext (e : GoError) (ctx : String) : Prop := ctx.data <+: e.Error.data

/-! ## A concrete environment

Whole-number amounts (`F := Nat`): on whole numbers of this size both
`uint64(amount * 1e9)` and `amountFloat / 1e9` are exact in `float64` whenever
the quotient is whole, which is the case for every value used below. -/

/-- The sender of the integration scenario. -/
def exUser1 : User := ⟨"user-1", "Integration User 1", "user1@integration.com", "PK1", 0⟩

/-- The recipient of the integration scenario. -/
def exUser2 : User := ⟨"user-2", "Integration User 2", "user2@integration.com", "PK2", 0⟩

/-- The zero value `models.User{}`. -/
def User.zero : User := ⟨"", "", "", "", 0⟩

/-- The asset of the integration scenario. -/
def exAsset : Asset Nat := ⟨"asset-goog", "GOOG", "Google LLC", 100000, 0, "MINT"⟩

/-- The zero value `models.Asset{}`. -/
def Asset.zero : Asset Nat := ⟨"", "", "", 0, 0, ""⟩

/-- Two users, one tokenized asset, a sender holding 100000 units on chain. -/
def exEnv : Env Nat where
  GetUser id :=
    if id = "user-1" then ⟨exUser1, true, none⟩
    else if id = "user-2" then ⟨exUser2, true, none⟩
    else ⟨User.zero, false, none⟩
  GetAsset id := if id = "asset-goog" then ⟨exAsset, true, none⟩ else ⟨Asset.zero, false, none⟩
  GetAssetByMintAddress m :=
    if m = "MINT" then ⟨exAsset, true, none⟩ else ⟨Asset.zero, false, none⟩
  GetUserBySolanaPubKey k :=
    if k = "PK1" then ⟨exUser1, true, none⟩
    else if k = "PK2" then ⟨exUser2, true, none⟩
    else ⟨User.zero, false, none⟩
  saveTokenErr _ := none
  PublicKeyFromBase58 s := if s = "" then .error (.new "invalid base58") else .ok ⟨s⟩
  FindAssociatedTokenAddress owner mint := .ok ⟨"ATA-" ++ owner.b58 ++ "-" ++ mint.b58⟩
  GetAccountInfo k :=
    if k.b58 = "ATA-PK1-MINT" ∨ k.b58 = "ATA-PK2-MINT" then .ok [1]
    else .error (.new "account not found")
  decodeTokenAccountMint _ := .ok ⟨"MINT"⟩
  GetTokenAccountBalance k := if k.b58 = "ATA-PK1-MINT" then .ok (100000 * 1000000000) else .ok 0
  PrepareTransferTransaction _ _ _ _ _ := .ok "serialized_tx_base64"
  SendSignedTransaction tx :=
    if tx = "signed_tx_base64" then .ok ⟨"SIG"⟩ else .error (.new "transaction rejected")
  toAtomic a := a * 1000000000
  divE9 a := a / 1000000000
  parseAmountFromString _ := .error (.new "not a number")
  rand n := String.mk (List.replicate (n + 1) 'r')
  now n := n

/-- The environment `exEnv` with a store that rejects every write. -/
def exEnvSaveFails : Env Nat :=
  { exEnv with saveTokenErr := fun _ => some (.new "db unavailable") }

/-- An empty world. -/
def exWorld : World Nat := ⟨[], [], 0⟩

/-- The world in which the sender holds one record of 100 units of the asset. -/
def exWorldHeld : World Nat :=
  ⟨[{ ID := "held", AssetID := "asset-goog", OwnerID := "user-1", Amount := 100,
      SmartContractRules := "Google LLC rules", IsTradable := true, CreatedAt := 0,
      MintAddress := "MINT", TokenAccountAddress := "ATA-PK1-MINT", TransactionID := "SIG0" }],
   [], 0⟩

/-- A mintTo payload: 100 units (in atomic units) of the asset to the sender. -/
def exMintInfo : List (String × JVal Nat) :=
  [("mint", .str "MINT"), ("account", .str "ATA-PK1-MINT"), ("owner", .str "PK1"),
   ("amount", .num 100000000000)]

/-- A mintTo payload for a mint no asset has. -/
def exUnknownMintInfo : List (String × JVal Nat) :=
  [("mint", .str "OTHER"), ("account", .str "ATA-PK1-OTHER"), ("owner", .str "PK1"),
   ("amount", .num 100000000000)]

/-- A mintTo payload whose owner is no user. -/
def exUnknownOwnerMintInfo : List (String × JVal Nat) :=
  [("mint", .str "MINT"), ("account", .str "ATA-PK9-MINT"), ("owner", .str "PK9"),
   ("amount", .num 100000000000)]

/-- A transfer payload: 50 units (in atomic units) from the sender to the recipient. -/
def exTransferInfo : List (String × JVal Nat) :=
  [("source", .str "ATA-PK1-MINT"), ("destination", .str "ATA-PK2-MINT"),
   ("authority", .str "PK1"), ("destinationOwner", .str "PK2"),
   ("amount", .num 50000000000)]

/-- A transfer payload whose destination owner is no user. -/
def exUnknownOwnerTransferInfo : List (String × JVal Nat) :=
  [("source", .str "ATA-PK1-MINT"), ("destination", .str "ATA-PK9-MINT"),
   ("authority", .str "PK1"), ("destinationOwner", .str "PK9"),
   ("amount", .num 50000000000)]

/-- Whether a call goes to the chain client (the others go to the store). -/
def Call.isChainCall {F : Type} : Call F → Bool
  | .GetAccountInfo _ => true
  | .GetTokenAccountBalance _ => true
  | .PrepareTransferTransaction _ _ _ _ _ => true
  | .SendSignedTransaction _ => true
  | _ => false

instance GoError.decidableHasContext (e : GoError) (ctx : String) :
    Decidable (e.HasContext ctx) := by
  unfold GoError.HasContext
  infer_instance

/-- The failure kinds the orchestrator's contract names for Prepare; `Upstream`
stands for the store and chain-client failures. -/
inductive PrepareKind where
  | UserUnavailable
  | AssetNotTokenized
  | InvalidChainIdentity
  | InsufficientBalance
  | TransactionBuildFailure
  | Upstream
  deriving DecidableEq, Repr

/-- What a caller can read off an error of Prepare: the kind, from how the
message begins. -/
def prepareKind (e : GoError) : PrepareKind :=
  if e.HasContext "falha ao preparar transação de transferência: " then
    .TransactionBuildFailure
  else if e.HasContext "endereço de Mint inválido: " ∨ e.HasContext "chave pública do " then
    .InvalidChainIdentity
  else if e.HasContext "usuário " then .UserUnavailable
  else if e.HasContext "ativo não encontrado ou não tokenizado" then .AssetNotTokenized
  else if e.HasContext "saldo insuficiente para transferência na Solana" then
    .InsufficientBalance
  else .Upstream

/-- The user is found and has a chain public key. -/
structure UserOk {F : Type} (env : Env F) (userID : String) : Prop where
  err : (env.GetUser userID).err = none
  found : (env.GetUser userID).found = true
  key : (env.GetUser userID).val.SolanaPubKey ≠ ""

/-- The asset is found and tokenized. -/
structure AssetOk {F : Type} (env : Env F) (assetID : String) : Prop where
  err : (env.GetAsset assetID).err = none
  found : (env.GetAsset assetID).found = true
  mint : (env.GetAsset assetID).val.MintAddress ≠ ""

/-- The environment `exEnv` with one more user, who has no chain public key. -/
def exEnvKeyless : Env Nat :=
  { exEnv with
    GetUser := fun id =>
      if id = "user-3" then ⟨⟨"user-3", "Integration User 3", "user3@integration.com", "", 0⟩,
        true, none⟩
      else exEnv.GetUser id }

/-! ## blockchain_listener/listener.go: the subscription loop -/

/-- The constant `token.ProgramID` of the SPL token program. -/
def tokenProgramID : PublicKey := ⟨"TokenkegQfeZyiNwAJbNbGKPFXCWuBvf9Ss623VQ5DA"⟩

/-- The value `ix.Parsed` of a parsed instruction: its type and its payload. -/
structure ParsedInstruction (F : Type) where
  ParsedType : String
  Info : JVal F

/-- One instruction `ix` of an inner-instruction group. -/
structure Instruction (F : Type) where
  ProgramID : PublicKey
  Parsed : Option (ParsedInstruction F)
  Data : List Nat

/-- One element of `Meta.InnerInstructions`. -/
structure InnerInstruction (F : Type) where
  Index : Nat
  Instructions : List (Instruction F)

/-- The struct behind `txResp.Transaction.Meta`. -/
structure TransactionMeta (F : Type) where
  InnerInstructions : List (InnerInstruction F)

/-- The value `txResp.Transaction`; `Meta` is a pointer, read without a nil check. -/
structure TransactionEnvelope (F : Type) where
  Meta : Option (TransactionMeta F)

/-- The response `txResp` of `GetTransaction`. -/
structure GetTransactionResult (F : Type) where
  Transaction : Option (TransactionEnvelope F)

/-- The value `got.Value` of a signature notification. -/
structure SignatureResult where
  Signature : Signature
  Err : Option String
  ConfirmationStatus : String
  deriving DecidableEq, Repr

/-- What one call of `sub.Recv()` yields. -/
inductive Recv where
  | ok (got : SignatureResult)
  | error (err : GoError)
  deriving DecidableEq, Repr

/-- A `solana.PrivateKey` with the public key it derives. -/
structure PrivateKey where
  secret : String
  pub : PublicKey
  deriving DecidableEq, Repr

/-- The method `PrivateKey.PublicKey()`. -/
def PrivateKey.PublicKey (k : PrivateKey) : PublicKey := k.pub

/-- The chain endpoints the listener talks to. -/
structure Feed (F : Type) where
  Connect : String → Except GoError Unit
  PrivateKeyFromBase58 : String → Except GoError PrivateKey
  SignatureSubscribe : PublicKey → Except GoError Unit
  GetTransaction : Signature → Except GoError (Option (GetTransactionResult F))

/-- The struct `BlockchainListener` (its clients and store are `Feed` and `Env`). -/
structure BlockchainListener where
  FeePayerPK : PrivateKey
  deriving DecidableEq, Repr

/-- The result of a constructor that may call `log.Fatalf`, which ends the process. -/
inductive Boot (α : Type) where
  | fatal (msg : String)
  | ok (a : α)

/-- The function `NewBlockchainListener`. -/
def NewBlockchainListener {F : Type} (feed : Feed F) (rpcEndpoint feePayerKeyBase58 : String) :
    Boot BlockchainListener :=
  match feed.Connect rpcEndpoint with
  | .error err => .fatal ("Falha ao conectar ao WebSocket Solana: " ++ err.Error)
  | .ok _ =>
  match feed.PrivateKeyFromBase58 feePayerKeyBase58 with
  | .error err =>
    .fatal ("Falha ao carregar chave privada do Fee Payer para listener: " ++ err.Error)
  | .ok feePayer => .ok ⟨feePayer⟩

/-- The body of the inner loop of `ProcessTransaction` for one instruction `ix`. -/
def processInstruction {F : Type} (env : Env F) (w : World F) (signature : Signature)
    (ix : Instruction F) : Outcome × World F :=
  if ix.ProgramID = tokenProgramID then
    match ix.Parsed with
    | none => (.returned, w)
    | some parsed =>
      if parsed.ParsedType = "mintTo" then handleMintTo env w signature parsed.Info
      else if parsed.ParsedType = "transfer" then handleTransfer env w signature parsed.Info
      else (.returned, w)
  else (.returned, w)

/-- The inner loop `for _, ix := range instruction.Instructions`. -/
def processInstructions {F : Type} (env : Env F) (w : World F) (signature : Signature) :
    List (Instruction F) → Outcome × World F
  | [] => (.returned, w)
  | ix :: rest =>
    match processInstruction env w signature ix with
    | (.panicked, w) => (.panicked, w)
    | (.returned, w) => processInstructions env w signature rest

/-- The outer loop `for _, instruction := range ...InnerInstructions`. -/
def processInnerInstructions {F : Type} (env : Env F) (w : World F) (signature : Signature) :
    List (InnerInstruction F) → Outcome × World F
  | [] => (.returned, w)
  | instruction :: rest =>
    match processInstructions env w signature instruction.Instructions with
    | (.panicked, w) => (.panicked, w)
    | (.returned, w) => processInnerInstructions env w signature rest

/-- The method `BlockchainListener.ProcessTransaction`. -/
def ProcessTransaction {F : Type} (env : Env F) (feed : Feed F) (w : World F)
    (signature : Signature) : Outcome × World F :=
  let w := w.log (.GetTransaction signature)
  match feed.GetTransaction signature with
  | .error _ => (.returned, w)
  | .ok none => (.returned, w)
  | .ok (some txResp) =>
    match txResp.Transaction with
    | none => (.returned, w)
    | some tx =>
      match tx.Meta with
      | none => (.panicked, w)
      | some txMeta => processInnerInstructions env w signature txMeta.InnerInstructions

/-- How far `StartListening` got on a finite run of the subscription: still in
the loop (blocked in `Recv`), returned, or ended by a panic. -/
inductive ListenOutcome where
  | listening
  | returned
  | panicked
  deriving DecidableEq, Repr

/-- The loop `for { got, err := sub.Recv() ... }` over what `Recv` yields. -/
def listenLoop {F : Type} (env : Env F) (feed : Feed F) (w : World F) :
    List Recv → ListenOutcome × World F
  | [] => (.listening, w)
  | .error _ :: rest => listenLoop env feed (w.log (.Sleep 5)) rest
  | .ok got :: rest =>
    if got.Err = none ∧ got.ConfirmationStatus = "finalized" then
      match ProcessTransaction env feed w got.Signature with
      | (.panicked, w) => (.panicked, w.log .Unsubscribe)
      | (.returned, w) => listenLoop env feed w rest
    else listenLoop env feed w rest

/-- The method `BlockchainListener.StartListening`, run on what `Recv` yields. -/
def StartListening {F : Type} (env : Env F) (feed : Feed F) (l : BlockchainListener)
    (w : World F) (stream : List Recv) : ListenOutcome × World F :=
  let w := w.log (.SignatureSubscribe l.FeePayerPK.PublicKey)
  match feed.SignatureSubscribe l.FeePayerPK.PublicKey with
  | .error _ => (.returned, w)
  | .ok _ => listenLoop env feed w stream

/-- The signature a `GetTransaction` call asks for. -/
def Call.fetched {F : Type} : Call F → Option Signature
  | .GetTransaction signature => some signature
  | _ => none

/-- The signatures for which the calls `cs` fetch the transaction, in order:
`ProcessTransaction` begins with that fetch. -/
def processedSignatures {F : Type} (cs : List (Call F)) : List Signature :=
  cs.filterMap Call.fetched

/-- The signature of a notification that passes the filter of the loop. -/
def Recv.accepted : Recv → Option Signature
  | .ok got =>
    if got.Err = none ∧ got.ConfirmationStatus = "finalized" then some got.Signature else none
  | .error _ => none

/-- A feed that answers: the transaction of SIG holds one transfer instruction
of the token program, GONE has a nil response, BARE a response without payload. -/
def exFeed : Feed Nat where
  Connect _ := .ok ()
  PrivateKeyFromBase58 s := .ok ⟨s, ⟨"FEEPAYER"⟩⟩
  SignatureSubscribe _ := .ok ()
  GetTransaction signature :=
    if signature.b58 = "SIG" then
      .ok (some ⟨some ⟨some ⟨[⟨0, [⟨tokenProgramID, some ⟨"transfer", .obj exTransferInfo⟩,
        []⟩]⟩]⟩⟩⟩)
    else if signature.b58 = "GONE" then .ok none
    else if signature.b58 = "BARE" then .ok (some ⟨none⟩)
    else .error (.new "transaction not found")

/-- A feed whose WebSocket endpoint refuses connections and subscriptions. -/
def exFeedDown : Feed Nat :=
  { exFeed with
    Connect := fun _ => .error (.new "connection refused")
    SignatureSubscribe := fun _ => .error (.new "stream closed") }

/-- A listener for the fee payer of the scenario. -/
def exListener : BlockchainListener := ⟨⟨"FEEPAYER-SECRET", ⟨"FEEPAYER"⟩⟩⟩

/-- Five deliveries: a finalized success, a receive error, a failed transaction,
a success that is only confirmed, and another finalized success. -/
def exStream : List Recv :=
  [.ok ⟨⟨"SIG"⟩, none, "finalized"⟩, .error (.new "read timeout"),
   .ok ⟨⟨"FAILED"⟩, some "InstructionError", "finalized"⟩,
   .ok ⟨⟨"EARLY"⟩, none, "confirmed"⟩, .ok ⟨⟨"GONE"⟩, none, "finalized"⟩]

/-- A mintTo payload with the fields of the chain's parsed format (account,
amount, mint, mintAuthority): it has no `owner`. -/
def exChainMintInfo : List (String × JVal Nat) :=
  [("account", .str "ATA-PK1-MINT"), ("amount", .str "100000000000"), ("mint", .str "MINT"),
   ("mintAuthority", .str "FEEPAYER")]

/-- A transfer payload whose source is not base58. -/
def exBadSourceTransferInfo : List (String × JVal Nat) :=
  [("source", .str ""), ("destination", .str "ATA-PK2-MINT"), ("authority", .str "PK1"),
   ("destinationOwner", .str "PK2"), ("amount", .num 50000000000)]

/-! ## parseAmountFromString on whole amounts -/

/-- The value of the digits `cs` read after the value `acc`; `none` when some
character is not a decimal digit. -/
def decimalValueFrom : Nat → List Char → Option Nat
  | acc, [] => some acc
  | acc, c :: cs =>
    if c.isDigit then decimalValueFrom (acc * 10 + (c.toNat - 48)) cs else none

/-- The whole number a non-empty string of decimal digits denotes. -/
def decimalValue (s : String) : Option Nat :=
  if s.data = [] then none else decimalValueFrom 0 s.data

/-- By how many bits `n` exceeds `p` significant bits, counted up to `fuel`. -/
def excessBits (p : Nat) : Nat → Nat → Nat
  | 0, _ => 0
  | fuel + 1, n => if n < 2 ^ p then 0 else excessBits p fuel (n / 2) + 1

/-- The whole number `n < 2 ^ (p + 64)` rounded to `p` significant bits, to
nearest with ties to even: the rounding of `big.Float.Float64` for `p = 53`. -/
def roundToBits (p n : Nat) : Nat :=
  let sh := excessBits p 64 n
  if sh = 0 then n
  else
    let q := n / 2 ^ sh
    let r := n % 2 ^ sh
    let half := 2 ^ (sh - 1)
    if half < r ∨ (r = half ∧ q % 2 = 1) then (q + 1) * 2 ^ sh else q * 2 ^ sh

/-- The function `parseAmountFromString` on the strings of decimal digits that
denote some `n < 2 ^ 64`: `f.Parse(s, 10)` on a zero `big.Float` works at 64 bits
of precision and so holds `n` exactly, and `f.Float64()` rounds it to the 53
bits of a `float64`. The result is the whole number the returned `float64`
denotes. Every other string is left to `rest`. -/
def parseAmountFromString (rest : String → Except GoError Nat) (s : String) :
    Except GoError Nat :=
  match decimalValue s with
  | some n => if n < 2 ^ 64 then .ok (roundToBits 53 n) else rest s
  | none => rest s

/-- The whole numbers a `float64` holds: a significand of at most 53 bits times a
power of two no greater than 2^971 (the largest finite exponent). -/
def IsFloat64Whole (x : Nat) : Prop := ∃ m k, m < 2 ^ 53 ∧ k ≤ 971 ∧ x = m * 2 ^ k

/-! ## services/solana_integration_service.go -/

/-- The zero value `solana.Signature{}` (64 zero bytes). -/
def Signature.zero : Signature :=
  ⟨"1111111111111111111111111111111111111111111111111111111111111111"⟩

/-- The instruction `token.NewTransferInstruction(amount, source, destination,
owner)`: the owner of the source account is its one signer. -/
structure TransferInstruction where
  ProgramID : PublicKey
  Amount : Nat
  Source : PublicKey
  Destination : PublicKey
  Owner : PublicKey
  deriving DecidableEq, Repr

/-- A `solana.Transaction`: payer, instructions, blockhash, and the signatures
collected so far, in the order of the signer keys. -/
structure Transaction where
  Payer : PublicKey
  Instructions : List TransferInstruction
  RecentBlockhash : String
  Signatures : List Signature
  deriving DecidableEq, Repr

/-- The keys that must sign: the payer first, then the owners named by the
instructions, each once. -/
def Transaction.signerKeys (tx : Transaction) : List PublicKey :=
  (tx.Payer :: tx.Instructions.map (fun ix => ix.Owner)).dedup

/-- Some required signature slot is unfilled: a signature is missing or zero. -/
def Transaction.incomplete (tx : Transaction) : Prop :=
  tx.Signatures.length < tx.signerKeys.length ∨ Signature.zero ∈ tx.Signatures

/-- The function `solana.NewTransaction` with the option `TransactionPayer`. -/
def NewTransaction (instructions : List TransferInstruction) (recentBlockhash : String)
    (payer : PublicKey) : Except GoError Transaction :=
  if instructions = [] then
    .error (.new "requires at-least one instruction to create a transaction")
  else .ok ⟨payer, instructions, recentBlockhash, []⟩

/-- The calls `SolanaIntegrationService` makes to the chain client. -/
inductive RpcCall where
  | GetRecentBlockhash
  | SendTransactionWithOpts (tx : Transaction)
  | GetSignatureStatuses (txID : Signature)
  deriving DecidableEq, Repr

/-- The chain client and the codecs `SolanaIntegrationService` relies on. -/
structure Rpc where
  GetRecentBlockhash : Except GoError String
  SendTransactionWithOpts : Transaction → Except GoError Signature
  GetSignatureStatuses : Signature → Except GoError Unit
  /-- The method `PrivateKey.Sign` on the message of a transaction. -/
  signMessage : PrivateKey → Transaction → Except GoError Signature
  MarshalBinary : Transaction → Except GoError (List Nat)
  UnmarshalBinary : List Nat → Except GoError Transaction
  base64Encode : List Nat → String
  base64Decode : String → Except GoError (List Nat)

/-- The loop of `Transaction.Sign` over the signer keys: the getter is asked for
the private key of every one of them, and a key it does not hold is an error. -/
def signAll (rpc : Rpc) (getter : PublicKey → Option PrivateKey) (tx : Transaction) :
    List PublicKey → Except GoError Transaction
  | [] => .ok tx
  | key :: keys =>
    match getter key with
    | none =>
      .error (.new ("signer key \"" ++ key.String
        ++ "\" not found. Ensure all the signer keys are in the vault"))
    | some privateKey =>
      match rpc.signMessage privateKey tx with
      | .error e => .error (.wrap ("failed to signed with key \"" ++ key.String ++ "\": ") e)
      | .ok s => signAll rpc getter { tx with Signatures := tx.Signatures ++ [s] } keys

/-- The method `Transaction.Sign(getter)` of the client library. -/
def Transaction.Sign (rpc : Rpc) (tx : Transaction) (getter : PublicKey → Option PrivateKey) :
    Except GoError Transaction :=
  signAll rpc getter tx tx.signerKeys

/-- The struct `SolanaIntegrationService` (its clients are `Rpc`). -/
structure SolanaIntegrationService where
  FeePayer : PrivateKey
  deriving DecidableEq, Repr

/-- The signer lookup `PrepareTransferTransaction` hands to `tx.Sign`. -/
def SolanaIntegrationService.feePayerOnly (s : SolanaIntegrationService) (key : PublicKey) :
    Option PrivateKey :=
  if key = s.FeePayer.PublicKey then some s.FeePayer else none

/-- The method `SolanaIntegrationService.PrepareTransferTransaction`; the source
does not use `mintAddress` either. -/
def SolanaIntegrationService.PrepareTransferTransaction (s : SolanaIntegrationService)
    (rpc : Rpc) (calls : List RpcCall) (mintAddress fromATA toATA fromOwnerPubKey : PublicKey)
    (amount : Nat) : (String × Option GoError) × List RpcCall :=
  let calls := calls ++ [.GetRecentBlockhash]
  match rpc.GetRecentBlockhash with
  | .error e => (("", some (.wrap "falha ao obter blockhash: " e)), calls)
  | .ok recentBlockhash =>
  let transferInstruction : TransferInstruction :=
    ⟨tokenProgramID, amount, fromATA, toATA, fromOwnerPubKey⟩
  match NewTransaction [transferInstruction] recentBlockhash s.FeePayer.PublicKey with
  | .error e => (("", some (.wrap "falha ao criar transação de transferência: " e)), calls)
  | .ok tx =>
  match tx.Sign rpc s.feePayerOnly with
  | .error e => (("", some (.wrap "falha ao assinar transação pelo FeePayer: " e)), calls)
  | .ok tx =>
  match rpc.MarshalBinary tx with
  | .error e => (("", some (.wrap "falha ao serializar transação: " e)), calls)
  | .ok serializedTx => ((rpc.base64Encode serializedTx, none), calls)

/-- The method `SolanaIntegrationService.SendSignedTransaction`. -/
def SolanaIntegrationService.SendSignedTransaction (rpc : Rpc) (calls : List RpcCall)
    (signedTxBase64 : String) : (Signature × Option GoError) × List RpcCall :=
  match rpc.base64Decode signedTxBase64 with
  | .error e =>
    ((Signature.zero, some (.wrap "falha ao decodificar transação assinada: " e)), calls)
  | .ok signedTxBytes =>
  match rpc.UnmarshalBinary signedTxBytes with
  | .error e => ((Signature.zero, some (.wrap "falha ao deserializar transação: " e)), calls)
  | .ok tx =>
  let calls := calls ++ [.SendTransactionWithOpts tx]
  match rpc.SendTransactionWithOpts tx with
  | .error e =>
    ((Signature.zero, some (.wrap "falha ao enviar transação assinada: " e)), calls)
  | .ok txID =>
  let calls := calls ++ [.GetSignatureStatuses txID]
  -- both outcomes of the status lookup are only logged
  match rpc.GetSignatureStatuses txID with
  | .error _ => ((txID, none), calls)
  | .ok _ => ((txID, none), calls)

/-- The service of the scenario: its fee payer is the key FEEPAYER. -/
def exService : SolanaIntegrationService := ⟨⟨"FEEPAYER-SECRET", ⟨"FEEPAYER"⟩⟩⟩

/-- The transfer of 50 units from the sender, signed by the fee payer only: one
signature for the two signer keys. -/
def exPartialTx : Transaction :=
  ⟨⟨"FEEPAYER"⟩, [⟨tokenProgramID, 50000000000, ⟨"ATA-PK1-MINT"⟩, ⟨"ATA-PK2-MINT"⟩, ⟨"PK1"⟩⟩],
   "BLOCKHASH", [⟨"signed-by-FEEPAYER"⟩]⟩

/-- A chain client that accepts what it is sent; the string "partial" decodes to
`exPartialTx`. -/
def exRpc : Rpc where
  GetRecentBlockhash := .ok "BLOCKHASH"
  SendTransactionWithOpts _ := .ok ⟨"SIG"⟩
  GetSignatureStatuses _ := .ok ()
  signMessage k _ := .ok ⟨"signed-by-" ++ k.pub.b58⟩
  MarshalBinary tx := .ok [tx.Signatures.length]
  UnmarshalBinary bytes :=
    if bytes = [1] then .ok exPartialTx else .error (.new "unexpected end of input")
  base64Encode bytes := String.mk (bytes.map (fun b => Char.ofNat (65 + b)))
  base64Decode s := if s = "partial" then .ok [1] else .error (.new "illegal base64 data")

/-- The environment `exEnv` whose string amounts go through `parseAmountFromString`. -/
def exEnvParsing : Env Nat :=
  { exEnv with
    parseAmountFromString := parseAmountFromString (fun _ => .error (.new "not a number")) }

/-- The mintTo payload `exMintInfo` with the amount given as a string. -/
def exMintInfoString : List (String × JVal Nat) :=
  [("mint", .str "MINT"), ("account", .str "ATA-PK1-MINT"), ("owner", .str "PK1"),
   ("amount", .str "100000000000")]

/-! ## handlers/user_handler.go -/

/-- An HTTP answer: the status code and either the error text or the encoded value. -/
structure HttpResponse (α : Type) where
  status : Nat
  body : Except String α

/-- Whether `encoding/json` takes the object key `key` for the struct field
tagged `field`: the names are equal up to case. For the tags `name` and `email`
the case folding of `encoding/json` is that of the ASCII letters, since no
other character folds to a letter of theirs. -/
def fieldMatches (key field : String) : Bool :=
  key.data.map Char.toLower = field.data.map Char.toLower

/-- What the decoder names a value it cannot store in a string field. -/
def JVal.kind {F : Type} : JVal F → String
  | .null => "null"
  | .bool _ => "bool"
  | .num _ => "number"
  | .str _ => "string"
  | .arr _ => "array"
  | .obj _ => "object"

/-- Decoding of the value `v` into a string field of the request struct that
holds `cur`: a string sets it, null leaves it as it is, any other value is an
`UnmarshalTypeError`. -/
def decodeStringField {F : Type} (field cur : String) (v : JVal F) : Except GoError String :=
  match v with
  | .str s => .ok s
  | .null => .ok cur
  | v => .error (.new ("json: cannot unmarshal " ++ v.kind ++ " into Go struct field ."
      ++ field ++ " of type string"))

/-- One member of the body decoded into the request struct `(name, email)`: a
key that matches neither field is ignored, and after a type error the earliest
error is kept. -/
def decodeCreateUserMember {F : Type} (acc : Except GoError (String × String))
    (member : String × JVal F) : Except GoError (String × String) :=
  match acc with
  | .error err => .error err
  | .ok (name, email) =>
    if fieldMatches member.1 "name" then
      match decodeStringField "name" name member.2 with
      | .error err => .error err
      | .ok s => .ok (s, email)
    else if fieldMatches member.1 "email" then
      match decodeStringField "email" email member.2 with
      | .error err => .error err
      | .ok s => .ok (name, s)
    else .ok (name, email)

/-- The call `json.NewDecoder(r.Body).Decode(&requestBody)` for the request
struct of `CreateUser`, whose fields are `name` and `email`: the members of the
body are decoded in their order, so the last of several members for one field
stands, and every other member is ignored. -/
def decodeCreateUserBody {F : Type} : JVal F → Except GoError (String × String)
  | .obj kv => kv.foldl decodeCreateUserMember (.ok ("", ""))
  | .null => .ok ("", "")
  | v => .error (.new ("json: cannot unmarshal " ++ v.kind ++ " into Go value of type struct"))

/-- The method `UserHandler.CreateUser`; the result of `SaveUser` is not read. -/
def CreateUser {F : Type} (env : Env F) (w : World F) (body : JVal F) :
    HttpResponse User × World F :=
  match decodeCreateUserBody body with
  | .error err => (⟨400, .error err.Error⟩, w)
  | .ok (name, email) =>
    if name = "" ∨ email = "" then (⟨400, .error "Nome e email são obrigatórios"⟩, w)
    else
      let user : User :=
        { ID := env.rand w.draws
          Name := name
          Email := email
          SolanaPubKey := ""
          CreatedAt := env.now w.draws }
      (⟨201, .ok user⟩, { w with draws := w.draws + 1 }.log (.SaveUser user))

/-- The body of the request of `TestCreateUser`. -/
def exCreateUserBody : JVal Nat :=
  .obj [("name", .str "Test User"), ("email", .str "test@example.com"),
        ("solana_pub_key", .str "GnL5gP5tK25fN4W32L54wN92p24fJ84tJ62dK2s8S7b")]

/-! ## More vocabulary for the listener and the services -/

/-- The record a `SaveToken` call passes. -/
def Call.saved {F : Type} : Call F → Option (Token F)
  | .SaveToken t => some t
  | _ => none

/-- The records passed to `SaveToken` by the calls `cs`, in order. -/
def savedRecords {F : Type} (cs : List (Call F)) : List (Token F) :=
  cs.filterMap Call.saved

/-- The environment `exEnv` with a chain client that accepts every signed
transaction under the signature SIG. -/
def exEnvAnyTx : Env Nat :=
  { exEnv with SendSignedTransaction := fun _ => .ok ⟨"SIG"⟩ }

/-- The transfer payload `exTransferInfo` with a `mint` field added, naming
a mint no asset has. -/
def exTransferInfoWithMint : List (String × JVal Nat) :=
  ("mint", .str "OTHER") :: exTransferInfo

/-- A transfer payload whose source is an account the chain does not have. -/
def exUnknownSourceTransferInfo : List (String × JVal Nat) :=
  [("source", .str "ATA-PK9-MINT"), ("destination", .str "ATA-PK2-MINT"),
   ("authority", .str "PK1"), ("destinationOwner", .str "PK2"),
   ("amount", .num 50000000000)]

/-! ## The orchestrator on the integration service -/

/-- The builder the orchestrator calls, when it is the integration service
itself: the Go pair `(string, error)` of `PrepareTransferTransaction` read as a
result. -/
def SolanaIntegrationService.builder (s : SolanaIntegrationService) (rpc : Rpc)
    (mintAddress fromATA toATA fromOwnerPubKey : PublicKey) (amount : Nat) :
    Except GoError String :=
  match (s.PrepareTransferTransaction rpc [] mintAddress fromATA toATA fromOwnerPubKey
    amount).1 with
  | (_, some err) => .error err
  | (serializedTx, none) => .ok serializedTx

/-- The environment `exEnv` whose transaction builder is the integration service
`exService` on the chain client `exRpc`. -/
def exEnvWired : Env Nat :=
  { exEnv with PrepareTransferTransaction := exService.builder exRpc }

/-! ## The records a transaction is due -/

/-- Whether the payload of `ix` is well-formed: in a mintTo of the token program
the fields `mint`, `account` and `owner` are strings; in a transfer the fields
`source`, `destination`, `authority` and `destinationOwner` are strings and the
source is valid base58. Every other instruction is well-formed. -/
def Instruction.wellFormed {F : Type} (env : Env F) (ix : Instruction F) : Bool :=
  if ix.ProgramID = tokenProgramID then
    match ix.Parsed with
    | none => true
    | some parsed =>
      match parsed.Info with
      | .obj infoMap =>
        if parsed.ParsedType = "mintTo" then
          (JVal.index infoMap "mint").asString.isSome
            && (JVal.index infoMap "account").asString.isSome
            && (JVal.index infoMap "owner").asString.isSome
        else if parsed.ParsedType = "transfer" then
          (match (JVal.index infoMap "source").asString with
            | some source =>
              (match env.PublicKeyFromBase58 source with
                | .ok _ => true
                | .error _ => false)
            | none => false)
            && (JVal.index infoMap "destination").asString.isSome
            && (JVal.index infoMap "authority").asString.isSome
            && (JVal.index infoMap "destinationOwner").asString.isSome
        else true
      | _ => true
  else true

/-- The store has an asset for the mint address. -/
def knownMint {F : Type} (env : Env F) (mint : String) : Bool :=
  (env.GetAssetByMintAddress mint).err.isNone && (env.GetAssetByMintAddress mint).found

/-- The store has a user for the chain public key. -/
def knownOwner {F : Type} (env : Env F) (pubKey : String) : Bool :=
  (env.GetUserBySolanaPubKey pubKey).err.isNone && (env.GetUserBySolanaPubKey pubKey).found

/-- The mint of the token account `source`, as the chain reports it. -/
def sourceMint {F : Type} (env : Env F) (source : String) : Option String :=
  match env.PublicKeyFromBase58 source with
  | .error _ => none
  | .ok sourceKey =>
    match env.GetAccountInfo sourceKey with
    | .error _ => none
    | .ok data =>
      match env.decodeTokenAccountMint data with
      | .error _ => none
      | .ok mintKey => some mintKey.String

/-- The record a mintTo payload is due at draw `n`: the minted record when the
amount decodes and the mint and the owner are known, nothing otherwise. -/
def dueMint {F : Type} (env : Env F) (n : Nat) (signature : Signature)
    (infoMap : List (String × JVal F)) : Option (Token F) :=
  match (JVal.index infoMap "mint").asString with
  | none => none
  | some mint =>
  match (JVal.index infoMap "account").asString with
  | none => none
  | some account =>
  match (JVal.index infoMap "owner").asString with
  | none => none
  | some owner =>
  match decodeAmount env (JVal.index infoMap "amount") with
  | none => none
  | some amountFloat =>
    if knownMint env mint ∧ knownOwner env owner then
      some (mintRecord env n signature mint account owner amountFloat)
    else none

/-- The record a transfer payload is due at draw `n`: the transferred record
when the amount decodes, the source account has a known mint and the authority
and the destination owner are known, nothing otherwise. -/
def dueTransfer {F : Type} (env : Env F) (n : Nat) (signature : Signature)
    (infoMap : List (String × JVal F)) : Option (Token F) :=
  match (JVal.index infoMap "source").asString with
  | none => none
  | some source =>
  match (JVal.index infoMap "destination").asString with
  | none => none
  | some destination =>
  match (JVal.index infoMap "authority").asString with
  | none => none
  | some authority =>
  match (JVal.index infoMap "destinationOwner").asString with
  | none => none
  | some destinationOwner =>
  match decodeAmount env (JVal.index infoMap "amount") with
  | none => none
  | some amountFloat =>
  match sourceMint env source with
  | none => none
  | some mintAddress =>
    if knownMint env mintAddress ∧ knownOwner env authority
        ∧ knownOwner env destinationOwner then
      some (transferRecord env n signature mintAddress destination destinationOwner
        amountFloat)
    else none

/-- The record the instruction `ix` is due at draw `n`, in the words of the
specification: a mintTo or a transfer of the token program that is applicable
is due its record; an instruction of another program, an unparsed one, one of
another type and one whose mint or owner is unknown is due nothing. -/
def dueRecord {F : Type} (env : Env F) (n : Nat) (signature : Signature)
    (ix : Instruction F) : Option (Token F) :=
  if ix.ProgramID = tokenProgramID then
    match ix.Parsed with
    | none => none
    | some parsed =>
      match parsed.Info with
      | .obj infoMap =>
        if parsed.ParsedType = "mintTo" then dueMint env n signature infoMap
        else if parsed.ParsedType = "transfer" then dueTransfer env n signature infoMap
        else none
      | _ => none
  else none

/-- The records the instructions `ixs` are due, in their order of appearance;
each record built takes the next draw. -/
def dueRecords {F : Type} (env : Env F) (n : Nat) (signature : Signature) :
    List (Instruction F) → List (Token F)
  | [] => []
  | ix :: rest =>
    match dueRecord env n signature ix with
    | some t => t :: dueRecords env (n + 1) signature rest
    | none => dueRecords env n signature rest

/-- The ownership records after a write of `t` is attempted: a write the store
rejects leaves them as they were. -/
def storeRecord {F : Type} (env : Env F) (ts : List (Token F)) (t : Token F) :
    List (Token F) :=
  match env.saveTokenErr t with
  | some _ => ts
  | none => upsert ts t

/-- The world after the instructions `ixs` are processed one after the other,
each from the world the one before it left. -/
def applyInOrder {F : Type} (env : Env F) (signature : Signature) (w : World F)
    (ixs : List (Instruction F)) : World F :=
  ixs.foldl (fun w ix => (processInstruction env w signature ix).2) w

/-- The environment `exEnv` with a store that rejects the record of the first
draw and accepts every other. -/
def exEnvRejecting : Env Nat :=
  { exEnv with
    saveTokenErr := fun t => if t.ID = "r" then some (.new "db unavailable") else none }

/-- A transaction of three groups. The first holds an unparsed instruction, a
mintTo for an unknown mint and a transfer of another program; the second a mintTo
for an unknown owner, an instruction of another type, the mintTo of the scenario
and the transfer of the scenario; the third the mintTo of the scenario again. -/
def exBatchMeta : TransactionMeta Nat :=
  ⟨[⟨0, [⟨tokenProgramID, none, [3]⟩,
         ⟨tokenProgramID, some ⟨"mintTo", .obj exUnknownMintInfo⟩, []⟩,
         ⟨⟨"11111111111111111111111111111111"⟩, some ⟨"transfer", .obj exTransferInfo⟩, []⟩]⟩,
    ⟨1, [⟨tokenProgramID, some ⟨"mintTo", .obj exUnknownOwnerMintInfo⟩, []⟩,
         ⟨tokenProgramID, some ⟨"burn", .obj exMintInfo⟩, []⟩,
         ⟨tokenProgramID, some ⟨"mintTo", .obj exMintInfo⟩, []⟩,
         ⟨tokenProgramID, some ⟨"transfer", .obj exTransferInfo⟩, []⟩]⟩,
    ⟨2, [⟨tokenProgramID, some ⟨"mintTo", .obj exMintInfo⟩, []⟩]⟩]⟩

/-- The feed `exFeed` in which the signature BATCH has the transaction
`exBatchMeta`. -/
def exFeedBatch : Feed Nat :=
  { exFeed with
    GetTransaction := fun signature =>
      if signature.b58 = "BATCH" then .ok (some ⟨some ⟨some exBatchMeta⟩⟩)
      else exFeed.GetTransaction signature }

/-! ## Basic lemmas -/

@[simp] theorem log_calls {F : Type} (w : World F) (c : Call F) :
    (w.log c).calls = w.calls ++ [c] := rfl

@[simp] theorem log_tokens {F : Type} (w : World F) (c : Call F) :
    (w.log c).tokens = w.tokens := rfl

@[simp] theorem log_draws {F : Type} (w : World F) (c : Call F) :
    (w.log c).draws = w.draws := rfl

@[simp] theorem checkDestinationATA_eq {F : Type} (env : Env F) (w : World F)
    (toATA : PublicKey) : checkDestinationATA env w toATA = w.log (.GetAccountInfo toATA) := by
  unfold checkDestinationATA
  simp only []
  split
  · exact ite_self _
  · rfl

theorem newCalls_append {F : Type} (w w' : World F) (cs : List (Call F))
    (h : w'.calls = w.calls ++ cs) : newCalls w w' = cs := by
  simp [newCalls, h]

/-! ## Prepare -/

/-- C1: when both users and the asset resolve and the sender's on-chain balance
is below the requested amount in atomic units, Prepare returns the
insufficient-balance error with an empty serialized transaction, and the calls
it made are the three lookups, the destination check and the balance query: no
transaction is built or submitted. -/
theorem prepare_insufficient_balance {F : Type} (env : Env F) (w : World F)
    (assetID fromUserID toUserID : String) (amount : F)
    (mintAddress fromUserPubKey toUserPubKey fromATA toATA : PublicKey) (currentBalance : Nat)
    (hres : Resolves env assetID fromUserID toUserID mintAddress fromUserPubKey toUserPubKey
      fromATA toATA)
    (hbal : env.GetTokenAccountBalance fromATA = .ok currentBalance)
    (hlt : currentBalance < env.toAtomic amount) :
    (PrepareTransferTokenFromUser env w assetID fromUserID toUserID amount).1
        = ⟨"", PublicKey.zero, some (.new "saldo insuficiente para transferência na Solana")⟩
      ∧ newCalls w (PrepareTransferTokenFromUser env w assetID fromUserID toUserID amount).2
        = [.GetUser fromUserID, .GetUser toUserID, .GetAsset assetID, .GetAccountInfo toATA,
           .GetTokenAccountBalance fromATA]
      ∧ (∀ c ∈ newCalls w (PrepareTransferTokenFromUser env w assetID fromUserID toUserID amount).2,
          (∀ m a b o n, c ≠ .PrepareTransferTransaction m a b o n)
            ∧ ∀ tx, c ≠ .SendSignedTransaction tx)
      ∧ (PrepareTransferTokenFromUser env w assetID fromUserID toUserID amount).2.tokens
        = w.tokens := by
  obtain ⟨h1, h2, h3, h4, h5, h6, h7, h8, h9, h10, h11, h12, h13, h14⟩ := hres
  have hrun : PrepareTransferTokenFromUser env w assetID fromUserID toUserID amount
      = (⟨"", PublicKey.zero, some (.new "saldo insuficiente para transferência na Solana")⟩,
         ((((w.log (.GetUser fromUserID)).log (.GetUser toUserID)).log (.GetAsset assetID)).log
            (.GetAccountInfo toATA)).log (.GetTokenAccountBalance fromATA)) := by
    simp [PrepareTransferTokenFromUser, h1, h2, h3, h4, h5, h6, h7, h8, h9, h10, h11, h12, h13,
      h14, hbal, hlt, PrepareResult.fail]
  rw [hrun]
  have hc : newCalls w (((((w.log (.GetUser fromUserID)).log (.GetUser toUserID)).log
      (.GetAsset assetID)).log (.GetAccountInfo toATA)).log (.GetTokenAccountBalance fromATA))
      = [.GetUser fromUserID, .GetUser toUserID, .GetAsset assetID, .GetAccountInfo toATA,
         .GetTokenAccountBalance fromATA] :=
    newCalls_append _ _ _ (by simp)
  refine ⟨rfl, hc, ?_, rfl⟩
  intro c hmem
  rw [hc] at hmem
  simp at hmem
  rcases hmem with h | h | h | h | h <;> subst h <;> simp

/-! ## Complete -/

/-- C7: when both users and a tokenized asset are found, submission succeeds with
signature S and the store accepts the write, Complete returns no error and a
record owned by the receiver, for the asset, with the amount argument and
transaction id S; the calls made are the three lookups, the submission and one
SaveToken of exactly that record. -/
theorem complete_success {F : Type} [Zero F] (env : Env F) (w : World F)
    (assetID fromUserID toUserID : String) (amount : F) (signedTxBase64 : String)
    (destinationATA : PublicKey) (S : Signature)
    (hfound : Found env assetID fromUserID toUserID)
    (hsend : env.SendSignedTransaction signedTxBase64 = .ok S)
    (hsave : ∀ t, env.saveTokenErr t = none) :
    ∃ tok : Token F,
      (CompleteTransferTokenFromUser env w assetID fromUserID toUserID amount signedTxBase64
          destinationATA).1 = (tok, none)
      ∧ tok.OwnerID = (env.GetUser toUserID).val.ID
      ∧ tok.AssetID = (env.GetAsset assetID).val.ID
      ∧ tok.Amount = amount
      ∧ tok.TransactionID = S.String
      ∧ newCalls w (CompleteTransferTokenFromUser env w assetID fromUserID toUserID amount
          signedTxBase64 destinationATA).2
        = [.GetUser fromUserID, .GetUser toUserID, .GetAsset assetID,
           .SendSignedTransaction signedTxBase64, .SaveToken tok] := by
  obtain ⟨h1, h2, h3, h4, h5, h6, h7⟩ := hfound
  refine ⟨{ ID := env.rand w.draws
            AssetID := (env.GetAsset assetID).val.ID
            OwnerID := (env.GetUser toUserID).val.ID
            Amount := amount
            SmartContractRules := (env.GetAsset assetID).val.Name ++ " rules"
            IsTradable := true
            CreatedAt := env.now w.draws
            MintAddress := (env.GetAsset assetID).val.MintAddress
            TokenAccountAddress := destinationATA.String
            TransactionID := S.String }, ?_, rfl, rfl, rfl, rfl, ?_⟩
  · simp [CompleteTransferTokenFromUser, SaveToken, h1, h2, h3, h4, h5, h6, h7, hsend, hsave]
  · apply newCalls_append
    simp [CompleteTransferTokenFromUser, SaveToken, h1, h2, h3, h4, h5, h6, h7, hsend, hsave]

/-- C10: when the sender is not found, the recipient is not found, or the asset
is not found or has no mint address, Complete returns an error and the empty
record, makes no SendSignedTransaction and no SaveToken call, and leaves the
ownership records unchanged. -/
theorem complete_fail_fast {F : Type} [Zero F] (env : Env F) (w : World F)
    (assetID fromUserID toUserID : String) (amount : F) (signedTxBase64 : String)
    (destinationATA : PublicKey)
    (h : (env.GetUser fromUserID).found = false ∨ (env.GetUser toUserID).found = false
      ∨ (env.GetAsset assetID).found = false ∨ (env.GetAsset assetID).val.MintAddress = "") :
    (CompleteTransferTokenFromUser env w assetID fromUserID toUserID amount signedTxBase64
        destinationATA).1.2 ≠ none
      ∧ (CompleteTransferTokenFromUser env w assetID fromUserID toUserID amount signedTxBase64
        destinationATA).1.1 = Token.zero
      ∧ (∀ c ∈ newCalls w (CompleteTransferTokenFromUser env w assetID fromUserID toUserID amount
          signedTxBase64 destinationATA).2,
          (∀ tx, c ≠ .SendSignedTransaction tx) ∧ ∀ t, c ≠ .SaveToken t)
      ∧ (CompleteTransferTokenFromUser env w assetID fromUserID toUserID amount signedTxBase64
        destinationATA).2.tokens = w.tokens := by
  unfold CompleteTransferTokenFromUser
  simp only []
  split
  · simp [newCalls]
  · split
    · simp [newCalls]
    · split
      · simp [newCalls]
      · split
        · simp [newCalls]
        · split
          · simp [newCalls]
          · split
            · simp [newCalls]
            · exfalso
              simp_all

/-! ## Listener: dropped events -/

/-- C5: for a mintTo event (a payload whose mint and account are strings) whose
mint address has no matching asset, handleMintTo returns normally, makes no
SaveToken call (its only call is the asset lookup) and leaves the ownership
records unchanged. -/
theorem handleMintTo_unknown_mint {F : Type} (env : Env F) (w : World F)
    (signature : Signature) (infoMap : List (String × JVal F)) (mint account : String)
    (hmint : (JVal.index infoMap "mint").asString = some mint)
    (haccount : (JVal.index infoMap "account").asString = some account)
    (hnot : (env.GetAssetByMintAddress mint).found = false) :
    (handleMintTo env w signature (.obj infoMap)).1 = .returned
      ∧ (∀ c ∈ newCalls w (handleMintTo env w signature (.obj infoMap)).2,
          ∀ t, c ≠ .SaveToken t)
      ∧ (handleMintTo env w signature (.obj infoMap)).2.tokens = w.tokens := by
  simp only [handleMintTo, hmint, haccount]
  split
  · simp [newCalls]
  · split
    · simp [newCalls]
    · simp [hnot, newCalls]

/-- C6: a mintTo event whose owner public key has no matching user, and a
transfer event (with a base58 source) in which the authority or the destination
owner has no matching user, make the handler return normally with no SaveToken
call and the ownership records unchanged. -/
theorem unknown_owner_dropped {F : Type} (env : Env F) (w : World F)
    (signature : Signature) (infoMap : List (String × JVal F)) :
    (∀ mint account owner, MintFields infoMap mint account owner →
      (env.GetUserBySolanaPubKey owner).found = false →
      (handleMintTo env w signature (.obj infoMap)).1 = .returned
        ∧ (∀ c ∈ newCalls w (handleMintTo env w signature (.obj infoMap)).2,
            ∀ t, c ≠ .SaveToken t)
        ∧ (handleMintTo env w signature (.obj infoMap)).2.tokens = w.tokens)
    ∧ (∀ source destination authority destinationOwner sourceKey,
      TransferFields infoMap source destination authority destinationOwner →
      env.PublicKeyFromBase58 source = .ok sourceKey →
      ((env.GetUserBySolanaPubKey authority).found = false
        ∨ (env.GetUserBySolanaPubKey destinationOwner).found = false) →
      (handleTransfer env w signature (.obj infoMap)).1 = .returned
        ∧ (∀ c ∈ newCalls w (handleTransfer env w signature (.obj infoMap)).2,
            ∀ t, c ≠ .SaveToken t)
        ∧ (handleTransfer env w signature (.obj infoMap)).2.tokens = w.tokens) := by
  refine ⟨?_, ?_⟩
  · rintro mint account owner ⟨hm, ha, ho⟩ hnot
    simp only [handleMintTo, hm, ha, ho]
    split
    · simp [newCalls]
    · split
      · simp [newCalls]
      · split
        · simp [newCalls]
        · split
          · simp [newCalls]
          · simp [hnot, newCalls]
  · rintro source destination authority destinationOwner sourceKey ⟨hs, hd, ha, ho⟩ hkey hnot
    simp only [handleTransfer, hs, hd, ha, ho, hkey]
    split
    · simp [newCalls]
    · split
      · simp [newCalls]
      · split
        · simp [newCalls]
        · split
          · simp [newCalls]
          · split
            · simp [newCalls]
            · split
              · simp [newCalls]
              · split
                · simp [newCalls]
                · simp [newCalls]

/-! ## Listener: saved records -/

theorem upsert_fresh {F : Type} (ts : List (Token F)) (t : Token F)
    (h : FreshID ts t.ID) : upsert ts t = ts ++ [t] := by
  unfold upsert
  rw [if_neg]
  simp only [List.any_eq_true, decide_eq_true_eq, not_exists, not_and]
  exact fun x hx => h x hx

theorem freshID_append {F : Type} (ts : List (Token F)) (t : Token F) (id : String)
    (h : FreshID ts id) (hne : t.ID ≠ id) : FreshID (ts ++ [t]) id := by
  intro x hx
  rcases List.mem_append.mp hx with hx | hx
  · exact h x hx
  · rw [List.mem_singleton.mp hx]
    exact hne

theorem balance_append_match {F : Type} [AddMonoid F] (ts : List (Token F)) (t : Token F)
    (assetID ownerID : String) (ha : t.AssetID = assetID) (ho : t.OwnerID = ownerID) :
    balance (ts ++ [t]) assetID ownerID = balance ts assetID ownerID + t.Amount := by
  simp [balance, List.filter_append, List.filter_cons, ha, ho]

theorem balance_append_other {F : Type} [AddMonoid F] (ts : List (Token F)) (t : Token F)
    (assetID ownerID : String) (h : ¬ (t.AssetID = assetID ∧ t.OwnerID = ownerID)) :
    balance (ts ++ [t]) assetID ownerID = balance ts assetID ownerID := by
  simp [balance, List.filter_append, List.filter_cons, h]

theorem handleMintTo_saved {F : Type} (env : Env F) (w : World F) (signature : Signature)
    (infoMap : List (String × JVal F)) (mint account owner : String) (amountFloat : F)
    (hres : MintResolves env infoMap mint account owner amountFloat)
    (hfresh : FreshID w.tokens (env.rand w.draws)) :
    handleMintTo env w signature (.obj infoMap)
      = (.returned,
         { tokens := w.tokens ++ [mintRecord env w.draws signature mint account owner amountFloat]
           calls := w.calls ++ [.GetAssetByMintAddress mint, .GetUserBySolanaPubKey owner,
             .SaveToken (mintRecord env w.draws signature mint account owner amountFloat)]
           draws := w.draws + 1 }) := by
  obtain ⟨⟨hm, ha, ho⟩, hamt, hae, haf, hue, huf, hsave⟩ := hres
  have hup := upsert_fresh w.tokens
    (mintRecord env w.draws signature mint account owner amountFloat) hfresh
  simp only [mintRecord] at hup
  simp [handleMintTo, SaveToken, World.log, hm, ha, ho, hamt, hae, haf, hue, huf, hsave,
    mintRecord, hup]

theorem handleTransfer_saved {F : Type} (env : Env F) (w : World F) (signature : Signature)
    (infoMap : List (String × JVal F)) (source destination authority destinationOwner : String)
    (amountFloat : F) (mintAddress : String)
    (hres : TransferResolves env infoMap source destination authority destinationOwner
      amountFloat mintAddress)
    (hfresh : FreshID w.tokens (env.rand w.draws)) :
    ∃ sourceKey, env.PublicKeyFromBase58 source = .ok sourceKey ∧
    handleTransfer env w signature (.obj infoMap)
      = (.returned,
         { tokens := w.tokens ++ [transferRecord env w.draws signature mintAddress destination
             destinationOwner amountFloat]
           calls := w.calls ++ [.GetAccountInfo sourceKey, .GetAssetByMintAddress mintAddress,
             .GetUserBySolanaPubKey authority, .GetUserBySolanaPubKey destinationOwner,
             .SaveToken (transferRecord env w.draws signature mintAddress destination
               destinationOwner amountFloat)]
           draws := w.draws + 1 }) := by
  obtain ⟨⟨hs, hd, ha, ho⟩, hamt, ⟨sourceKey, data, mintKey, hk, hinfo, hdec, hmk⟩, hae, haf,
    hfe, hff, hte, htf, hsave⟩ := hres
  subst hmk
  refine ⟨sourceKey, hk, ?_⟩
  have hup := upsert_fresh w.tokens
    (transferRecord env w.draws signature mintKey.String destination destinationOwner
      amountFloat) hfresh
  simp only [transferRecord] at hup
  simp [handleTransfer, SaveToken, World.log, hs, hd, ha, ho, hamt, hk, hinfo, hdec, hae, haf,
    hfe, hff, hte, htf, hsave, transferRecord, hup]

theorem complete_saved {F : Type} [Zero F] (env : Env F) (w : World F)
    (assetID fromUserID toUserID : String) (amount : F) (signedTxBase64 : String)
    (destinationATA : PublicKey) (S : Signature)
    (hfound : Found env assetID fromUserID toUserID)
    (hsend : env.SendSignedTransaction signedTxBase64 = .ok S)
    (hsave : ∀ t, env.saveTokenErr t = none)
    (hfresh : FreshID w.tokens (env.rand w.draws)) :
    CompleteTransferTokenFromUser env w assetID fromUserID toUserID amount signedTxBase64
        destinationATA
      = ((completeRecord env w.draws assetID toUserID amount destinationATA S, none),
         { tokens := w.tokens ++ [completeRecord env w.draws assetID toUserID amount
             destinationATA S]
           calls := w.calls ++ [.GetUser fromUserID, .GetUser toUserID, .GetAsset assetID,
             .SendSignedTransaction signedTxBase64,
             .SaveToken (completeRecord env w.draws assetID toUserID amount destinationATA S)]
           draws := w.draws + 1 }) := by
  obtain ⟨h1, h2, h3, h4, h5, h6, h7⟩ := hfound
  have hup := upsert_fresh w.tokens
    (completeRecord env w.draws assetID toUserID amount destinationATA S) hfresh
  simp only [completeRecord] at hup
  simp [CompleteTransferTokenFromUser, SaveToken, World.log, h1, h2, h3, h4, h5, h6, h7, hsend,
    hsave, completeRecord, hup]

/-! ## Reconciliation applied twice -/

/-- C2, as stated, fails: the mint and the owner resolve, yet the second
application of the same mintTo event with the same signature adds a second
record, and the (asset, owner) balance is 200 instead of 100. -/
theorem mint_twice_not_idempotent :
    (handleMintTo exEnv (handleMintTo exEnv exWorld ⟨"SIG"⟩ (.obj exMintInfo)).2 ⟨"SIG"⟩
        (.obj exMintInfo)).2.tokens
      ≠ (handleMintTo exEnv exWorld ⟨"SIG"⟩ (.obj exMintInfo)).2.tokens
    ∧ balance (handleMintTo exEnv exWorld ⟨"SIG"⟩ (.obj exMintInfo)).2.tokens
        "asset-goog" "user-1" = 100
    ∧ balance (handleMintTo exEnv (handleMintTo exEnv exWorld ⟨"SIG"⟩ (.obj exMintInfo)).2
        ⟨"SIG"⟩ (.obj exMintInfo)).2.tokens "asset-goog" "user-1" = 200 := by
  decide

/-- C2, amended: when the mint and the owner(s) resolve and record identifiers
are fresh, each application of the same mintTo or transfer event with the same
signature appends one more ownership record carrying that signature; after the
second application the (asset, owner) balance has grown by the event's amount
once more. -/
theorem reconcile_twice_appends {F : Type} [AddMonoid F] (env : Env F) (w : World F)
    (signature : Signature)
    (hfresh1 : FreshID w.tokens (env.rand w.draws))
    (hfresh2 : FreshID w.tokens (env.rand (w.draws + 1)))
    (hne : env.rand w.draws ≠ env.rand (w.draws + 1)) :
    (∀ infoMap mint account owner amountFloat,
      MintResolves env infoMap mint account owner amountFloat →
      (handleMintTo env w signature (.obj infoMap)).2.tokens
          = w.tokens ++ [mintRecord env w.draws signature mint account owner amountFloat]
        ∧ (handleMintTo env (handleMintTo env w signature (.obj infoMap)).2 signature
            (.obj infoMap)).2.tokens
          = (handleMintTo env w signature (.obj infoMap)).2.tokens
            ++ [mintRecord env (w.draws + 1) signature mint account owner amountFloat]
        ∧ balance (handleMintTo env (handleMintTo env w signature (.obj infoMap)).2 signature
            (.obj infoMap)).2.tokens (env.GetAssetByMintAddress mint).val.ID
            (env.GetUserBySolanaPubKey owner).val.ID
          = balance (handleMintTo env w signature (.obj infoMap)).2.tokens
              (env.GetAssetByMintAddress mint).val.ID (env.GetUserBySolanaPubKey owner).val.ID
            + env.divE9 amountFloat)
    ∧ (∀ infoMap source destination authority destinationOwner amountFloat mintAddress,
      TransferResolves env infoMap source destination authority destinationOwner amountFloat
        mintAddress →
      (handleTransfer env w signature (.obj infoMap)).2.tokens
          = w.tokens ++ [transferRecord env w.draws signature mintAddress destination
              destinationOwner amountFloat]
        ∧ (handleTransfer env (handleTransfer env w signature (.obj infoMap)).2 signature
            (.obj infoMap)).2.tokens
          = (handleTransfer env w signature (.obj infoMap)).2.tokens
            ++ [transferRecord env (w.draws + 1) signature mintAddress destination
              destinationOwner amountFloat]
        ∧ balance (handleTransfer env (handleTransfer env w signature (.obj infoMap)).2 signature
            (.obj infoMap)).2.tokens (env.GetAssetByMintAddress mintAddress).val.ID
            (env.GetUserBySolanaPubKey destinationOwner).val.ID
          = balance (handleTransfer env w signature (.obj infoMap)).2.tokens
              (env.GetAssetByMintAddress mintAddress).val.ID
              (env.GetUserBySolanaPubKey destinationOwner).val.ID
            + env.divE9 amountFloat) := by
  refine ⟨?_, ?_⟩
  · intro infoMap mint account owner amountFloat hres
    have h1 := handleMintTo_saved env w signature infoMap mint account owner amountFloat hres
      hfresh1
    have hf : FreshID (w.tokens ++ [mintRecord env w.draws signature mint account owner
        amountFloat]) (env.rand (w.draws + 1)) :=
      freshID_append _ _ _ hfresh2 hne
    rw [h1]
    have h2 := handleMintTo_saved env
      ⟨w.tokens ++ [mintRecord env w.draws signature mint account owner amountFloat],
       w.calls ++ [.GetAssetByMintAddress mint, .GetUserBySolanaPubKey owner,
         .SaveToken (mintRecord env w.draws signature mint account owner amountFloat)],
       w.draws + 1⟩ signature infoMap mint account owner amountFloat hres hf
    rw [h2]
    refine ⟨rfl, rfl, ?_⟩
    exact balance_append_match _ _ _ _ rfl rfl
  · intro infoMap source destination authority destinationOwner amountFloat mintAddress hres
    obtain ⟨k1, -, h1⟩ := handleTransfer_saved env w signature infoMap source destination
      authority destinationOwner amountFloat mintAddress hres hfresh1
    have hf : FreshID (w.tokens ++ [transferRecord env w.draws signature mintAddress destination
        destinationOwner amountFloat]) (env.rand (w.draws + 1)) :=
      freshID_append _ _ _ hfresh2 hne
    rw [h1]
    obtain ⟨k2, -, h2⟩ := handleTransfer_saved env
      ⟨w.tokens ++ [transferRecord env w.draws signature mintAddress destination
         destinationOwner amountFloat],
       w.calls ++ [.GetAccountInfo k1, .GetAssetByMintAddress mintAddress,
         .GetUserBySolanaPubKey authority, .GetUserBySolanaPubKey destinationOwner,
         .SaveToken (transferRecord env w.draws signature mintAddress destination
           destinationOwner amountFloat)],
       w.draws + 1⟩ signature infoMap source destination
      authority destinationOwner amountFloat mintAddress hres hf
    rw [h2]
    refine ⟨rfl, rfl, ?_⟩
    exact balance_append_match _ _ _ _ rfl rfl

/-! ## Transfer: the sender is not debited -/

/-- C3, evaluated at the failing input: the sender holds 100 units, a transfer
event of 50 units to the recipient is reconciled; afterwards the sender's
records still sum to 100, the recipient's to 50, and the asset's total is 150
instead of 100. -/
theorem transfer_sender_not_debited :
    balance exWorldHeld.tokens "asset-goog" "user-1" = 100
    ∧ assetTotal exWorldHeld.tokens "asset-goog" = 100
    ∧ (handleTransfer exEnv exWorldHeld ⟨"SIG"⟩ (.obj exTransferInfo)).1 = .returned
    ∧ balance (handleTransfer exEnv exWorldHeld ⟨"SIG"⟩ (.obj exTransferInfo)).2.tokens
        "asset-goog" "user-1" = 100
    ∧ balance (handleTransfer exEnv exWorldHeld ⟨"SIG"⟩ (.obj exTransferInfo)).2.tokens
        "asset-goog" "user-2" = 50
    ∧ assetTotal (handleTransfer exEnv exWorldHeld ⟨"SIG"⟩ (.obj exTransferInfo)).2.tokens
        "asset-goog" = 150 := by
  decide

/-! ## Complete followed by reconciliation -/

/-- C4, as stated, fails: Complete submits a transfer of 50 with resulting
signature SIG, the listener then reconciles the transfer instruction of SIG for
the same receiver; the receiver's records for the asset sum to 100, not 50, and
two records carry SIG. -/
theorem complete_then_reconcile_double_credit :
    (CompleteTransferTokenFromUser exEnv exWorldHeld "asset-goog" "user-1" "user-2" 50
        "signed_tx_base64" ⟨"ATA-PK2-MINT"⟩).1.2 = none
    ∧ (CompleteTransferTokenFromUser exEnv exWorldHeld "asset-goog" "user-1" "user-2" 50
        "signed_tx_base64" ⟨"ATA-PK2-MINT"⟩).1.1.TransactionID = "SIG"
    ∧ balance exWorldHeld.tokens "asset-goog" "user-2" = 0
    ∧ balance (handleTransfer exEnv (CompleteTransferTokenFromUser exEnv exWorldHeld "asset-goog"
        "user-1" "user-2" 50 "signed_tx_base64" ⟨"ATA-PK2-MINT"⟩).2 ⟨"SIG"⟩
        (.obj exTransferInfo)).2.tokens "asset-goog" "user-2" = 100
    ∧ ((handleTransfer exEnv (CompleteTransferTokenFromUser exEnv exWorldHeld "asset-goog"
        "user-1" "user-2" 50 "signed_tx_base64" ⟨"ATA-PK2-MINT"⟩).2 ⟨"SIG"⟩
        (.obj exTransferInfo)).2.tokens.filter
          (fun t => decide (t.TransactionID = "SIG" ∧ t.OwnerID = "user-2"))).length = 2 := by
  decide

/-- C4, amended: when Complete submits a transfer of amount a successfully with
signature S and the listener afterwards reconciles the transfer instruction of
S for the same asset and receiver (its atomic amount dividing back to a), both
writes are kept as separate records carrying S (record identifiers being
fresh), and the receiver's total for the asset has increased by a twice. -/
theorem complete_then_reconcile_credits_twice {F : Type} [AddMonoid F] (env : Env F)
    (w : World F) (assetID fromUserID toUserID : String) (amount : F) (signedTxBase64 : String)
    (destinationATA : PublicKey) (S : Signature) (infoMap : List (String × JVal F))
    (source destination authority destinationOwner : String) (amountFloat : F)
    (mintAddress : String)
    (hfound : Found env assetID fromUserID toUserID)
    (hsend : env.SendSignedTransaction signedTxBase64 = .ok S)
    (hres : TransferResolves env infoMap source destination authority destinationOwner
      amountFloat mintAddress)
    (hamount : env.divE9 amountFloat = amount)
    (hasset : (env.GetAssetByMintAddress mintAddress).val.ID = (env.GetAsset assetID).val.ID)
    (hrecv : (env.GetUserBySolanaPubKey destinationOwner).val.ID = (env.GetUser toUserID).val.ID)
    (hfresh1 : FreshID w.tokens (env.rand w.draws))
    (hfresh2 : FreshID w.tokens (env.rand (w.draws + 1)))
    (hne : env.rand w.draws ≠ env.rand (w.draws + 1)) :
    (handleTransfer env (CompleteTransferTokenFromUser env w assetID fromUserID toUserID amount
        signedTxBase64 destinationATA).2 S (.obj infoMap)).2.tokens
      = w.tokens ++ [completeRecord env w.draws assetID toUserID amount destinationATA S,
          transferRecord env (w.draws + 1) S mintAddress destination destinationOwner
            amountFloat]
    ∧ balance (handleTransfer env (CompleteTransferTokenFromUser env w assetID fromUserID
        toUserID amount signedTxBase64 destinationATA).2 S (.obj infoMap)).2.tokens
        (env.GetAsset assetID).val.ID (env.GetUser toUserID).val.ID
      = balance w.tokens (env.GetAsset assetID).val.ID (env.GetUser toUserID).val.ID
        + amount + amount := by
  have h1 := complete_saved env w assetID fromUserID toUserID amount signedTxBase64
    destinationATA S hfound hsend hres.saves hfresh1
  have hf : FreshID (w.tokens ++ [completeRecord env w.draws assetID toUserID amount
      destinationATA S]) (env.rand (w.draws + 1)) :=
    freshID_append _ _ _ hfresh2 hne
  rw [h1]
  obtain ⟨k, -, h2⟩ := handleTransfer_saved env
    ⟨w.tokens ++ [completeRecord env w.draws assetID toUserID amount destinationATA S],
     w.calls ++ [.GetUser fromUserID, .GetUser toUserID, .GetAsset assetID,
       .SendSignedTransaction signedTxBase64,
       .SaveToken (completeRecord env w.draws assetID toUserID amount destinationATA S)],
     w.draws + 1⟩ S infoMap source destination authority
    destinationOwner amountFloat mintAddress hres hf
  rw [h2]
  refine ⟨by simp, ?_⟩
  have e1 := balance_append_match
    (w.tokens ++ [completeRecord env w.draws assetID toUserID amount destinationATA S])
    (transferRecord env (w.draws + 1) S mintAddress destination destinationOwner amountFloat)
    (env.GetAsset assetID).val.ID (env.GetUser toUserID).val.ID hasset hrecv
  have e2 := balance_append_match w.tokens
    (completeRecord env w.draws assetID toUserID amount destinationATA S)
    (env.GetAsset assetID).val.ID (env.GetUser toUserID).val.ID rfl rfl
  have e3 : (transferRecord env (w.draws + 1) S mintAddress destination destinationOwner
      amountFloat).Amount = amount := hamount
  have e4 : (completeRecord env w.draws assetID toUserID amount destinationATA S).Amount
      = amount := rfl
  rw [e3, e2, e4] at e1
  exact e1

/-! ## Complete: the store fails after submission -/

theorem not_prefix_of_head_ne {α : Type} (a b : α) (l m : List α) (h : a ≠ b) :
    ¬ (a :: l) <+: (b :: m) := by
  rintro ⟨t, ht⟩
  simp only [List.cons_append, List.cons.injEq] at ht
  exact h ht.1

theorem wrap_hasContext (ctx : String) (e : GoError) : (GoError.wrap ctx e).HasContext ctx := by
  unfold GoError.HasContext GoError.Error
  rw [String.data_append]
  exact List.prefix_append _ _

/-- C8: when submission succeeded and the store rejects the write, Complete does
not return success: it returns the empty record and the store error wrapped in
the context "transação enviada, mas falha ao registrar internamente"; and of all
errors Complete can return, the message begins with that context exactly when
the entities were found and submission succeeded, so a caller can tell it from
the submission failure and from every validation error. -/
theorem complete_save_failure_distinct {F : Type} [Zero F] (env : Env F) (w : World F)
    (assetID fromUserID toUserID : String) (amount : F) (signedTxBase64 : String)
    (destinationATA : PublicKey) :
    (∀ S e, Found env assetID fromUserID toUserID →
      env.SendSignedTransaction signedTxBase64 = .ok S →
      env.saveTokenErr (completeRecord env w.draws assetID toUserID amount destinationATA S)
        = some e →
      (CompleteTransferTokenFromUser env w assetID fromUserID toUserID amount signedTxBase64
        destinationATA).1 = (Token.zero, some (.wrap submittedNotRecorded e)))
    ∧ (∀ err, (CompleteTransferTokenFromUser env w assetID fromUserID toUserID amount
        signedTxBase64 destinationATA).1.2 = some err →
      (err.HasContext submittedNotRecorded ↔
        (Found env assetID fromUserID toUserID
          ∧ ∃ S, env.SendSignedTransaction signedTxBase64 = .ok S))) := by
  refine ⟨?_, ?_⟩
  · rintro S e ⟨h1, h2, h3, h4, h5, h6, h7⟩ hsend hsave
    simp only [completeRecord] at hsave
    simp [CompleteTransferTokenFromUser, SaveToken, h1, h2, h3, h4, h5, h6, h7, hsend, hsave,
      submittedNotRecorded]
  · intro err
    unfold CompleteTransferTokenFromUser
    simp only []
    split
    · rename_i e he
      intro herr
      simp only [Option.some.injEq] at herr
      subst herr
      refine ⟨fun hp => absurd hp ?_, fun hf => ?_⟩
      · unfold GoError.HasContext GoError.Error
        rw [String.data_append]
        exact not_prefix_of_head_ne _ _ _ _ (by decide)
      · rw [hf.1.fromErr] at he
        cases he
    · split
      · rename_i hc
        intro herr
        simp only [Option.some.injEq] at herr
        subst herr
        refine ⟨fun hp => absurd hp ?_, fun hf => ?_⟩
        · unfold GoError.HasContext GoError.Error
          exact not_prefix_of_head_ne _ _ _ _ (by decide)
        · rw [hf.1.fromFound] at hc
          cases hc
      · split
        · rename_i e he
          intro herr
          simp only [Option.some.injEq] at herr
          subst herr
          refine ⟨fun hp => absurd hp ?_, fun hf => ?_⟩
          · unfold GoError.HasContext GoError.Error
            rw [String.data_append]
            exact not_prefix_of_head_ne _ _ _ _ (by decide)
          · rw [hf.1.toErr] at he
            cases he
        · split
          · rename_i hc
            intro herr
            simp only [Option.some.injEq] at herr
            subst herr
            refine ⟨fun hp => absurd hp ?_, fun hf => ?_⟩
            · unfold GoError.HasContext GoError.Error
              exact not_prefix_of_head_ne _ _ _ _ (by decide)
            · rw [hf.1.toFound] at hc
              cases hc
          · split
            · rename_i e he
              intro herr
              simp only [Option.some.injEq] at herr
              subst herr
              refine ⟨fun hp => absurd hp ?_, fun hf => ?_⟩
              · unfold GoError.HasContext GoError.Error
                rw [String.data_append]
                exact not_prefix_of_head_ne _ _ _ _ (by decide)
              · rw [hf.1.assetErr] at he
                cases he
            · split
              · rename_i hc
                intro herr
                simp only [Option.some.injEq] at herr
                subst herr
                refine ⟨fun hp => absurd hp ?_, fun hf => ?_⟩
                · unfold GoError.HasContext GoError.Error
                  exact not_prefix_of_head_ne _ _ _ _ (by decide)
                · rcases hc with hc | hc
                  · rw [hf.1.assetFound] at hc
                    cases hc
                  · exact absurd hc hf.1.assetMint
              · split
                · rename_i e he
                  intro herr
                  simp only [Option.some.injEq] at herr
                  subst herr
                  refine ⟨fun hp => absurd hp ?_, fun hf => ?_⟩
                  · unfold GoError.HasContext GoError.Error
                    rw [String.data_append]
                    exact not_prefix_of_head_ne _ _ _ _ (by decide)
                  · obtain ⟨S, hS⟩ := hf.2
                    rw [hS] at he
                    cases he
                · split
                  · rename_i hfe hff hte htf hae haf S hS _ e w1 hsv
                    intro herr
                    simp only [Option.some.injEq] at herr
                    subst herr
                    refine ⟨fun _ => ⟨⟨?_, ?_, ?_, ?_, ?_, ?_, ?_⟩, S, hS⟩, fun _ => wrap_hasContext _ _⟩
                    all_goals simp_all
                  · intro herr
                    simp at herr

/-! ## The theorems at the integration scenario -/

theorem exEnv_resolves :
    Resolves exEnv "asset-goog" "user-1" "user-2" ⟨"MINT"⟩ ⟨"PK1"⟩ ⟨"PK2"⟩ ⟨"ATA-PK1-MINT"⟩
      ⟨"ATA-PK2-MINT"⟩ :=
  ⟨rfl, rfl, by decide, rfl, rfl, by decide, rfl, rfl, by decide, rfl, rfl, rfl, rfl, rfl⟩

theorem exEnv_found : Found exEnv "asset-goog" "user-1" "user-2" :=
  ⟨rfl, rfl, rfl, rfl, rfl, rfl, by decide⟩

theorem exEnvSaveFails_found : Found exEnvSaveFails "asset-goog" "user-1" "user-2" :=
  ⟨rfl, rfl, rfl, rfl, rfl, rfl, by decide⟩

theorem exEnv_mintResolves :
    MintResolves exEnv exMintInfo "MINT" "ATA-PK1-MINT" "PK1" 100000000000 :=
  ⟨⟨by decide, by decide, by decide⟩, by decide, rfl, rfl, rfl, rfl, fun _ => rfl⟩

theorem exEnv_transferResolves :
    TransferResolves exEnv exTransferInfo "ATA-PK1-MINT" "ATA-PK2-MINT" "PK1" "PK2" 50000000000
      "MINT" :=
  ⟨⟨by decide, by decide, by decide, by decide⟩, by decide,
    ⟨⟨"ATA-PK1-MINT"⟩, [1], ⟨"MINT"⟩, rfl, rfl, rfl, rfl⟩,
    rfl, rfl, rfl, rfl, rfl, rfl, fun _ => rfl⟩

theorem exWorld_fresh (id : String) : FreshID exWorld.tokens id := by
  intro t ht
  cases ht

/-- Witness of C1: the sender holds 100000 units on chain and 999999 are requested. -/
theorem prepare_insufficient_balance_witness :
    100000 * 1000000000 < exEnv.toAtomic 999999
    ∧ (PrepareTransferTokenFromUser exEnv exWorld "asset-goog" "user-1" "user-2" 999999).1
        = ⟨"", PublicKey.zero, some (.new "saldo insuficiente para transferência na Solana")⟩
    ∧ newCalls exWorld
        (PrepareTransferTokenFromUser exEnv exWorld "asset-goog" "user-1" "user-2" 999999).2
        = [.GetUser "user-1", .GetUser "user-2", .GetAsset "asset-goog",
           .GetAccountInfo ⟨"ATA-PK2-MINT"⟩, .GetTokenAccountBalance ⟨"ATA-PK1-MINT"⟩] :=
  have h := prepare_insufficient_balance exEnv exWorld "asset-goog" "user-1" "user-2" 999999
    ⟨"MINT"⟩ ⟨"PK1"⟩ ⟨"PK2"⟩ ⟨"ATA-PK1-MINT"⟩ ⟨"ATA-PK2-MINT"⟩ (100000 * 1000000000)
    exEnv_resolves rfl (by decide)
  ⟨by decide, h.1, h.2.1⟩

/-- Witness of C7: Complete of 50 units in the integration scenario. -/
theorem complete_success_witness :
    ∃ tok : Token Nat,
      (CompleteTransferTokenFromUser exEnv exWorld "asset-goog" "user-1" "user-2" 50
          "signed_tx_base64" ⟨"ATA-PK2-MINT"⟩).1 = (tok, none)
      ∧ tok.OwnerID = "user-2" ∧ tok.AssetID = "asset-goog" ∧ tok.Amount = 50
      ∧ tok.TransactionID = "SIG"
      ∧ newCalls exWorld (CompleteTransferTokenFromUser exEnv exWorld "asset-goog" "user-1"
          "user-2" 50 "signed_tx_base64" ⟨"ATA-PK2-MINT"⟩).2
        = [.GetUser "user-1", .GetUser "user-2", .GetAsset "asset-goog",
           .SendSignedTransaction "signed_tx_base64", .SaveToken tok] :=
  complete_success exEnv exWorld "asset-goog" "user-1" "user-2" 50 "signed_tx_base64"
    ⟨"ATA-PK2-MINT"⟩ ⟨"SIG"⟩ exEnv_found rfl (fun _ => rfl)

/-- Witness of C10: the recipient is no user of the store. -/
theorem complete_fail_fast_witness :
    (exEnv.GetUser "nobody").found = false
    ∧ (CompleteTransferTokenFromUser exEnv exWorldHeld "asset-goog" "user-1" "nobody" 50
        "signed_tx_base64" ⟨"ATA-PK2-MINT"⟩).1.2 ≠ none
    ∧ (CompleteTransferTokenFromUser exEnv exWorldHeld "asset-goog" "user-1" "nobody" 50
        "signed_tx_base64" ⟨"ATA-PK2-MINT"⟩).2.tokens = exWorldHeld.tokens :=
  have h := complete_fail_fast exEnv exWorldHeld "asset-goog" "user-1" "nobody" 50
    "signed_tx_base64" ⟨"ATA-PK2-MINT"⟩ (Or.inr (Or.inl rfl))
  ⟨rfl, h.1, h.2.2.2⟩

/-- Witness of C5: a mintTo event for a mint no asset has. -/
theorem handleMintTo_unknown_mint_witness :
    (exEnv.GetAssetByMintAddress "OTHER").found = false
    ∧ (handleMintTo exEnv exWorldHeld ⟨"SIG"⟩ (.obj exUnknownMintInfo)).1 = .returned
    ∧ (handleMintTo exEnv exWorldHeld ⟨"SIG"⟩ (.obj exUnknownMintInfo)).2.tokens
        = exWorldHeld.tokens :=
  have h := handleMintTo_unknown_mint exEnv exWorldHeld ⟨"SIG"⟩ exUnknownMintInfo "OTHER"
    "ATA-PK1-OTHER" (by decide) (by decide) rfl
  ⟨rfl, h.1, h.2.2⟩

/-- Witness of C6: a mintTo event and a transfer event whose (destination) owner
is no user. -/
theorem unknown_owner_dropped_witness :
    (exEnv.GetUserBySolanaPubKey "PK9").found = false
    ∧ (handleMintTo exEnv exWorldHeld ⟨"SIG"⟩ (.obj exUnknownOwnerMintInfo)).1 = .returned
    ∧ (handleMintTo exEnv exWorldHeld ⟨"SIG"⟩ (.obj exUnknownOwnerMintInfo)).2.tokens
        = exWorldHeld.tokens
    ∧ (handleTransfer exEnv exWorldHeld ⟨"SIG"⟩ (.obj exUnknownOwnerTransferInfo)).1 = .returned
    ∧ (handleTransfer exEnv exWorldHeld ⟨"SIG"⟩ (.obj exUnknownOwnerTransferInfo)).2.tokens
        = exWorldHeld.tokens :=
  have hm := (unknown_owner_dropped exEnv exWorldHeld ⟨"SIG"⟩ exUnknownOwnerMintInfo).1
    "MINT" "ATA-PK9-MINT" "PK9" ⟨by decide, by decide, by decide⟩ rfl
  have ht := (unknown_owner_dropped exEnv exWorldHeld ⟨"SIG"⟩ exUnknownOwnerTransferInfo).2
    "ATA-PK1-MINT" "ATA-PK9-MINT" "PK1" "PK9" ⟨"ATA-PK1-MINT"⟩
    ⟨by decide, by decide, by decide, by decide⟩ rfl (Or.inr rfl)
  ⟨rfl, hm.1, hm.2.2, ht.1, ht.2.2⟩

/-- Witness of C2 (amended): the mintTo and the transfer event of the integration
scenario, each applied twice to the empty store. -/
theorem reconcile_twice_appends_witness :
    ((handleMintTo exEnv (handleMintTo exEnv exWorld ⟨"SIG"⟩ (.obj exMintInfo)).2 ⟨"SIG"⟩
        (.obj exMintInfo)).2.tokens
      = (handleMintTo exEnv exWorld ⟨"SIG"⟩ (.obj exMintInfo)).2.tokens
        ++ [mintRecord exEnv 1 ⟨"SIG"⟩ "MINT" "ATA-PK1-MINT" "PK1" 100000000000])
    ∧ ((handleTransfer exEnv (handleTransfer exEnv exWorld ⟨"SIG"⟩ (.obj exTransferInfo)).2
        ⟨"SIG"⟩ (.obj exTransferInfo)).2.tokens
      = (handleTransfer exEnv exWorld ⟨"SIG"⟩ (.obj exTransferInfo)).2.tokens
        ++ [transferRecord exEnv 1 ⟨"SIG"⟩ "MINT" "ATA-PK2-MINT" "PK2" 50000000000]) :=
  have h := reconcile_twice_appends exEnv exWorld ⟨"SIG"⟩ (exWorld_fresh _) (exWorld_fresh _)
    (by decide)
  ⟨(h.1 exMintInfo "MINT" "ATA-PK1-MINT" "PK1" 100000000000 exEnv_mintResolves).2.1,
   (h.2 exTransferInfo "ATA-PK1-MINT" "ATA-PK2-MINT" "PK1" "PK2" 50000000000 "MINT"
      exEnv_transferResolves).2.1⟩

/-- Witness of C4 (amended): Complete of 50 units, then reconciliation of the
transfer instruction of the same signature. -/
theorem complete_then_reconcile_credits_twice_witness :
    balance (handleTransfer exEnv (CompleteTransferTokenFromUser exEnv exWorld "asset-goog"
        "user-1" "user-2" 50 "signed_tx_base64" ⟨"ATA-PK2-MINT"⟩).2 ⟨"SIG"⟩
        (.obj exTransferInfo)).2.tokens "asset-goog" "user-2"
      = balance exWorld.tokens "asset-goog" "user-2" + 50 + 50 :=
  (complete_then_reconcile_credits_twice exEnv exWorld "asset-goog" "user-1" "user-2" 50
    "signed_tx_base64" ⟨"ATA-PK2-MINT"⟩ ⟨"SIG"⟩ exTransferInfo "ATA-PK1-MINT" "ATA-PK2-MINT"
    "PK1" "PK2" 50000000000 "MINT" exEnv_found rfl exEnv_transferResolves (by decide)
    rfl rfl (exWorld_fresh _) (exWorld_fresh _) (by decide)).2

/-- Witness of C8: the store rejects the write after a successful submission. -/
theorem complete_save_failure_distinct_witness :
    (CompleteTransferTokenFromUser exEnvSaveFails exWorld "asset-goog" "user-1" "user-2" 50
        "signed_tx_base64" ⟨"ATA-PK2-MINT"⟩).1
      = (Token.zero, some (.wrap submittedNotRecorded (.new "db unavailable")))
    ∧ (GoError.wrap submittedNotRecorded (.new "db unavailable")).HasContext
        submittedNotRecorded :=
  have h := complete_save_failure_distinct exEnvSaveFails exWorld "asset-goog" "user-1" "user-2"
    50 "signed_tx_base64" ⟨"ATA-PK2-MINT"⟩
  have h1 := h.1 ⟨"SIG"⟩ (.new "db unavailable") exEnvSaveFails_found rfl (by decide)
  ⟨h1, (h.2 (.wrap submittedNotRecorded (.new "db unavailable"))
    (by rw [h1])).mpr ⟨exEnvSaveFails_found, ⟨"SIG"⟩, rfl⟩⟩

/-! ## Prepare: validation -/

/-- C11: when a user is not found or has no chain public key, the asset is not
found or not tokenized, or a stored mint or public key is not valid base58,
Prepare returns an error with an empty transaction, and none of the calls it
made goes to the chain client: no GetAccountInfo, no GetTokenAccountBalance, no
PrepareTransferTransaction. -/
theorem prepare_fail_fast {F : Type} (env : Env F) (w : World F)
    (assetID fromUserID toUserID : String) (amount : F)
    (h : (env.GetUser fromUserID).found = false
      ∨ (env.GetUser fromUserID).val.SolanaPubKey = ""
      ∨ (env.GetUser toUserID).found = false
      ∨ (env.GetUser toUserID).val.SolanaPubKey = ""
      ∨ (env.GetAsset assetID).found = false
      ∨ (env.GetAsset assetID).val.MintAddress = ""
      ∨ (∃ e, env.PublicKeyFromBase58 (env.GetAsset assetID).val.MintAddress = .error e)
      ∨ (∃ e, env.PublicKeyFromBase58 (env.GetUser fromUserID).val.SolanaPubKey = .error e)
      ∨ (∃ e, env.PublicKeyFromBase58 (env.GetUser toUserID).val.SolanaPubKey = .error e)) :
    (PrepareTransferTokenFromUser env w assetID fromUserID toUserID amount).1.err ≠ none
      ∧ (PrepareTransferTokenFromUser env w assetID fromUserID toUserID amount).1.serializedTx
        = ""
      ∧ (∀ c ∈ newCalls w
          (PrepareTransferTokenFromUser env w assetID fromUserID toUserID amount).2,
          c.isChainCall = false)
      ∧ (PrepareTransferTokenFromUser env w assetID fromUserID toUserID amount).2.tokens
        = w.tokens := by
  unfold PrepareTransferTokenFromUser
  simp only []
  split
  · simp [newCalls, PrepareResult.fail, Call.isChainCall]
  · split
    · simp [newCalls, PrepareResult.fail, Call.isChainCall]
    · split
      · simp [newCalls, PrepareResult.fail, Call.isChainCall]
      · split
        · simp [newCalls, PrepareResult.fail, Call.isChainCall]
        · split
          · simp [newCalls, PrepareResult.fail, Call.isChainCall]
          · split
            · simp [newCalls, PrepareResult.fail, Call.isChainCall]
            · split
              · simp [newCalls, PrepareResult.fail, Call.isChainCall]
              · split
                · simp [newCalls, PrepareResult.fail, Call.isChainCall]
                · split
                  · simp [newCalls, PrepareResult.fail, Call.isChainCall]
                  · exfalso
                    simp_all

theorem wrap_not_hasContext (ctx ctx' : String) (e : GoError) (a b : Char) (l m : List Char)
    (h1 : ctx.data = a :: l) (h2 : ctx'.data = b :: m) (hab : a ≠ b) :
    ¬ (GoError.wrap ctx' e).HasContext ctx := by
  unfold GoError.HasContext GoError.Error
  rw [String.data_append, h1, h2]
  exact not_prefix_of_head_ne _ _ _ _ hab

/-- C12, as stated, fails: a sender that does not exist and a sender that exists
but has no chain public key make Prepare return the same error. -/
theorem prepare_user_errors_coincide :
    (exEnvKeyless.GetUser "nobody").found = false
    ∧ (exEnvKeyless.GetUser "user-3").found = true
    ∧ (exEnvKeyless.GetUser "user-3").val.SolanaPubKey = ""
    ∧ (PrepareTransferTokenFromUser exEnvKeyless exWorld "asset-goog" "nobody" "user-2" 50).1.err
      = (PrepareTransferTokenFromUser exEnvKeyless exWorld "asset-goog" "user-3" "user-2"
          50).1.err := by
  decide

/-- C12, amended: Prepare reports a user that does not exist and a user that
exists but has no chain public key with one and the same error (one for the
sender, one for the recipient, both of kind UserUnavailable); that kind, an
asset that is not found or not tokenized, a malformed chain identity, an
insufficient balance and a transaction build failure are told apart by how the
message begins. -/
theorem prepare_error_kinds {F : Type} (env : Env F) (w : World F)
    (assetID fromUserID toUserID : String) (amount : F) :
    ((env.GetUser fromUserID).err = none →
      ((env.GetUser fromUserID).found = false
        ∨ (env.GetUser fromUserID).val.SolanaPubKey = "") →
      (PrepareTransferTokenFromUser env w assetID fromUserID toUserID amount).1.err
          = some (.new "usuário remetente não encontrado ou sem chave pública Solana")
        ∧ prepareKind (.new "usuário remetente não encontrado ou sem chave pública Solana")
          = .UserUnavailable)
    ∧ (UserOk env fromUserID → (env.GetUser toUserID).err = none →
      ((env.GetUser toUserID).found = false ∨ (env.GetUser toUserID).val.SolanaPubKey = "") →
      (PrepareTransferTokenFromUser env w assetID fromUserID toUserID amount).1.err
          = some (.new "usuário destinatário não encontrado ou sem chave pública Solana")
        ∧ prepareKind (.new "usuário destinatário não encontrado ou sem chave pública Solana")
          = .UserUnavailable)
    ∧ (UserOk env fromUserID → UserOk env toUserID → (env.GetAsset assetID).err = none →
      ((env.GetAsset assetID).found = false ∨ (env.GetAsset assetID).val.MintAddress = "") →
      (PrepareTransferTokenFromUser env w assetID fromUserID toUserID amount).1.err
          = some (.new "ativo não encontrado ou não tokenizado")
        ∧ prepareKind (.new "ativo não encontrado ou não tokenizado") = .AssetNotTokenized)
    ∧ (UserOk env fromUserID → UserOk env toUserID → AssetOk env assetID →
      ((∃ e, env.PublicKeyFromBase58 (env.GetAsset assetID).val.MintAddress = .error e)
        ∨ (∃ e, env.PublicKeyFromBase58 (env.GetUser fromUserID).val.SolanaPubKey = .error e)
        ∨ (∃ e, env.PublicKeyFromBase58 (env.GetUser toUserID).val.SolanaPubKey = .error e)) →
      ∃ err, (PrepareTransferTokenFromUser env w assetID fromUserID toUserID amount).1.err
          = some err ∧ prepareKind err = .InvalidChainIdentity)
    ∧ (∀ mintAddress fromUserPubKey toUserPubKey fromATA toATA currentBalance,
      Resolves env assetID fromUserID toUserID mintAddress fromUserPubKey toUserPubKey fromATA
        toATA →
      env.GetTokenAccountBalance fromATA = .ok currentBalance →
      currentBalance < env.toAtomic amount →
      (PrepareTransferTokenFromUser env w assetID fromUserID toUserID amount).1.err
          = some (.new "saldo insuficiente para transferência na Solana")
        ∧ prepareKind (.new "saldo insuficiente para transferência na Solana")
          = .InsufficientBalance)
    ∧ (∀ mintAddress fromUserPubKey toUserPubKey fromATA toATA currentBalance e,
      Resolves env assetID fromUserID toUserID mintAddress fromUserPubKey toUserPubKey fromATA
        toATA →
      env.GetTokenAccountBalance fromATA = .ok currentBalance →
      env.toAtomic amount ≤ currentBalance →
      env.PrepareTransferTransaction mintAddress fromATA toATA fromUserPubKey
        (env.toAtomic amount) = .error e →
      (PrepareTransferTokenFromUser env w assetID fromUserID toUserID amount).1.err
          = some (.wrap "falha ao preparar transação de transferência: " e)
        ∧ prepareKind (.wrap "falha ao preparar transação de transferência: " e)
          = .TransactionBuildFailure) := by
  refine ⟨?_, ?_, ?_, ?_, ?_, ?_⟩
  · intro he h
    refine ⟨?_, by decide⟩
    simp [PrepareTransferTokenFromUser, he, h, PrepareResult.fail]
  · rintro ⟨h1, h2, h3⟩ he h
    refine ⟨?_, by decide⟩
    simp [PrepareTransferTokenFromUser, h1, h2, h3, he, h, PrepareResult.fail]
  · rintro ⟨h1, h2, h3⟩ ⟨h4, h5, h6⟩ he h
    refine ⟨?_, by decide⟩
    simp [PrepareTransferTokenFromUser, h1, h2, h3, h4, h5, h6, he, h, PrepareResult.fail]
  · rintro ⟨h1, h2, h3⟩ ⟨h4, h5, h6⟩ ⟨h7, h8, h9⟩ h
    have kmint : ∀ e, prepareKind (.wrap "endereço de Mint inválido: " e)
        = .InvalidChainIdentity := by
      intro e
      unfold prepareKind
      rw [if_neg (wrap_not_hasContext _ _ e _ _ _ _ rfl rfl (by decide)),
        if_pos (Or.inl (wrap_hasContext _ e))]
    have kkey : ∀ ctx e, ("chave pública do ").data <+: ctx.data →
        prepareKind (.wrap ctx e) = .InvalidChainIdentity := by
      intro ctx e hp
      have hc : (GoError.wrap ctx e).HasContext "chave pública do " := by
        unfold GoError.HasContext GoError.Error
        rw [String.data_append]
        exact hp.trans (List.prefix_append _ _)
      have hn : ¬ (GoError.wrap ctx e).HasContext
          "falha ao preparar transação de transferência: " := by
        obtain ⟨t, ht⟩ := hp
        have hd : ctx.data = 'c' :: (("have pública do ").data ++ t) := by
          rw [← ht]
          rfl
        exact wrap_not_hasContext _ _ e _ _ _ _ rfl hd (by decide)
      unfold prepareKind
      rw [if_neg hn, if_pos (Or.inr hc)]
    cases hm : env.PublicKeyFromBase58 (env.GetAsset assetID).val.MintAddress with
    | error e =>
      refine ⟨_, ?_, kmint e⟩
      simp [PrepareTransferTokenFromUser, h1, h2, h3, h4, h5, h6, h7, h8, h9, hm,
        PrepareResult.fail]
    | ok mk =>
      cases hf : env.PublicKeyFromBase58 (env.GetUser fromUserID).val.SolanaPubKey with
      | error e =>
        refine ⟨_, ?_, kkey "chave pública do remetente inválida: " e (by decide)⟩
        simp [PrepareTransferTokenFromUser, h1, h2, h3, h4, h5, h6, h7, h8, h9, hm, hf,
          PrepareResult.fail]
      | ok fk =>
        cases ht : env.PublicKeyFromBase58 (env.GetUser toUserID).val.SolanaPubKey with
        | error e =>
          refine ⟨_, ?_, kkey "chave pública do destinatário inválida: " e (by decide)⟩
          simp [PrepareTransferTokenFromUser, h1, h2, h3, h4, h5, h6, h7, h8, h9, hm, hf, ht,
            PrepareResult.fail]
        | ok tk =>
          exfalso
          simp [hm, hf, ht] at h
  · intro mintAddress fromUserPubKey toUserPubKey fromATA toATA currentBalance hres hbal hlt
    obtain ⟨h1, h2, h3, h4, h5, h6, h7, h8, h9, h10, h11, h12, h13, h14⟩ := hres
    refine ⟨?_, by decide⟩
    simp [PrepareTransferTokenFromUser, h1, h2, h3, h4, h5, h6, h7, h8, h9, h10, h11, h12, h13,
      h14, hbal, hlt, PrepareResult.fail]
  · intro mintAddress fromUserPubKey toUserPubKey fromATA toATA currentBalance e hres hbal hge
      htx
    obtain ⟨h1, h2, h3, h4, h5, h6, h7, h8, h9, h10, h11, h12, h13, h14⟩ := hres
    have hnlt : ¬ currentBalance < env.toAtomic amount := Nat.not_lt.mpr hge
    refine ⟨?_, ?_⟩
    · simp [PrepareTransferTokenFromUser, h1, h2, h3, h4, h5, h6, h7, h8, h9, h10, h11, h12,
        h13, h14, hbal, hnlt, htx, PrepareResult.fail]
    · unfold prepareKind
      rw [if_pos (wrap_hasContext _ e)]

/-! ## Listener: fetching and dispatch -/

theorem processed_log {F : Type} (w : World F) (c : Call F) (h : c.fetched = none) :
    processedSignatures (w.log c).calls = processedSignatures w.calls := by
  simp [processedSignatures, List.filterMap_append, h]

theorem handleMintTo_processed {F : Type} (env : Env F) (w : World F) (signature : Signature)
    (info : JVal F) :
    processedSignatures (handleMintTo env w signature info).2.calls
      = processedSignatures w.calls := by
  unfold handleMintTo SaveToken
  simp only []
  repeat' split
  all_goals simp [processedSignatures, List.filterMap_append, Call.fetched]

theorem handleTransfer_processed {F : Type} (env : Env F) (w : World F) (signature : Signature)
    (info : JVal F) :
    processedSignatures (handleTransfer env w signature info).2.calls
      = processedSignatures w.calls := by
  unfold handleTransfer SaveToken
  simp only []
  repeat' split
  all_goals simp [processedSignatures, List.filterMap_append, Call.fetched]

theorem processInstruction_processed {F : Type} (env : Env F) (w : World F)
    (signature : Signature) (ix : Instruction F) :
    processedSignatures (processInstruction env w signature ix).2.calls
      = processedSignatures w.calls := by
  unfold processInstruction
  repeat' split
  all_goals first
    | rfl
    | exact handleMintTo_processed env w signature _
    | exact handleTransfer_processed env w signature _

theorem processInstructions_processed {F : Type} (env : Env F) (signature : Signature)
    (ixs : List (Instruction F)) (w : World F) :
    processedSignatures (processInstructions env w signature ixs).2.calls
      = processedSignatures w.calls := by
  induction ixs generalizing w with
  | nil => rfl
  | cons ix rest ih =>
    have h := processInstruction_processed env w signature ix
    unfold processInstructions
    split
    · rename_i w1 heq
      rw [heq] at h
      exact h
    · rename_i w1 heq
      rw [heq] at h
      rw [ih w1]
      exact h

theorem processInnerInstructions_processed {F : Type} (env : Env F) (signature : Signature)
    (groups : List (InnerInstruction F)) (w : World F) :
    processedSignatures (processInnerInstructions env w signature groups).2.calls
      = processedSignatures w.calls := by
  induction groups generalizing w with
  | nil => rfl
  | cons g rest ih =>
    have h := processInstructions_processed env signature g.Instructions w
    unfold processInnerInstructions
    split
    · rename_i w1 heq
      rw [heq] at h
      exact h
    · rename_i w1 heq
      rw [heq] at h
      rw [ih w1]
      exact h

theorem processTransaction_processed {F : Type} (env : Env F) (feed : Feed F) (w : World F)
    (signature : Signature) :
    processedSignatures (ProcessTransaction env feed w signature).2.calls
      = processedSignatures w.calls ++ [signature] := by
  have hlog : processedSignatures (w.log (.GetTransaction signature)).calls
      = processedSignatures w.calls ++ [signature] := by
    simp [processedSignatures, List.filterMap_append, Call.fetched]
  unfold ProcessTransaction
  simp only []
  repeat' split
  all_goals first
    | exact hlog
    | (rw [processInnerInstructions_processed]; exact hlog)

/-- C13, evaluated at failing inputs: a payload that is not a map makes both
handlers return, but a map without `mint` (or `source`), a map whose `mint` is
not a string, a mintTo payload without `owner` for a known mint, and a transfer
payload whose source is not base58 end the handler in a panic. -/
theorem handlers_panic_on_undecodable_fields :
    (handleMintTo exEnv exWorld ⟨"SIG"⟩ (.str "mintTo")).1 = .returned
    ∧ (handleTransfer exEnv exWorld ⟨"SIG"⟩ (.str "transfer")).1 = .returned
    ∧ (handleMintTo exEnv exWorld ⟨"SIG"⟩ (.obj [])).1 = .panicked
    ∧ (handleTransfer exEnv exWorld ⟨"SIG"⟩ (.obj [])).1 = .panicked
    ∧ (handleMintTo exEnv exWorld ⟨"SIG"⟩ (.obj [("mint", .num 7)])).1 = .panicked
    ∧ (handleMintTo { exEnv with parseAmountFromString := fun _ => .ok 100000000000 } exWorld
        ⟨"SIG"⟩ (.obj exChainMintInfo)).1 = .panicked
    ∧ (handleTransfer exEnv exWorld ⟨"SIG"⟩ (.obj exBadSourceTransferInfo)).1 = .panicked := by
  decide

/-- C19: when GetTransaction returns an error, a nil response, or a response
with no transaction payload, ProcessTransaction returns normally and its only
effect is the fetch itself: no handler runs, no lookup is made, and the
ownership records are unchanged. -/
theorem processTransaction_nothing_fetched {F : Type} (env : Env F) (feed : Feed F)
    (w : World F) (signature : Signature)
    (h : (∃ e, feed.GetTransaction signature = .error e)
      ∨ feed.GetTransaction signature = .ok none
      ∨ ∃ txResp, feed.GetTransaction signature = .ok (some txResp)
          ∧ txResp.Transaction = none) :
    (ProcessTransaction env feed w signature).1 = .returned
      ∧ newCalls w (ProcessTransaction env feed w signature).2 = [.GetTransaction signature]
      ∧ (ProcessTransaction env feed w signature).2.tokens = w.tokens := by
  have hrun : ProcessTransaction env feed w signature
      = (.returned, w.log (.GetTransaction signature)) := by
    rcases h with ⟨e, he⟩ | he | ⟨txResp, he, hnone⟩
    · simp [ProcessTransaction, he]
    · simp [ProcessTransaction, he]
    · simp [ProcessTransaction, he, hnone]
  rw [hrun]
  exact ⟨rfl, newCalls_append _ _ _ (by simp), rfl⟩

theorem listenLoop_processed {F : Type} (env : Env F) (feed : Feed F) (stream : List Recv)
    (w : World F) (h : (listenLoop env feed w stream).1 = .listening) :
    processedSignatures (listenLoop env feed w stream).2.calls
      = processedSignatures w.calls ++ stream.filterMap Recv.accepted := by
  induction stream generalizing w with
  | nil => simp [listenLoop]
  | cons r rest ih =>
    cases r with
    | error e =>
      simp only [listenLoop] at h ⊢
      rw [ih _ h, processed_log w (.Sleep 5) rfl]
      simp [Recv.accepted]
    | ok got =>
      by_cases hacc : got.Err = none ∧ got.ConfirmationStatus = "finalized"
      · have hp := processTransaction_processed env feed w got.Signature
        simp only [listenLoop, if_pos hacc] at h ⊢
        cases hrun : ProcessTransaction env feed w got.Signature with
        | mk o w1 =>
          rw [hrun] at h hp
          cases o with
          | panicked => simp at h
          | returned =>
            simp only at h ⊢
            rw [ih _ h, hp]
            simp [Recv.accepted, hacc]
      · simp only [listenLoop, if_neg hacc] at h ⊢
        rw [ih _ h]
        simp [Recv.accepted, hacc]

/-- C17: on every run of StartListening that stays in the loop, the signatures
for which ProcessTransaction is invoked are, in order, those of the
notifications that carry no error and have confirmation status "finalized"; a
notification passes that filter exactly under these two conditions, so one
carrying an error is never processed. -/
theorem startListening_processes_accepted {F : Type} (env : Env F) (feed : Feed F)
    (l : BlockchainListener) (w : World F) (stream : List Recv)
    (h : (StartListening env feed l w stream).1 = .listening) :
    processedSignatures (StartListening env feed l w stream).2.calls
        = processedSignatures w.calls ++ stream.filterMap Recv.accepted
      ∧ (∀ got, Recv.accepted (.ok got) = some got.Signature
          ↔ (got.Err = none ∧ got.ConfirmationStatus = "finalized"))
      ∧ ∀ got, got.Err ≠ none → Recv.accepted (.ok got) = none := by
  refine ⟨?_, ?_, ?_⟩
  · cases hsub : feed.SignatureSubscribe l.FeePayerPK.PublicKey with
    | error e => simp [StartListening, hsub] at h
    | ok u =>
      simp only [StartListening, hsub] at h ⊢
      rw [listenLoop_processed env feed stream _ h,
        processed_log w (.SignatureSubscribe l.FeePayerPK.PublicKey) rfl]
  · intro got
    by_cases hacc : got.Err = none ∧ got.ConfirmationStatus = "finalized"
    · simp [Recv.accepted, hacc]
    · simp [Recv.accepted, hacc]
  · intro got hne
    simp [Recv.accepted, hne]

/-! ## Listener: transport failures -/

theorem listenLoop_errors {F : Type} (env : Env F) (feed : Feed F) (stream : List Recv)
    (w : World F) (h : ∀ r ∈ stream, ∃ e, r = Recv.error e) :
    listenLoop env feed w stream
      = (.listening,
         ⟨w.tokens, w.calls ++ List.replicate stream.length (.Sleep 5), w.draws⟩) := by
  induction stream generalizing w with
  | nil => simp [listenLoop]
  | cons r rest ih =>
    obtain ⟨e, he⟩ := h r (List.mem_cons_self _ _)
    subst he
    simp only [listenLoop]
    rw [ih _ (fun r hr => h r (List.mem_cons_of_mem _ hr))]
    simp [List.replicate_succ]

/-- C18, as stated, fails: with an endpoint that refuses the subscription
StartListening returns at once, and with an endpoint that refuses the
connection NewBlockchainListener ends the process through log.Fatalf. -/
theorem listener_stops_on_transport_failure :
    (StartListening exEnv exFeedDown exListener exWorld exStream).1 = .returned
    ∧ ∃ msg, NewBlockchainListener exFeedDown "wss://api.devnet.solana.com" "FEEPAYER-SECRET"
        = Boot.fatal msg :=
  ⟨by decide, _, rfl⟩

/-- C18, amended: a receive error makes the listener wait 5 seconds and call
Recv again on the same subscription, so a run of receive errors leaves it in the
loop having only slept, without returning, ending the process or subscribing
again; a subscribe failure makes StartListening return, and a WebSocket connect
failure makes NewBlockchainListener end the host process. -/
theorem listener_transport_failures {F : Type} (env : Env F) (feed : Feed F)
    (l : BlockchainListener) (w : World F) :
    (∀ stream : List Recv, (∀ r ∈ stream, ∃ e, r = Recv.error e) →
      (∃ u, feed.SignatureSubscribe l.FeePayerPK.PublicKey = .ok u) →
      StartListening env feed l w stream
        = (.listening,
           ⟨w.tokens,
            w.calls ++ (.SignatureSubscribe l.FeePayerPK.PublicKey
              :: List.replicate stream.length (.Sleep 5)),
            w.draws⟩))
    ∧ (∀ stream : List Recv,
      (∃ e, feed.SignatureSubscribe l.FeePayerPK.PublicKey = .error e) →
      StartListening env feed l w stream
        = (.returned, w.log (.SignatureSubscribe l.FeePayerPK.PublicKey)))
    ∧ (∀ rpcEndpoint feePayerKeyBase58 e, feed.Connect rpcEndpoint = .error e →
      NewBlockchainListener feed rpcEndpoint feePayerKeyBase58
        = .fatal ("Falha ao conectar ao WebSocket Solana: " ++ e.Error)) := by
  refine ⟨?_, ?_, ?_⟩
  · rintro stream herr ⟨u, hu⟩
    simp only [StartListening, hu]
    rw [listenLoop_errors env feed stream _ herr]
    simp
  · rintro stream ⟨e, he⟩
    simp only [StartListening, he]
  · intro rpcEndpoint feePayerKeyBase58 e he
    simp only [NewBlockchainListener, he]

/-! ## Listener: the effect of a mint -/

/-- C20: for a mintTo event whose mint resolves to an asset and whose owner
resolves to a user, handleMintTo makes the two lookups and one SaveToken call;
the record passed has the asset's ID, the user's ID, the amount divided by
10^9, the event's mint and account and the signature as transaction id; and,
its identifier being fresh, the (asset, user) balance grows by that amount. -/
theorem handleMintTo_effect {F : Type} [AddMonoid F] (env : Env F) (w : World F)
    (signature : Signature) (infoMap : List (String × JVal F)) (mint account owner : String)
    (amountFloat : F) (hres : MintResolves env infoMap mint account owner amountFloat) :
    ∃ tok : Token F,
      (handleMintTo env w signature (.obj infoMap)).1 = .returned
      ∧ newCalls w (handleMintTo env w signature (.obj infoMap)).2
        = [.GetAssetByMintAddress mint, .GetUserBySolanaPubKey owner, .SaveToken tok]
      ∧ tok.AssetID = (env.GetAssetByMintAddress mint).val.ID
      ∧ tok.OwnerID = (env.GetUserBySolanaPubKey owner).val.ID
      ∧ tok.Amount = env.divE9 amountFloat
      ∧ tok.MintAddress = mint
      ∧ tok.TokenAccountAddress = account
      ∧ tok.TransactionID = signature.String
      ∧ (FreshID w.tokens tok.ID →
          balance (handleMintTo env w signature (.obj infoMap)).2.tokens
              (env.GetAssetByMintAddress mint).val.ID (env.GetUserBySolanaPubKey owner).val.ID
            = balance w.tokens (env.GetAssetByMintAddress mint).val.ID
                (env.GetUserBySolanaPubKey owner).val.ID + env.divE9 amountFloat) := by
  have hrun : handleMintTo env w signature (.obj infoMap)
      = (.returned,
         { tokens := upsert w.tokens
             (mintRecord env w.draws signature mint account owner amountFloat)
           calls := w.calls ++ [.GetAssetByMintAddress mint, .GetUserBySolanaPubKey owner,
             .SaveToken (mintRecord env w.draws signature mint account owner amountFloat)]
           draws := w.draws + 1 }) := by
    obtain ⟨⟨hm, ha, ho⟩, hamt, hae, haf, hue, huf, hsave⟩ := hres
    simp [handleMintTo, SaveToken, World.log, hm, ha, ho, hamt, hae, haf, hue, huf, hsave,
      mintRecord]
  refine ⟨mintRecord env w.draws signature mint account owner amountFloat, ?_, ?_, rfl, rfl,
    rfl, rfl, rfl, rfl, ?_⟩
  · rw [hrun]
  · rw [hrun]
    exact newCalls_append _ _ _ rfl
  · intro hfresh
    rw [hrun]
    show balance (upsert w.tokens _) _ _ = _
    rw [upsert_fresh _ _ hfresh]
    exact balance_append_match _ _ _ _ rfl rfl

/-! ## Amounts given as strings -/

theorem roundToBits_exact (n : Nat) (h : n ≤ 2 ^ 53) : roundToBits 53 n = n := by
  rcases Nat.lt_or_eq_of_le h with hlt | heq
  · have h0 : excessBits 53 64 n = 0 := by
      unfold excessBits
      rw [if_pos hlt]
    simp [roundToBits, h0]
  · subst heq
    decide

/-- C14, as stated, fails: the string "9007199254740993" denotes 2^53 + 1, which
is below 2^64, and parseAmountFromString returns 9007199254740992. -/
theorem parseAmount_loses_precision :
    decimalValue "9007199254740993" = some (2 ^ 53 + 1)
    ∧ 2 ^ 53 + 1 < 2 ^ 64
    ∧ ∀ rest, parseAmountFromString rest "9007199254740993" = .ok 9007199254740992 :=
  ⟨by decide, by decide, fun _ => rfl⟩

theorem excessBits_le (p fuel : Nat) : ∀ n, excessBits p fuel n ≤ fuel := by
  induction fuel with
  | zero =>
    intro n
    simp [excessBits]
  | succ fuel ih =>
    intro n
    unfold excessBits
    split
    · omega
    · have := ih (n / 2)
      omega

theorem excessBits_spec (fuel : Nat) : ∀ n, n < 2 ^ (53 + fuel) →
    n / 2 ^ excessBits 53 fuel n < 2 ^ 53
      ∧ (0 < excessBits 53 fuel n → 2 ^ 52 ≤ n / 2 ^ excessBits 53 fuel n) := by
  induction fuel with
  | zero =>
    intro n hn
    simp only [excessBits, pow_zero, Nat.div_one, lt_self_iff_false, false_implies, and_true]
    simpa using hn
  | succ fuel ih =>
    intro n hn
    unfold excessBits
    by_cases hlt : n < 2 ^ 53
    · rw [if_pos hlt]
      simp only [pow_zero, Nat.div_one, lt_self_iff_false, false_implies, and_true]
      exact hlt
    · rw [if_neg hlt]
      have hhalf : n / 2 < 2 ^ (53 + fuel) := by
        have : 2 ^ (53 + (fuel + 1)) = 2 * 2 ^ (53 + fuel) := by
          rw [← Nat.add_assoc, pow_succ]
          ring
        rw [this] at hn
        omega
      obtain ⟨h1, h2⟩ := ih (n / 2) hhalf
      have hdiv : n / 2 ^ (excessBits 53 fuel (n / 2) + 1)
          = n / 2 / 2 ^ excessBits 53 fuel (n / 2) := by
        rw [pow_succ, Nat.mul_comm, Nat.div_div_eq_div_mul]
      rw [hdiv]
      refine ⟨h1, fun _ => ?_⟩
      by_cases h0 : excessBits 53 fuel (n / 2) = 0
      · rw [h0]
        simp only [pow_zero, Nat.div_one]
        have h53 : (2 : Nat) ^ 53 = 2 * 2 ^ 52 := by norm_num
        rw [h53] at hlt
        omega
      · exact h2 (Nat.pos_of_ne_zero h0)

theorem float64_gap (q sh m k : Nat) (hsh : 0 < sh) (hq : 2 ^ 52 ≤ q) (hm : m < 2 ^ 53) :
    m * 2 ^ k ≤ q * 2 ^ sh ∨ (q + 1) * 2 ^ sh ≤ m * 2 ^ k := by
  by_cases hk : sh ≤ k
  · obtain ⟨d, rfl⟩ := Nat.exists_eq_add_of_le hk
    have e : m * 2 ^ (sh + d) = (m * 2 ^ d) * 2 ^ sh := by
      rw [pow_add]
      ring
    rw [e]
    by_cases hj : m * 2 ^ d ≤ q
    · exact Or.inl (Nat.mul_le_mul_right _ hj)
    · exact Or.inr (Nat.mul_le_mul_right _ (by omega))
  · left
    have hk' : k ≤ sh - 1 := by omega
    have h1 : m * 2 ^ k ≤ 2 ^ 53 * 2 ^ (sh - 1) :=
      Nat.mul_le_mul (Nat.le_of_lt hm) (Nat.pow_le_pow_right (by decide) hk')
    have h2 : (2 : Nat) ^ 53 * 2 ^ (sh - 1) = 2 ^ 52 * 2 ^ sh := by
      obtain ⟨t, rfl⟩ : ∃ t, sh = t + 1 := ⟨sh - 1, by omega⟩
      simp only [Nat.add_sub_cancel]
      rw [pow_succ 2 t]
      ring
    rw [h2] at h1
    exact h1.trans (Nat.mul_le_mul_right _ hq)

theorem roundToBits_nearest (n : Nat) (hn : n < 2 ^ 64) :
    IsFloat64Whole (roundToBits 53 n)
      ∧ ∀ x, IsFloat64Whole x → Nat.dist (roundToBits 53 n) n ≤ Nat.dist x n := by
  have hn' : n < 2 ^ (53 + 64) := lt_of_lt_of_le hn (Nat.pow_le_pow_right (by decide) (by decide))
  obtain ⟨hq, hq52⟩ := excessBits_spec 64 n hn'
  by_cases hsh : excessBits 53 64 n = 0
  · have hr : roundToBits 53 n = n := by simp [roundToBits, hsh]
    rw [hr]
    rw [hsh] at hq
    simp only [pow_zero, Nat.div_one] at hq
    exact ⟨⟨n, 0, hq, by decide, by simp⟩, fun x _ => by simp [Nat.dist_self]⟩
  · have hpos : 0 < excessBits 53 64 n := Nat.pos_of_ne_zero hsh
    have hq52 := hq52 hpos
    have hsh64 : excessBits 53 64 n ≤ 64 := excessBits_le 53 64 n
    unfold roundToBits
    simp only []
    rw [if_neg hsh]
    generalize excessBits 53 64 n = sh at hq hq52 hpos hsh64
    have hP : 2 ^ sh = 2 * 2 ^ (sh - 1) := by
      obtain ⟨t, rfl⟩ : ∃ t, sh = t + 1 := ⟨sh - 1, by omega⟩
      simp only [Nat.add_sub_cancel]
      rw [pow_succ]
      ring
    have hdm : n / 2 ^ sh * 2 ^ sh + n % 2 ^ sh = n := by
      rw [Nat.mul_comm]
      exact Nat.div_add_mod n (2 ^ sh)
    have hr0 : n % 2 ^ sh < 2 ^ sh := Nat.mod_lt _ (Nat.pow_pos (by decide))
    have hup : (n / 2 ^ sh + 1) * 2 ^ sh = n / 2 ^ sh * 2 ^ sh + 2 ^ sh := by
      rw [Nat.add_mul, Nat.one_mul]
    have hgap : ∀ m k, m < 2 ^ 53 →
        m * 2 ^ k ≤ n / 2 ^ sh * 2 ^ sh ∨ n / 2 ^ sh * 2 ^ sh + 2 ^ sh ≤ m * 2 ^ k := by
      intro m k hm
      have h := float64_gap (n / 2 ^ sh) sh m k hpos hq52 hm
      rwa [hup] at h
    have hrepLo : IsFloat64Whole (n / 2 ^ sh * 2 ^ sh) := ⟨n / 2 ^ sh, sh, hq, by omega, rfl⟩
    have hrepHi : IsFloat64Whole ((n / 2 ^ sh + 1) * 2 ^ sh) := by
      by_cases hlt : n / 2 ^ sh + 1 < 2 ^ 53
      · exact ⟨n / 2 ^ sh + 1, sh, hlt, by omega, rfl⟩
      · have he : n / 2 ^ sh + 1 = 2 ^ 53 := by omega
        refine ⟨2 ^ 52, sh + 1, by norm_num, by omega, ?_⟩
        rw [he, pow_succ]
        ring
    refine ⟨?_, ?_⟩
    · split
      · exact hrepHi
      · exact hrepLo
    · rintro x ⟨m, k, hm, -, rfl⟩
      have hg := hgap m k hm
      rw [hup]
      generalize m * 2 ^ k = x at hg ⊢
      generalize n % 2 ^ sh = r0 at hdm hr0 ⊢
      generalize n / 2 ^ sh * 2 ^ sh = lo at hdm hg ⊢
      generalize 2 ^ (sh - 1) = half at hP ⊢
      generalize 2 ^ sh = P at hP hr0 hg ⊢
      unfold Nat.dist
      split <;> omega

/-- C14, amended: for every decimal string denoting a whole amount n below 2^64,
parseAmountFromString returns a whole float64 value r that is nearest to n (no
float64 is closer), r is n itself whenever n is at most 2^53, and a payload
carrying the amount as that string is handled by handleMintTo exactly as the
payload carrying the native number r, so both record the same quantity. -/
theorem parseAmount_nearest_float64 {F : Type} (env : Env F) (ofNat : Nat → F)
    (rest : String → Except GoError Nat) (s : String) (n : Nat)
    (hs : decimalValue s = some n) (hn : n < 2 ^ 64)
    (henv : ∀ t, env.parseAmountFromString t = (parseAmountFromString rest t).map ofNat) :
    ∃ r, parseAmountFromString rest s = .ok r
      ∧ IsFloat64Whole r
      ∧ (∀ x, IsFloat64Whole x → Nat.dist r n ≤ Nat.dist x n)
      ∧ (n ≤ 2 ^ 53 → r = n)
      ∧ ∀ (w : World F) (signature : Signature) (infoMap infoMap' : List (String × JVal F)),
          (∀ key, key ≠ "amount" → JVal.index infoMap key = JVal.index infoMap' key) →
          JVal.index infoMap "amount" = .str s →
          JVal.index infoMap' "amount" = .num (ofNat r) →
          handleMintTo env w signature (.obj infoMap)
            = handleMintTo env w signature (.obj infoMap') := by
  have hparse : parseAmountFromString rest s = .ok (roundToBits 53 n) := by
    simp only [parseAmountFromString, hs, hn, if_true]
  obtain ⟨hrep, hnear⟩ := roundToBits_nearest n hn
  refine ⟨roundToBits 53 n, hparse, hrep, hnear, roundToBits_exact n, ?_⟩
  intro w signature infoMap infoMap' hkeys hstr hnum
  have hd : decodeAmount env (JVal.index infoMap "amount")
      = decodeAmount env (JVal.index infoMap' "amount") := by
    simp [decodeAmount, hstr, hnum, JVal.asFloat64, JVal.asString, henv, hparse, Except.map]
  simp only [handleMintTo, hkeys "mint" (by decide), hkeys "account" (by decide),
    hkeys "owner" (by decide), hd]

/-! ## The integration service: signing and submission -/

theorem signAll_missing_key (rpc : Rpc) (getter : PublicKey → Option PrivateKey)
    (keys : List PublicKey) (tx : Transaction) (h : ∃ key ∈ keys, getter key = none) :
    ∃ e, signAll rpc getter tx keys = .error e := by
  induction keys generalizing tx with
  | nil =>
    obtain ⟨key, hk, -⟩ := h
    cases hk
  | cons key rest ih =>
    cases hg : getter key with
    | none => exact ⟨_, by simp only [signAll, hg]; rfl⟩
    | some privateKey =>
      cases hs : rpc.signMessage privateKey tx with
      | error e => exact ⟨_, by simp only [signAll, hg, hs]; rfl⟩
      | ok sg =>
        obtain ⟨k, hk, hnone⟩ := h
        rcases List.mem_cons.mp hk with hk | hk
        · subst hk
          rw [hg] at hnone
          cases hnone
        · obtain ⟨e, he⟩ := ih { tx with Signatures := tx.Signatures ++ [sg] }
            ⟨k, hk, hnone⟩
          exact ⟨e, by simp only [signAll, hg, hs, he]⟩

theorem prepareTransferTransaction_unsigned_sender (s : SolanaIntegrationService) (rpc : Rpc)
    (calls : List RpcCall) (mintAddress fromATA toATA fromOwnerPubKey : PublicKey)
    (amount : Nat) (recentBlockhash : String)
    (hb : rpc.GetRecentBlockhash = .ok recentBlockhash)
    (hne : fromOwnerPubKey ≠ s.FeePayer.PublicKey) :
    ∃ e, (s.PrepareTransferTransaction rpc calls mintAddress fromATA toATA fromOwnerPubKey
        amount).1 = ("", some (.wrap "falha ao assinar transação pelo FeePayer: " e)) := by
  have hkeys : fromOwnerPubKey ∈ (Transaction.mk s.FeePayer.PublicKey
      [⟨tokenProgramID, amount, fromATA, toATA, fromOwnerPubKey⟩] recentBlockhash
      []).signerKeys := by
    simp [Transaction.signerKeys]
  have hget : s.feePayerOnly fromOwnerPubKey = none := by
    simp [SolanaIntegrationService.feePayerOnly, hne]
  obtain ⟨e, he⟩ := signAll_missing_key rpc s.feePayerOnly _
    (Transaction.mk s.FeePayer.PublicKey
      [⟨tokenProgramID, amount, fromATA, toATA, fromOwnerPubKey⟩] recentBlockhash [])
    ⟨fromOwnerPubKey, hkeys, hget⟩
  refine ⟨e, ?_⟩
  simp [SolanaIntegrationService.PrepareTransferTransaction, hb, NewTransaction,
    Transaction.Sign, he]

/-- C15, evaluated at a failing input: the fee payer is the transaction's payer
and the signer lookup holds the fee payer's key only, but tx.Sign asks it for
the sender's key as well, so for the sender PK1 the call returns an error and an
empty string instead of the serialized transaction. -/
theorem prepareTransferTransaction_fails_for_other_sender :
    exService.feePayerOnly ⟨"FEEPAYER"⟩ = some exService.FeePayer
    ∧ exService.feePayerOnly ⟨"PK1"⟩ = none
    ∧ (exService.PrepareTransferTransaction exRpc [] ⟨"MINT"⟩ ⟨"ATA-PK1-MINT"⟩
        ⟨"ATA-PK2-MINT"⟩ ⟨"PK1"⟩ 50000000000).1
      = ("", some (.wrap "falha ao assinar transação pelo FeePayer: "
          (.new "signer key \"PK1\" not found. Ensure all the signer keys are in the vault")))
    := by
  decide

/-- C16, as stated, fails: a transaction whose sender slot is unfilled (one
signature for two signer keys) is passed to the chain client by
SendSignedTransaction, and the call returns the client's signature with no
error. -/
theorem incomplete_transaction_is_submitted :
    exPartialTx.incomplete
    ∧ SolanaIntegrationService.SendSignedTransaction exRpc [] "partial"
      = ((⟨"SIG"⟩, none),
         [.SendTransactionWithOpts exPartialTx, .GetSignatureStatuses ⟨"SIG"⟩]) :=
  ⟨Or.inl (by decide), by decide⟩

/-- C16, amended: SendSignedTransaction makes no signature check of its own:
every input that decodes to a transaction, whatever its signature slots hold, is
passed to the chain client, and the call returns what the client answers, its
signature or its error wrapped as "falha ao enviar transação assinada"; there is
no IncompleteSignatures error. -/
theorem sendSignedTransaction_submits_what_decodes (rpc : Rpc) (calls : List RpcCall)
    (signedTxBase64 : String) (signedTxBytes : List Nat) (tx : Transaction)
    (hd : rpc.base64Decode signedTxBase64 = .ok signedTxBytes)
    (hu : rpc.UnmarshalBinary signedTxBytes = .ok tx) :
    (∀ e, rpc.SendTransactionWithOpts tx = .error e →
      SolanaIntegrationService.SendSignedTransaction rpc calls signedTxBase64
        = ((Signature.zero, some (.wrap "falha ao enviar transação assinada: " e)),
           calls ++ [.SendTransactionWithOpts tx]))
    ∧ (∀ txID, rpc.SendTransactionWithOpts tx = .ok txID →
      SolanaIntegrationService.SendSignedTransaction rpc calls signedTxBase64
        = ((txID, none),
           calls ++ [.SendTransactionWithOpts tx, .GetSignatureStatuses txID])) := by
  refine ⟨?_, ?_⟩
  · intro e he
    simp [SolanaIntegrationService.SendSignedTransaction, hd, hu, he]
  · intro txID hok
    cases hst : rpc.GetSignatureStatuses txID <;>
      simp [SolanaIntegrationService.SendSignedTransaction, hd, hu, hok, hst]

/-! ## The theorems of the second group at the integration scenario -/

/-- Witness of C11: the sender exists but has no chain public key. -/
theorem prepare_fail_fast_witness :
    (exEnvKeyless.GetUser "user-3").val.SolanaPubKey = ""
    ∧ (PrepareTransferTokenFromUser exEnvKeyless exWorld "asset-goog" "user-3" "user-2"
        50).1.err ≠ none
    ∧ ∀ c ∈ newCalls exWorld (PrepareTransferTokenFromUser exEnvKeyless exWorld "asset-goog"
        "user-3" "user-2" 50).2, c.isChainCall = false :=
  have h := prepare_fail_fast exEnvKeyless exWorld "asset-goog" "user-3" "user-2" 50
    (Or.inr (Or.inl rfl))
  ⟨rfl, h.1, h.2.2.1⟩

/-- Witness of C12 (amended): an absent sender and a sender without a key get
the same error; an absent asset gets another. -/
theorem prepare_error_kinds_witness :
    (PrepareTransferTokenFromUser exEnvKeyless exWorld "asset-goog" "nobody" "user-2" 50).1.err
      = some (.new "usuário remetente não encontrado ou sem chave pública Solana")
    ∧ (PrepareTransferTokenFromUser exEnvKeyless exWorld "asset-goog" "user-3" "user-2"
        50).1.err
      = some (.new "usuário remetente não encontrado ou sem chave pública Solana")
    ∧ (PrepareTransferTokenFromUser exEnvKeyless exWorld "no-asset" "user-1" "user-2" 50).1.err
      = some (.new "ativo não encontrado ou não tokenizado") :=
  ⟨((prepare_error_kinds exEnvKeyless exWorld "asset-goog" "nobody" "user-2" 50).1 rfl
      (Or.inl rfl)).1,
   ((prepare_error_kinds exEnvKeyless exWorld "asset-goog" "user-3" "user-2" 50).1 rfl
      (Or.inr rfl)).1,
   ((prepare_error_kinds exEnvKeyless exWorld "no-asset" "user-1" "user-2" 50).2.2.1
      ⟨rfl, rfl, by decide⟩ ⟨rfl, rfl, by decide⟩ rfl (Or.inl rfl)).1⟩

theorem exMintInfoString_index (key : String) (hkey : key ≠ "amount") :
    JVal.index exMintInfoString key = JVal.index exMintInfo key := by
  by_cases h1 : key = "mint"
  · subst h1
    rfl
  · by_cases h2 : key = "account"
    · subst h2
      rfl
    · by_cases h3 : key = "owner"
      · subst h3
        rfl
      · have e1 : (key == "mint") = false := beq_eq_false_iff_ne.mpr h1
        have e2 : (key == "account") = false := beq_eq_false_iff_ne.mpr h2
        have e3 : (key == "owner") = false := beq_eq_false_iff_ne.mpr h3
        have e4 : (key == "amount") = false := beq_eq_false_iff_ne.mpr hkey
        simp only [JVal.index, List.lookup, exMintInfoString, exMintInfo, e1, e2, e3, e4]

theorem exEnvParsing_parse (t : String) :
    exEnvParsing.parseAmountFromString t
      = (parseAmountFromString (fun _ => .error (.new "not a number")) t).map id := by
  have h : exEnvParsing.parseAmountFromString t
      = parseAmountFromString (fun _ => .error (.new "not a number")) t := rfl
  rw [h]
  cases parseAmountFromString (fun _ => .error (.new "not a number")) t <;> rfl

/-- Witness of C14 (amended): the amount 100000000000 given as a string. -/
theorem parseAmount_nearest_float64_witness :
    decimalValue "100000000000" = some 100000000000
    ∧ parseAmountFromString (fun _ => .error (.new "not a number")) "100000000000"
      = .ok 100000000000
    ∧ IsFloat64Whole 100000000000
    ∧ handleMintTo exEnvParsing exWorld ⟨"SIG"⟩ (.obj exMintInfoString)
      = handleMintTo exEnvParsing exWorld ⟨"SIG"⟩ (.obj exMintInfo) := by
  obtain ⟨r, hparse, hrep, -, hexact, hsame⟩ := parseAmount_nearest_float64 exEnvParsing id
    (fun _ => .error (.new "not a number")) "100000000000" 100000000000 (by decide)
    (by decide) exEnvParsing_parse
  have hr : r = 100000000000 := hexact (by decide)
  subst hr
  exact ⟨by decide, hparse, hrep,
    hsame exWorld ⟨"SIG"⟩ exMintInfoString exMintInfo exMintInfoString_index rfl rfl⟩

/-- Witness of C16 (amended): the string "partial" decodes to a transaction
signed by the fee payer only. -/
theorem sendSignedTransaction_submits_what_decodes_witness :
    SolanaIntegrationService.SendSignedTransaction exRpc [] "partial"
      = ((⟨"SIG"⟩, none),
         [.SendTransactionWithOpts exPartialTx, .GetSignatureStatuses ⟨"SIG"⟩]) :=
  (sendSignedTransaction_submits_what_decodes exRpc [] "partial" [1] exPartialTx rfl rfl).2
    ⟨"SIG"⟩ rfl

/-- Witness of C17: of the five deliveries of `exStream` the two finalized
successes are processed, in order. -/
theorem startListening_processes_accepted_witness :
    (StartListening exEnv exFeed exListener exWorld exStream).1 = .listening
    ∧ processedSignatures (StartListening exEnv exFeed exListener exWorld exStream).2.calls
      = [⟨"SIG"⟩, ⟨"GONE"⟩] :=
  ⟨by decide,
   (startListening_processes_accepted exEnv exFeed exListener exWorld exStream
      (by decide)).1⟩

/-- Witness of C18 (amended): two receive errors in a row, then a refused
subscription, then a refused connection. -/
theorem listener_transport_failures_witness :
    StartListening exEnv exFeed exListener exWorld
        [.error (.new "read timeout"), .error (.new "read timeout")]
      = (.listening, ⟨[], [.SignatureSubscribe ⟨"FEEPAYER"⟩, .Sleep 5, .Sleep 5], 0⟩)
    ∧ (StartListening exEnv exFeedDown exListener exWorld exStream).1 = .returned
    ∧ ∃ msg, NewBlockchainListener exFeedDown "wss://api.devnet.solana.com" "FEEPAYER-SECRET"
        = Boot.fatal msg :=
  ⟨(listener_transport_failures exEnv exFeed exListener exWorld).1
      [.error (.new "read timeout"), .error (.new "read timeout")]
      (fun r hr => by
        simp only [List.mem_cons, List.mem_singleton, List.not_mem_nil, or_false] at hr
        rcases hr with h | h <;> exact ⟨_, h⟩)
      ⟨(), rfl⟩,
   congrArg Prod.fst ((listener_transport_failures exEnv exFeedDown exListener exWorld).2.1
      exStream ⟨_, rfl⟩),
   _, (listener_transport_failures exEnv exFeedDown exListener exWorld).2.2
      "wss://api.devnet.solana.com" "FEEPAYER-SECRET" (.new "connection refused") rfl⟩

/-- Witness of C19: the response for GONE is nil. -/
theorem processTransaction_nothing_fetched_witness :
    exFeed.GetTransaction ⟨"GONE"⟩ = .ok none
    ∧ (ProcessTransaction exEnv exFeed exWorldHeld ⟨"GONE"⟩).1 = .returned
    ∧ newCalls exWorldHeld (ProcessTransaction exEnv exFeed exWorldHeld ⟨"GONE"⟩).2
      = [.GetTransaction ⟨"GONE"⟩]
    ∧ (ProcessTransaction exEnv exFeed exWorldHeld ⟨"GONE"⟩).2.tokens = exWorldHeld.tokens :=
  ⟨rfl, processTransaction_nothing_fetched exEnv exFeed exWorldHeld ⟨"GONE"⟩
    (Or.inr (Or.inl rfl))⟩

/-- Witness of C20: 100 units minted to the sender, who holds 100 already. -/
theorem handleMintTo_effect_witness :
    balance exWorldHeld.tokens "asset-goog" "user-1" = 100
    ∧ balance (handleMintTo exEnv exWorldHeld ⟨"SIG"⟩ (.obj exMintInfo)).2.tokens "asset-goog"
        "user-1" = 100 + 100 := by
  obtain ⟨tok, -, hcalls, -, -, -, -, -, -, hbal⟩ :=
    handleMintTo_effect exEnv exWorldHeld ⟨"SIG"⟩ exMintInfo "MINT" "ATA-PK1-MINT" "PK1"
      100000000000 exEnv_mintResolves
  have hid : tok.ID = "r" := by
    have h := hcalls
    have e : newCalls exWorldHeld (handleMintTo exEnv exWorldHeld ⟨"SIG"⟩ (.obj exMintInfo)).2
        = [.GetAssetByMintAddress "MINT", .GetUserBySolanaPubKey "PK1",
           .SaveToken (mintRecord exEnv 0 ⟨"SIG"⟩ "MINT" "ATA-PK1-MINT" "PK1" 100000000000)] := by
      decide
    rw [e] at h
    simp only [List.cons.injEq, Call.SaveToken.injEq, and_true, true_and] at h
    rw [← h]
    rfl
  refine ⟨by decide, ?_⟩
  exact hbal (by
    rw [hid]
    intro t ht
    simp only [exWorldHeld, List.mem_singleton] at ht
    subst ht
    decide)

/-! ## Users -/

/-- C21, evaluated at the failing input: for the request of TestCreateUser
(name, email and a Solana public key) CreateUser answers 201, saves one user and
returns the request's name and email with a generated ID, but the returned
user's Solana public key is empty, not the request's. -/
theorem createUser_drops_public_key :
    (CreateUser exEnv exWorld exCreateUserBody).1.status = 201
    ∧ (∃ user : User, (CreateUser exEnv exWorld exCreateUserBody).1.body = .ok user
        ∧ user.ID = "r" ∧ user.Name = "Test User" ∧ user.Email = "test@example.com"
        ∧ user.SolanaPubKey = ""
        ∧ user.SolanaPubKey ≠ "GnL5gP5tK25fN4W32L54wN92p24fJ84tJ62dK2s8S7b"
        ∧ newCalls exWorld (CreateUser exEnv exWorld exCreateUserBody).2 = [.SaveUser user]) :=
  ⟨by decide, ⟨"r", "Test User", "test@example.com", "", 0⟩, rfl, rfl, rfl, rfl, rfl,
    by decide, by decide⟩

/-- Keys of the body are matched up to case; of several members for one field
the last string stands, and a null member leaves the field as it is. -/
theorem createUser_key_case_and_duplicates :
    (CreateUser exEnv exWorld
        (.obj [("Name", .str "First"), ("EMAIL", .str "test@example.com"),
               ("name", .str "Test User"), ("name", .null)])).1
      = ⟨201, .ok ⟨"r", "Test User", "test@example.com", "", 0⟩⟩ :=
  rfl

/-! ## Listener: dispatch and order -/

/-- C22: ProcessTransaction, once the transaction is fetched, runs over the
inner instructions; for an instruction of the token program with a parsed form
it invokes handleMintTo when the type is "mintTo" and handleTransfer when it is
"transfer", on the parsed payload; for every other instruction (another program,
unparsed, any other type) no handler runs and the world is unchanged. -/
theorem processInstruction_dispatch {F : Type} (env : Env F) (feed : Feed F) (w : World F)
    (signature : Signature) (ix : Instruction F) :
    (∀ parsed, ix.ProgramID = tokenProgramID → ix.Parsed = some parsed →
      parsed.ParsedType = "mintTo" →
      processInstruction env w signature ix = handleMintTo env w signature parsed.Info)
    ∧ (∀ parsed, ix.ProgramID = tokenProgramID → ix.Parsed = some parsed →
      parsed.ParsedType = "transfer" →
      processInstruction env w signature ix = handleTransfer env w signature parsed.Info)
    ∧ ((ix.ProgramID ≠ tokenProgramID ∨ ix.Parsed = none
        ∨ ∃ parsed, ix.Parsed = some parsed ∧ parsed.ParsedType ≠ "mintTo"
            ∧ parsed.ParsedType ≠ "transfer") →
      processInstruction env w signature ix = (.returned, w))
    ∧ (∀ txMeta, feed.GetTransaction signature = .ok (some ⟨some ⟨some txMeta⟩⟩) →
      ProcessTransaction env feed w signature
        = processInnerInstructions env (w.log (.GetTransaction signature)) signature
            txMeta.InnerInstructions)
    ∧ (∀ (group : InnerInstruction F) groups rest,
      group.Instructions = ix :: rest →
      (processInstruction env w signature ix).1 = .returned →
      processInnerInstructions env w signature (group :: groups)
        = match processInstructions env (processInstruction env w signature ix).2 signature
            rest with
          | (.panicked, w1) => (.panicked, w1)
          | (.returned, w1) => processInnerInstructions env w1 signature groups) := by
  refine ⟨?_, ?_, ?_, ?_, ?_⟩
  · intro parsed hp hparsed ht
    simp [processInstruction, hp, hparsed, ht]
  · intro parsed hp hparsed ht
    simp [processInstruction, hp, hparsed, ht]
  · rintro (hp | hnone | ⟨parsed, hparsed, h1, h2⟩)
    · simp [processInstruction, hp]
    · simp [processInstruction, hnone]
    · simp [processInstruction, hparsed, h1, h2]
  · intro txMeta hget
    simp [ProcessTransaction, hget]
  · intro group groups rest hix hret
    cases hrun : processInstruction env w signature ix with
    | mk o w1 =>
      rw [hrun] at hret
      simp only at hret
      subst hret
      simp only [processInnerInstructions, hix, processInstructions, hrun]

/-! ## Complete: what is written -/

/-- C23, as stated, fails: when the sender is also the receiver, the one record
Complete saves is owned by the sender, whose balance for the asset goes from 100
to 150. -/
theorem complete_self_transfer_credits_sender :
    (CompleteTransferTokenFromUser exEnv exWorldHeld "asset-goog" "user-1" "user-1" 50
        "signed_tx_base64" ⟨"ATA-PK1-MINT"⟩).1.2 = none
    ∧ (CompleteTransferTokenFromUser exEnv exWorldHeld "asset-goog" "user-1" "user-1" 50
        "signed_tx_base64" ⟨"ATA-PK1-MINT"⟩).1.1.OwnerID = "user-1"
    ∧ balance exWorldHeld.tokens "asset-goog" "user-1" = 100
    ∧ balance (CompleteTransferTokenFromUser exEnv exWorldHeld "asset-goog" "user-1" "user-1" 50
        "signed_tx_base64" ⟨"ATA-PK1-MINT"⟩).2.tokens "asset-goog" "user-1" = 150 := by
  decide

/-- C23, amended: for every successful Complete call whose receiver is a user
other than the sender, the only store write is one SaveToken of a new record
owned by the receiver (its identifier being fresh); the records owned by the
sender are the same before and after, so the sender's recorded balance is
unchanged for every asset. -/
theorem complete_never_debits_sender {F : Type} [AddMonoid F] (env : Env F) (w : World F)
    (assetID fromUserID toUserID : String) (amount : F) (signedTxBase64 : String)
    (destinationATA : PublicKey) (S : Signature)
    (hfound : Found env assetID fromUserID toUserID)
    (hsend : env.SendSignedTransaction signedTxBase64 = .ok S)
    (hsave : ∀ t, env.saveTokenErr t = none)
    (hfresh : FreshID w.tokens (env.rand w.draws))
    (hother : (env.GetUser toUserID).val.ID ≠ (env.GetUser fromUserID).val.ID) :
    savedRecords (newCalls w (CompleteTransferTokenFromUser env w assetID fromUserID toUserID
        amount signedTxBase64 destinationATA).2)
      = [completeRecord env w.draws assetID toUserID amount destinationATA S]
    ∧ (completeRecord env w.draws assetID toUserID amount destinationATA S).OwnerID
      = (env.GetUser toUserID).val.ID
    ∧ (CompleteTransferTokenFromUser env w assetID fromUserID toUserID amount signedTxBase64
        destinationATA).2.tokens.filter
          (fun t => decide (t.OwnerID = (env.GetUser fromUserID).val.ID))
      = w.tokens.filter (fun t => decide (t.OwnerID = (env.GetUser fromUserID).val.ID))
    ∧ ∀ anyAsset, balance (CompleteTransferTokenFromUser env w assetID fromUserID toUserID
        amount signedTxBase64 destinationATA).2.tokens anyAsset (env.GetUser fromUserID).val.ID
      = balance w.tokens anyAsset (env.GetUser fromUserID).val.ID := by
  have hrun := complete_saved env w assetID fromUserID toUserID amount signedTxBase64
    destinationATA S hfound hsend hsave hfresh
  rw [hrun]
  have howner : (completeRecord env w.draws assetID toUserID amount destinationATA S).OwnerID
      = (env.GetUser toUserID).val.ID := rfl
  refine ⟨?_, howner, ?_, ?_⟩
  · rw [newCalls_append _ _ _ rfl]
    simp [savedRecords, Call.saved]
  · simp [List.filter_append, List.filter_cons, howner, hother]
  · intro anyAsset
    exact balance_append_other _ _ _ _ (fun h => hother (howner ▸ h.2))

/-- C25: when SendSignedTransaction returns an error, Complete returns an error
and the empty record, makes no SaveToken call, and leaves the ownership records
unchanged. -/
theorem complete_submission_failure {F : Type} [Zero F] (env : Env F) (w : World F)
    (assetID fromUserID toUserID : String) (amount : F) (signedTxBase64 : String)
    (destinationATA : PublicKey) (e : GoError)
    (hsend : env.SendSignedTransaction signedTxBase64 = .error e) :
    (CompleteTransferTokenFromUser env w assetID fromUserID toUserID amount signedTxBase64
        destinationATA).1.2 ≠ none
      ∧ (CompleteTransferTokenFromUser env w assetID fromUserID toUserID amount signedTxBase64
        destinationATA).1.1 = Token.zero
      ∧ savedRecords (newCalls w (CompleteTransferTokenFromUser env w assetID fromUserID
          toUserID amount signedTxBase64 destinationATA).2) = []
      ∧ (CompleteTransferTokenFromUser env w assetID fromUserID toUserID amount signedTxBase64
        destinationATA).2.tokens = w.tokens
      ∧ (Found env assetID fromUserID toUserID →
          (CompleteTransferTokenFromUser env w assetID fromUserID toUserID amount
            signedTxBase64 destinationATA).1.2
          = some (.wrap "falha ao enviar transação assinada para a Solana: " e)) := by
  refine ⟨?_, ?_, ?_, ?_, ?_⟩
  all_goals
    unfold CompleteTransferTokenFromUser
    simp only [hsend]
  · repeat' split
    all_goals simp
  · repeat' split
    all_goals rfl
  · repeat' split
    all_goals simp [newCalls, savedRecords, Call.saved]
  · repeat' split
    all_goals rfl
  · rintro ⟨h1, h2, h3, h4, h5, h6, h7⟩
    simp [h1, h2, h3, h4, h5, h6, h7]

/-- C26: two Complete calls that differ only in the signed-transaction argument
and whose submissions return the same signature return and save the same record:
owner, asset, amount and destination account come from the other arguments,
whatever the transaction holds. -/
theorem complete_record_ignores_transaction {F : Type} [Zero F] (env : Env F) (w : World F)
    (assetID fromUserID toUserID : String) (amount : F) (tx₁ tx₂ : String)
    (destinationATA : PublicKey) (S : Signature)
    (hfound : Found env assetID fromUserID toUserID)
    (h₁ : env.SendSignedTransaction tx₁ = .ok S)
    (h₂ : env.SendSignedTransaction tx₂ = .ok S)
    (hsave : ∀ t, env.saveTokenErr t = none) :
    (CompleteTransferTokenFromUser env w assetID fromUserID toUserID amount tx₁
        destinationATA).1
      = (CompleteTransferTokenFromUser env w assetID fromUserID toUserID amount tx₂
        destinationATA).1
    ∧ savedRecords (newCalls w (CompleteTransferTokenFromUser env w assetID fromUserID toUserID
        amount tx₁ destinationATA).2)
      = savedRecords (newCalls w (CompleteTransferTokenFromUser env w assetID fromUserID
        toUserID amount tx₂ destinationATA).2)
    ∧ savedRecords (newCalls w (CompleteTransferTokenFromUser env w assetID fromUserID toUserID
        amount tx₁ destinationATA).2)
      = [completeRecord env w.draws assetID toUserID amount destinationATA S]
    ∧ (completeRecord env w.draws assetID toUserID amount destinationATA S).Amount = amount
    ∧ (completeRecord env w.draws assetID toUserID amount destinationATA S).TokenAccountAddress
      = destinationATA.String := by
  obtain ⟨f1, f2, f3, f4, f5, f6, f7⟩ := hfound
  have run : ∀ tx, env.SendSignedTransaction tx = .ok S →
      CompleteTransferTokenFromUser env w assetID fromUserID toUserID amount tx destinationATA
        = ((completeRecord env w.draws assetID toUserID amount destinationATA S, none),
           { tokens := upsert w.tokens
               (completeRecord env w.draws assetID toUserID amount destinationATA S)
             calls := w.calls ++ [.GetUser fromUserID, .GetUser toUserID, .GetAsset assetID,
               .SendSignedTransaction tx,
               .SaveToken (completeRecord env w.draws assetID toUserID amount destinationATA S)]
             draws := w.draws + 1 }) := by
    intro tx htx
    simp [CompleteTransferTokenFromUser, SaveToken, World.log, f1, f2, f3, f4, f5, f6, f7, htx,
      hsave, completeRecord]
  rw [run tx₁ h₁, run tx₂ h₂]
  refine ⟨rfl, ?_, ?_, rfl, rfl⟩
  · rw [newCalls_append _ _ _ rfl, newCalls_append _ _ _ rfl]
    simp [savedRecords, Call.saved]
  · rw [newCalls_append _ _ _ rfl]
    simp [savedRecords, Call.saved]

/-! ## Transfer: where the asset comes from -/

/-- C24: for a transfer event (string fields, base58 source) handleTransfer
takes the mint from the source token account it fetches with GetAccountInfo:
when that lookup or the decoding of the account fails the event is dropped with
no SaveToken call and the records unchanged; when the asset and both users
resolve, the calls are that lookup, the asset lookup by that mint, the two user
lookups and one SaveToken of a record with the asset's ID, the destination
owner's user ID, the amount divided by 10^9, the destination as token account
and the signature as transaction id; and the outcome depends on no other field
of the payload than source, destination, amount, authority and
destinationOwner. -/
theorem handleTransfer_mint_from_source {F : Type} (env : Env F) (w : World F)
    (signature : Signature) (infoMap : List (String × JVal F))
    (source destination : String) (sourceKey : PublicKey)
    (hsource : (JVal.index infoMap "source").asString = some source)
    (hdestination : (JVal.index infoMap "destination").asString = some destination)
    (hkey : env.PublicKeyFromBase58 source = .ok sourceKey) :
    (((∃ e, env.GetAccountInfo sourceKey = .error e)
        ∨ ∃ data e, env.GetAccountInfo sourceKey = .ok data
            ∧ env.decodeTokenAccountMint data = .error e) →
      (handleTransfer env w signature (.obj infoMap)).1 = .returned
        ∧ savedRecords (newCalls w (handleTransfer env w signature (.obj infoMap)).2) = []
        ∧ (handleTransfer env w signature (.obj infoMap)).2.tokens = w.tokens)
    ∧ (∀ authority destinationOwner amountFloat mintAddress,
      TransferResolves env infoMap source destination authority destinationOwner amountFloat
        mintAddress →
      ∃ tok : Token F,
        (handleTransfer env w signature (.obj infoMap)).1 = .returned
        ∧ newCalls w (handleTransfer env w signature (.obj infoMap)).2
          = [.GetAccountInfo sourceKey, .GetAssetByMintAddress mintAddress,
             .GetUserBySolanaPubKey authority, .GetUserBySolanaPubKey destinationOwner,
             .SaveToken tok]
        ∧ tok.AssetID = (env.GetAssetByMintAddress mintAddress).val.ID
        ∧ tok.OwnerID = (env.GetUserBySolanaPubKey destinationOwner).val.ID
        ∧ tok.Amount = env.divE9 amountFloat
        ∧ tok.TokenAccountAddress = destination
        ∧ tok.TransactionID = signature.String)
    ∧ (∀ infoMap' : List (String × JVal F),
      (∀ key, key = "source" ∨ key = "destination" ∨ key = "amount" ∨ key = "authority"
          ∨ key = "destinationOwner" → JVal.index infoMap' key = JVal.index infoMap key) →
      handleTransfer env w signature (.obj infoMap')
        = handleTransfer env w signature (.obj infoMap)) := by
  refine ⟨?_, ?_, ?_⟩
  · intro hfail
    simp only [handleTransfer, hsource, hdestination, hkey]
    rcases hfail with ⟨e, he⟩ | ⟨data, e, hd, he⟩
    · split
      · simp [newCalls, savedRecords]
      · simp [he, newCalls, savedRecords, Call.saved]
    · split
      · simp [newCalls, savedRecords]
      · simp [hd, he, newCalls, savedRecords, Call.saved]
  · intro authority destinationOwner amountFloat mintAddress hres
    obtain ⟨⟨hs, hd, ha, ho⟩, hamt, ⟨sourceKey', data, mintKey, hk, hinfo, hdec, hmk⟩, hae, haf,
      hfe, hff, hte, htf, hsave⟩ := hres
    rw [hkey] at hk
    cases hk
    subst hmk
    have hrun : handleTransfer env w signature (.obj infoMap)
        = (.returned,
           { tokens := upsert w.tokens (transferRecord env w.draws signature mintKey.String
               destination destinationOwner amountFloat)
             calls := w.calls ++ [.GetAccountInfo sourceKey,
               .GetAssetByMintAddress mintKey.String, .GetUserBySolanaPubKey authority,
               .GetUserBySolanaPubKey destinationOwner,
               .SaveToken (transferRecord env w.draws signature mintKey.String destination
                 destinationOwner amountFloat)]
             draws := w.draws + 1 }) := by
      simp [handleTransfer, SaveToken, World.log, hs, hd, ha, ho, hamt, hkey, hinfo, hdec, hae,
        haf, hfe, hff, hte, htf, hsave, transferRecord]
    refine ⟨transferRecord env w.draws signature mintKey.String destination destinationOwner
      amountFloat, ?_, ?_, rfl, rfl, rfl, rfl, rfl⟩
    · rw [hrun]
    · rw [hrun]
      exact newCalls_append _ _ _ rfl
  · intro infoMap' hkeys
    simp only [handleTransfer, hkeys "source" (Or.inl rfl),
      hkeys "destination" (Or.inr (Or.inl rfl)),
      hkeys "amount" (Or.inr (Or.inr (Or.inl rfl))),
      hkeys "authority" (Or.inr (Or.inr (Or.inr (Or.inl rfl)))),
      hkeys "destinationOwner" (Or.inr (Or.inr (Or.inr (Or.inr rfl))))]

/-! ## Prepare: the destination check and the zero amount -/

/-- C27: what GetAccountInfo answers for the recipient's associated token
account (found, "account not found", any other error) has no effect on Prepare:
replacing the answer leaves the returned transaction, destination account, error
and world the same. -/
theorem prepare_ignores_destination_check {F : Type} (env : Env F) (w : World F)
    (assetID fromUserID toUserID : String) (amount : F)
    (answer : PublicKey → Except GoError (List Nat)) :
    PrepareTransferTokenFromUser { env with GetAccountInfo := answer } w assetID fromUserID
        toUserID amount
      = PrepareTransferTokenFromUser env w assetID fromUserID toUserID amount := by
  simp only [PrepareTransferTokenFromUser, checkDestinationATA_eq]

/-- C28: for the amount 0, whose conversion to atomic units is 0, with both users
and the asset resolving and any on-chain balance (0 included), Prepare does not
return the insufficient-balance error: it calls the transaction builder with 0
atomic units and returns what the builder returns. -/
theorem prepare_accepts_zero_amount {F : Type} [Zero F] (env : Env F) (w : World F)
    (assetID fromUserID toUserID : String)
    (mintAddress fromUserPubKey toUserPubKey fromATA toATA : PublicKey) (currentBalance : Nat)
    (hres : Resolves env assetID fromUserID toUserID mintAddress fromUserPubKey toUserPubKey
      fromATA toATA)
    (hbal : env.GetTokenAccountBalance fromATA = .ok currentBalance)
    (hzero : env.toAtomic 0 = 0) :
    (PrepareTransferTokenFromUser env w assetID fromUserID toUserID 0).1.err
        ≠ some (.new "saldo insuficiente para transferência na Solana")
      ∧ newCalls w (PrepareTransferTokenFromUser env w assetID fromUserID toUserID 0).2
        = [.GetUser fromUserID, .GetUser toUserID, .GetAsset assetID, .GetAccountInfo toATA,
           .GetTokenAccountBalance fromATA,
           .PrepareTransferTransaction mintAddress fromATA toATA fromUserPubKey 0]
      ∧ (∀ serializedTx,
          env.PrepareTransferTransaction mintAddress fromATA toATA fromUserPubKey 0
            = .ok serializedTx →
          (PrepareTransferTokenFromUser env w assetID fromUserID toUserID 0).1
            = ⟨serializedTx, toATA, none⟩) := by
  obtain ⟨h1, h2, h3, h4, h5, h6, h7, h8, h9, h10, h11, h12, h13, h14⟩ := hres
  cases htx : env.PrepareTransferTransaction mintAddress fromATA toATA fromUserPubKey 0 with
  | error e =>
    have hrun : PrepareTransferTokenFromUser env w assetID fromUserID toUserID 0
        = (.fail (.wrap "falha ao preparar transação de transferência: " e),
           (((((w.log (.GetUser fromUserID)).log (.GetUser toUserID)).log
              (.GetAsset assetID)).log (.GetAccountInfo toATA)).log
              (.GetTokenAccountBalance fromATA)).log
              (.PrepareTransferTransaction mintAddress fromATA toATA fromUserPubKey 0)) := by
      simp [PrepareTransferTokenFromUser, h1, h2, h3, h4, h5, h6, h7, h8, h9, h10, h11, h12,
        h13, h14, hbal, hzero, htx]
    rw [hrun]
    refine ⟨by simp [PrepareResult.fail], newCalls_append _ _ _ (by simp), ?_⟩
    intro serializedTx hs
    cases hs
  | ok tx =>
    have hrun : PrepareTransferTokenFromUser env w assetID fromUserID toUserID 0
        = (⟨tx, toATA, none⟩,
           (((((w.log (.GetUser fromUserID)).log (.GetUser toUserID)).log
              (.GetAsset assetID)).log (.GetAccountInfo toATA)).log
              (.GetTokenAccountBalance fromATA)).log
              (.PrepareTransferTransaction mintAddress fromATA toATA fromUserPubKey 0)) := by
      simp [PrepareTransferTokenFromUser, h1, h2, h3, h4, h5, h6, h7, h8, h9, h10, h11, h12,
        h13, h14, hbal, hzero, htx]
    rw [hrun]
    refine ⟨by simp, newCalls_append _ _ _ (by simp), ?_⟩
    intro serializedTx hs
    cases hs
    rfl

/-! ## The integration service: malformed input and the status check -/

/-- C29: for an input that is not valid base64 or does not deserialize to a
transaction, SendSignedTransaction returns an error and the zero signature and
makes no call to the chain client; and whenever submission succeeds with
signature S it returns S and no error, whatever the status lookup answers. -/
theorem sendSignedTransaction_malformed_and_status (rpc : Rpc) (calls : List RpcCall)
    (signedTxBase64 : String) :
    (∀ e, rpc.base64Decode signedTxBase64 = .error e →
      SolanaIntegrationService.SendSignedTransaction rpc calls signedTxBase64
        = ((Signature.zero, some (.wrap "falha ao decodificar transação assinada: " e)),
           calls))
    ∧ (∀ signedTxBytes e, rpc.base64Decode signedTxBase64 = .ok signedTxBytes →
      rpc.UnmarshalBinary signedTxBytes = .error e →
      SolanaIntegrationService.SendSignedTransaction rpc calls signedTxBase64
        = ((Signature.zero, some (.wrap "falha ao deserializar transação: " e)), calls))
    ∧ (∀ signedTxBytes tx S, rpc.base64Decode signedTxBase64 = .ok signedTxBytes →
      rpc.UnmarshalBinary signedTxBytes = .ok tx →
      rpc.SendTransactionWithOpts tx = .ok S →
      (SolanaIntegrationService.SendSignedTransaction rpc calls signedTxBase64).1 = (S, none)
        ∧ ∀ status : Signature → Except GoError Unit,
          (SolanaIntegrationService.SendSignedTransaction
            { rpc with GetSignatureStatuses := status } calls signedTxBase64).1 = (S, none)) := by
  refine ⟨?_, ?_, ?_⟩
  · intro e he
    simp [SolanaIntegrationService.SendSignedTransaction, he]
  · intro signedTxBytes e hd he
    simp [SolanaIntegrationService.SendSignedTransaction, hd, he]
  · intro signedTxBytes tx S hd hu hs
    refine ⟨?_, ?_⟩
    · cases hst : rpc.GetSignatureStatuses S <;>
        simp [SolanaIntegrationService.SendSignedTransaction, hd, hu, hs, hst]
    · intro status
      cases hst : status S <;>
        simp [SolanaIntegrationService.SendSignedTransaction, hd, hu, hs, hst]

/-! ## The theorems of the third group at the integration scenario -/

/-- Witness of C22: the transfer instruction of SIG goes to handleTransfer, and
an unparsed instruction changes nothing. -/
theorem processInstruction_dispatch_witness :
    processInstruction exEnv exWorld ⟨"SIG"⟩
        ⟨tokenProgramID, some ⟨"transfer", .obj exTransferInfo⟩, []⟩
      = handleTransfer exEnv exWorld ⟨"SIG"⟩ (.obj exTransferInfo)
    ∧ processInstruction exEnv exWorld ⟨"SIG"⟩
        ⟨tokenProgramID, some ⟨"mintTo", .obj exMintInfo⟩, []⟩
      = handleMintTo exEnv exWorld ⟨"SIG"⟩ (.obj exMintInfo)
    ∧ processInstruction exEnv exWorld ⟨"SIG"⟩ ⟨tokenProgramID, none, [3]⟩
      = (.returned, exWorld) :=
  ⟨(processInstruction_dispatch exEnv exFeed exWorld ⟨"SIG"⟩
      ⟨tokenProgramID, some ⟨"transfer", .obj exTransferInfo⟩, []⟩).2.1
      ⟨"transfer", .obj exTransferInfo⟩ rfl rfl rfl,
   (processInstruction_dispatch exEnv exFeed exWorld ⟨"SIG"⟩
      ⟨tokenProgramID, some ⟨"mintTo", .obj exMintInfo⟩, []⟩).1
      ⟨"mintTo", .obj exMintInfo⟩ rfl rfl rfl,
   (processInstruction_dispatch exEnv exFeed exWorld ⟨"SIG"⟩ ⟨tokenProgramID, none, [3]⟩).2.2.1
      (Or.inr (Or.inl rfl))⟩

/-- Witness of C23 (amended): Complete of 50 units from the sender, who holds
100, to the recipient. -/
theorem complete_never_debits_sender_witness :
    balance (CompleteTransferTokenFromUser exEnv exWorldHeld "asset-goog" "user-1" "user-2" 50
        "signed_tx_base64" ⟨"ATA-PK2-MINT"⟩).2.tokens "asset-goog" "user-1"
      = balance exWorldHeld.tokens "asset-goog" "user-1" :=
  (complete_never_debits_sender exEnv exWorldHeld "asset-goog" "user-1" "user-2" 50
    "signed_tx_base64" ⟨"ATA-PK2-MINT"⟩ ⟨"SIG"⟩ exEnv_found rfl (fun _ => rfl)
    (by
      intro t ht
      simp only [exWorldHeld, List.mem_singleton] at ht
      subst ht
      decide)
    (by decide)).2.2.2 "asset-goog"

theorem exTransferInfoWithMint_index (key : String)
    (h : key = "source" ∨ key = "destination" ∨ key = "amount" ∨ key = "authority"
      ∨ key = "destinationOwner") :
    JVal.index exTransferInfoWithMint key = JVal.index exTransferInfo key := by
  rcases h with h | h | h | h | h <;> subst h <;> rfl

/-- Witness of C24: the transfer of the scenario, the same payload with a `mint`
field naming another mint, and a payload whose source account is unknown. -/
theorem handleTransfer_mint_from_source_witness :
    (handleTransfer exEnv exWorldHeld ⟨"SIG"⟩ (.obj exUnknownSourceTransferInfo)).2.tokens
      = exWorldHeld.tokens
    ∧ (∃ tok : Token Nat,
        newCalls exWorldHeld (handleTransfer exEnv exWorldHeld ⟨"SIG"⟩ (.obj exTransferInfo)).2
          = [.GetAccountInfo ⟨"ATA-PK1-MINT"⟩, .GetAssetByMintAddress "MINT",
             .GetUserBySolanaPubKey "PK1", .GetUserBySolanaPubKey "PK2", .SaveToken tok]
        ∧ tok.AssetID = "asset-goog" ∧ tok.OwnerID = "user-2" ∧ tok.Amount = 50)
    ∧ handleTransfer exEnv exWorldHeld ⟨"SIG"⟩ (.obj exTransferInfoWithMint)
      = handleTransfer exEnv exWorldHeld ⟨"SIG"⟩ (.obj exTransferInfo) := by
  refine ⟨?_, ?_, ?_⟩
  · exact ((handleTransfer_mint_from_source exEnv exWorldHeld ⟨"SIG"⟩
      exUnknownSourceTransferInfo "ATA-PK9-MINT" "ATA-PK2-MINT" ⟨"ATA-PK9-MINT"⟩
      (by decide) (by decide) rfl).1 (Or.inl ⟨_, rfl⟩)).2.2
  · obtain ⟨tok, -, hcalls, ha, ho, hamt, -, -⟩ :=
      (handleTransfer_mint_from_source exEnv exWorldHeld ⟨"SIG"⟩ exTransferInfo "ATA-PK1-MINT"
        "ATA-PK2-MINT" ⟨"ATA-PK1-MINT"⟩ (by decide) (by decide) rfl).2.1 "PK1" "PK2"
        50000000000 "MINT" exEnv_transferResolves
    exact ⟨tok, hcalls, ha, ho, hamt⟩
  · exact (handleTransfer_mint_from_source exEnv exWorldHeld ⟨"SIG"⟩ exTransferInfo
      "ATA-PK1-MINT" "ATA-PK2-MINT" ⟨"ATA-PK1-MINT"⟩ (by decide) (by decide) rfl).2.2
      exTransferInfoWithMint exTransferInfoWithMint_index

/-- Witness of C25: the chain client rejects the transaction. -/
theorem complete_submission_failure_witness :
    (CompleteTransferTokenFromUser exEnv exWorldHeld "asset-goog" "user-1" "user-2" 50
        "tampered" ⟨"ATA-PK2-MINT"⟩).1.2
      = some (.wrap "falha ao enviar transação assinada para a Solana: "
          (.new "transaction rejected"))
    ∧ (CompleteTransferTokenFromUser exEnv exWorldHeld "asset-goog" "user-1" "user-2" 50
        "tampered" ⟨"ATA-PK2-MINT"⟩).2.tokens = exWorldHeld.tokens :=
  have h := complete_submission_failure exEnv exWorldHeld "asset-goog" "user-1" "user-2" 50
    "tampered" ⟨"ATA-PK2-MINT"⟩ (.new "transaction rejected") rfl
  ⟨h.2.2.2.2 exEnv_found, h.2.2.2.1⟩

/-- Witness of C26: two different signed transactions accepted under the same
signature. -/
theorem complete_record_ignores_transaction_witness :
    (CompleteTransferTokenFromUser exEnvAnyTx exWorld "asset-goog" "user-1" "user-2" 50
        "transfer-of-50" ⟨"ATA-PK2-MINT"⟩).1
      = (CompleteTransferTokenFromUser exEnvAnyTx exWorld "asset-goog" "user-1" "user-2" 50
        "transfer-of-1" ⟨"ATA-PK2-MINT"⟩).1 :=
  (complete_record_ignores_transaction exEnvAnyTx exWorld "asset-goog" "user-1" "user-2" 50
    "transfer-of-50" "transfer-of-1" ⟨"ATA-PK2-MINT"⟩ ⟨"SIG"⟩
    ⟨rfl, rfl, rfl, rfl, rfl, rfl, by decide⟩ rfl rfl (fun _ => rfl)).1

/-- Witness of C28: the amount 0 requested by a user whose on-chain balance is 0. -/
theorem prepare_accepts_zero_amount_witness :
    exEnv.GetTokenAccountBalance ⟨"ATA-PK2-MINT"⟩ = .ok 0
    ∧ (PrepareTransferTokenFromUser exEnv exWorld "asset-goog" "user-2" "user-1" 0).1
      = ⟨"serialized_tx_base64", ⟨"ATA-PK1-MINT"⟩, none⟩ :=
  ⟨rfl, (prepare_accepts_zero_amount exEnv exWorld "asset-goog" "user-2" "user-1" ⟨"MINT"⟩
    ⟨"PK2"⟩ ⟨"PK1"⟩ ⟨"ATA-PK2-MINT"⟩ ⟨"ATA-PK1-MINT"⟩ 0
    ⟨rfl, rfl, by decide, rfl, rfl, by decide, rfl, rfl, by decide, rfl, rfl, rfl, rfl, rfl⟩
    rfl rfl).2.2 "serialized_tx_base64" rfl⟩

/-- Witness of C29: an input that is not base64, and the input "partial", which
is submitted and keeps its signature when the status lookup fails. -/
theorem sendSignedTransaction_malformed_and_status_witness :
    SolanaIntegrationService.SendSignedTransaction exRpc [] "%%%"
      = ((Signature.zero, some (.wrap "falha ao decodificar transação assinada: "
          (.new "illegal base64 data"))), [])
    ∧ (SolanaIntegrationService.SendSignedTransaction
        { exRpc with GetSignatureStatuses := fun _ => .error (.new "rpc timeout") } []
        "partial").1 = (⟨"SIG"⟩, none) :=
  have h := sendSignedTransaction_malformed_and_status exRpc [] "%%%"
  have h' := sendSignedTransaction_malformed_and_status exRpc [] "partial"
  ⟨h.1 (.new "illegal base64 data") rfl,
   (h'.2.2 [1] exPartialTx ⟨"SIG"⟩ rfl rfl rfl).2 (fun _ => .error (.new "rpc timeout"))⟩

/-! ## Prepare on the integration service -/

theorem prepare_wired_unsigned_sender {F : Type} (env : Env F) (s : SolanaIntegrationService)
    (rpc : Rpc) (w : World F) (assetID fromUserID toUserID : String) (amount : F)
    (mintAddress fromUserPubKey toUserPubKey fromATA toATA : PublicKey) (currentBalance : Nat)
    (recentBlockhash : String)
    (hwired : env.PrepareTransferTransaction = s.builder rpc)
    (hres : Resolves env assetID fromUserID toUserID mintAddress fromUserPubKey toUserPubKey
      fromATA toATA)
    (hbal : env.GetTokenAccountBalance fromATA = .ok currentBalance)
    (hge : env.toAtomic amount ≤ currentBalance)
    (hb : rpc.GetRecentBlockhash = .ok recentBlockhash)
    (hne : fromUserPubKey ≠ s.FeePayer.PublicKey) :
    ∃ e, (PrepareTransferTokenFromUser env w assetID fromUserID toUserID amount).1
      = ⟨"", PublicKey.zero,
          some (.wrap "falha ao preparar transação de transferência: "
            (.wrap "falha ao assinar transação pelo FeePayer: " e))⟩ := by
  obtain ⟨h1, h2, h3, h4, h5, h6, h7, h8, h9, h10, h11, h12, h13, h14⟩ := hres
  obtain ⟨e, he⟩ := prepareTransferTransaction_unsigned_sender s rpc [] mintAddress fromATA
    toATA fromUserPubKey (env.toAtomic amount) recentBlockhash hb hne
  have hbuild : env.PrepareTransferTransaction mintAddress fromATA toATA fromUserPubKey
      (env.toAtomic amount)
      = .error (.wrap "falha ao assinar transação pelo FeePayer: " e) := by
    rw [hwired]
    simp only [SolanaIntegrationService.builder, he]
  have hnlt : ¬ currentBalance < env.toAtomic amount := Nat.not_lt.mpr hge
  refine ⟨e, ?_⟩
  simp [PrepareTransferTokenFromUser, h1, h2, h3, h4, h5, h6, h7, h8, h9, h10, h11, h12, h13,
    h14, hbal, hnlt, hbuild, PrepareResult.fail]

/-- C9, evaluated at the failing input: both users and the asset resolve, the
sender holds 100000 units on chain and 50 are requested; PrepareTransferTransaction
is called once, with the mint, both associated token accounts, the sender key and
the atomic amount, but with the integration service as the builder it fails to
sign for the sender PK1, so Prepare returns an error and an empty transaction
instead of succeeding. -/
theorem prepare_fails_on_the_service_builder :
    Resolves exEnvWired "asset-goog" "user-1" "user-2" ⟨"MINT"⟩ ⟨"PK1"⟩ ⟨"PK2"⟩
      ⟨"ATA-PK1-MINT"⟩ ⟨"ATA-PK2-MINT"⟩
    ∧ exEnvWired.GetTokenAccountBalance ⟨"ATA-PK1-MINT"⟩ = .ok (100000 * 1000000000)
    ∧ exEnvWired.toAtomic 50 ≤ 100000 * 1000000000
    ∧ newCalls exWorld
        (PrepareTransferTokenFromUser exEnvWired exWorld "asset-goog" "user-1" "user-2" 50).2
      = [.GetUser "user-1", .GetUser "user-2", .GetAsset "asset-goog",
         .GetAccountInfo ⟨"ATA-PK2-MINT"⟩, .GetTokenAccountBalance ⟨"ATA-PK1-MINT"⟩,
         .PrepareTransferTransaction ⟨"MINT"⟩ ⟨"ATA-PK1-MINT"⟩ ⟨"ATA-PK2-MINT"⟩ ⟨"PK1"⟩
           50000000000]
    ∧ (PrepareTransferTokenFromUser exEnvWired exWorld "asset-goog" "user-1" "user-2" 50).1
      = ⟨"", PublicKey.zero,
          some (.wrap "falha ao preparar transação de transferência: "
            (.wrap "falha ao assinar transação pelo FeePayer: "
              (.new "signer key \"PK1\" not found. Ensure all the signer keys are in the vault")))⟩
    := by
  refine ⟨?_, rfl, by decide, by decide, by decide⟩
  exact ⟨rfl, rfl, by decide, rfl, rfl, by decide, rfl, rfl, by decide, rfl, rfl, rfl, rfl, rfl⟩

/-! ## Listener: the records of one transaction -/

theorem savedRecords_append {F : Type} (cs ds : List (Call F)) :
    savedRecords (cs ++ ds) = savedRecords cs ++ savedRecords ds := by
  simp [savedRecords, List.filterMap_append]

theorem handleMintTo_due {F : Type} (env : Env F) (w : World F) (signature : Signature)
    (infoMap : List (String × JVal F))
    (hm : (JVal.index infoMap "mint").asString.isSome = true)
    (ha : (JVal.index infoMap "account").asString.isSome = true)
    (ho : (JVal.index infoMap "owner").asString.isSome = true) :
    (handleMintTo env w signature (.obj infoMap)).1 = .returned
      ∧ savedRecords (handleMintTo env w signature (.obj infoMap)).2.calls
          = savedRecords w.calls ++ (dueMint env w.draws signature infoMap).toList
      ∧ (handleMintTo env w signature (.obj infoMap)).2.tokens
          = (dueMint env w.draws signature infoMap).toList.foldl (storeRecord env) w.tokens
      ∧ (handleMintTo env w signature (.obj infoMap)).2.draws
          = w.draws + (dueMint env w.draws signature infoMap).toList.length := by
  obtain ⟨mint, hm⟩ := Option.isSome_iff_exists.mp hm
  obtain ⟨account, ha⟩ := Option.isSome_iff_exists.mp ha
  obtain ⟨owner, ho⟩ := Option.isSome_iff_exists.mp ho
  rcases hamt : decodeAmount env (JVal.index infoMap "amount") with _ | amountFloat
  · simp [handleMintTo, dueMint, hm, ha, ho, hamt]
  rcases hae : (env.GetAssetByMintAddress mint).err with _ | e
  swap
  · simp [handleMintTo, dueMint, knownMint, hm, ha, ho, hamt, hae, savedRecords_append,
      savedRecords, Call.saved]
  rcases haf : (env.GetAssetByMintAddress mint).found with _ | _
  · simp [handleMintTo, dueMint, knownMint, hm, ha, ho, hamt, hae, haf, savedRecords_append,
      savedRecords, Call.saved]
  rcases hoe : (env.GetUserBySolanaPubKey owner).err with _ | e
  swap
  · simp [handleMintTo, dueMint, knownMint, knownOwner, hm, ha, ho, hamt, hae, haf, hoe,
      savedRecords_append, savedRecords, Call.saved]
  rcases hof : (env.GetUserBySolanaPubKey owner).found with _ | _
  · simp [handleMintTo, dueMint, knownMint, knownOwner, hm, ha, ho, hamt, hae, haf, hoe, hof,
      savedRecords_append, savedRecords, Call.saved]
  rcases hsave : env.saveTokenErr (mintRecord env w.draws signature mint account owner
    amountFloat) with _ | e
  all_goals
    simp only [mintRecord] at hsave
    simp [handleMintTo, dueMint, knownMint, knownOwner, hm, ha, ho, hamt, hae, haf, hoe, hof,
      SaveToken, storeRecord, mintRecord, hsave, savedRecords_append, savedRecords, Call.saved]

theorem handleTransfer_due {F : Type} (env : Env F) (w : World F) (signature : Signature)
    (infoMap : List (String × JVal F)) (source : String) (sourceKey : PublicKey)
    (hs : (JVal.index infoMap "source").asString = some source)
    (hk : env.PublicKeyFromBase58 source = .ok sourceKey)
    (hd : (JVal.index infoMap "destination").asString.isSome = true)
    (ha : (JVal.index infoMap "authority").asString.isSome = true)
    (ho : (JVal.index infoMap "destinationOwner").asString.isSome = true) :
    (handleTransfer env w signature (.obj infoMap)).1 = .returned
      ∧ savedRecords (handleTransfer env w signature (.obj infoMap)).2.calls
          = savedRecords w.calls ++ (dueTransfer env w.draws signature infoMap).toList
      ∧ (handleTransfer env w signature (.obj infoMap)).2.tokens
          = (dueTransfer env w.draws signature infoMap).toList.foldl (storeRecord env) w.tokens
      ∧ (handleTransfer env w signature (.obj infoMap)).2.draws
          = w.draws + (dueTransfer env w.draws signature infoMap).toList.length := by
  obtain ⟨destination, hd⟩ := Option.isSome_iff_exists.mp hd
  obtain ⟨authority, ha⟩ := Option.isSome_iff_exists.mp ha
  obtain ⟨destinationOwner, ho⟩ := Option.isSome_iff_exists.mp ho
  rcases hamt : decodeAmount env (JVal.index infoMap "amount") with _ | amountFloat
  · simp [handleTransfer, dueTransfer, hs, hd, ha, ho, hamt]
  rcases hinfo : env.GetAccountInfo sourceKey with e | data
  · simp [handleTransfer, dueTransfer, sourceMint, hs, hd, ha, ho, hamt, hk, hinfo,
      savedRecords_append, savedRecords, Call.saved]
  rcases hdec : env.decodeTokenAccountMint data with e | mintKey
  · simp [handleTransfer, dueTransfer, sourceMint, hs, hd, ha, ho, hamt, hk, hinfo, hdec,
      savedRecords_append, savedRecords, Call.saved]
  rcases hae : (env.GetAssetByMintAddress mintKey.String).err with _ | e
  swap
  · simp [handleTransfer, dueTransfer, sourceMint, knownMint, hs, hd, ha, ho, hamt, hk, hinfo,
      hdec, hae, savedRecords_append, savedRecords, Call.saved]
  rcases haf : (env.GetAssetByMintAddress mintKey.String).found with _ | _
  · simp [handleTransfer, dueTransfer, sourceMint, knownMint, hs, hd, ha, ho, hamt, hk, hinfo,
      hdec, hae, haf, savedRecords_append, savedRecords, Call.saved]
  rcases hfe : (env.GetUserBySolanaPubKey authority).err with _ | e
  swap
  · simp [handleTransfer, dueTransfer, sourceMint, knownMint, knownOwner, hs, hd, ha, ho, hamt,
      hk, hinfo, hdec, hae, haf, hfe, savedRecords_append, savedRecords, Call.saved]
  rcases hte : (env.GetUserBySolanaPubKey destinationOwner).err with _ | e
  swap
  · simp [handleTransfer, dueTransfer, sourceMint, knownMint, knownOwner, hs, hd, ha, ho, hamt,
      hk, hinfo, hdec, hae, haf, hfe, hte, savedRecords_append, savedRecords, Call.saved]
  rcases hff : (env.GetUserBySolanaPubKey authority).found with _ | _
  · simp [handleTransfer, dueTransfer, sourceMint, knownMint, knownOwner, hs, hd, ha, ho, hamt,
      hk, hinfo, hdec, hae, haf, hfe, hte, hff, savedRecords_append, savedRecords, Call.saved]
  rcases htf : (env.GetUserBySolanaPubKey destinationOwner).found with _ | _
  · simp [handleTransfer, dueTransfer, sourceMint, knownMint, knownOwner, hs, hd, ha, ho, hamt,
      hk, hinfo, hdec, hae, haf, hfe, hte, hff, htf, savedRecords_append, savedRecords,
      Call.saved]
  rcases hsave : env.saveTokenErr (transferRecord env w.draws signature mintKey.String
    destination destinationOwner amountFloat) with _ | e
  all_goals
    simp only [transferRecord] at hsave
    simp [handleTransfer, dueTransfer, sourceMint, knownMint, knownOwner, hs, hd, ha, ho, hamt,
      hk, hinfo, hdec, hae, haf, hfe, hte, hff, htf, SaveToken, storeRecord, transferRecord,
      hsave, savedRecords_append, savedRecords, Call.saved]

theorem processInstruction_due {F : Type} (env : Env F) (w : World F) (signature : Signature)
    (ix : Instruction F) (hwf : ix.wellFormed env = true) :
    (processInstruction env w signature ix).1 = .returned
      ∧ savedRecords (processInstruction env w signature ix).2.calls
          = savedRecords w.calls ++ (dueRecord env w.draws signature ix).toList
      ∧ (processInstruction env w signature ix).2.tokens
          = (dueRecord env w.draws signature ix).toList.foldl (storeRecord env) w.tokens
      ∧ (processInstruction env w signature ix).2.draws
          = w.draws + (dueRecord env w.draws signature ix).toList.length := by
  by_cases hp : ix.ProgramID = tokenProgramID
  swap
  · simp [processInstruction, dueRecord, hp]
  rcases hparsed : ix.Parsed with _ | parsed
  · simp [processInstruction, dueRecord, hp, hparsed]
  by_cases h1 : parsed.ParsedType = "mintTo"
  · cases hinfo : parsed.Info with
    | obj infoMap =>
      simp only [Instruction.wellFormed, hp, hparsed, hinfo, h1, if_true, Bool.and_eq_true]
        at hwf
      have h := handleMintTo_due env w signature infoMap hwf.1.1 hwf.1.2 hwf.2
      simpa [processInstruction, dueRecord, hp, hparsed, hinfo, h1] using h
    | _ => simp [processInstruction, dueRecord, hp, hparsed, hinfo, h1, handleMintTo]
  · by_cases h2 : parsed.ParsedType = "transfer"
    · cases hinfo : parsed.Info with
      | obj infoMap =>
        rcases hs : (JVal.index infoMap "source").asString with _ | source
        · simp [Instruction.wellFormed, hp, hparsed, hinfo, h1, h2, hs] at hwf
        rcases hk : env.PublicKeyFromBase58 source with e | sourceKey
        · simp [Instruction.wellFormed, hp, hparsed, hinfo, h1, h2, hs, hk] at hwf
        simp [Instruction.wellFormed, hp, hparsed, hinfo, h1, h2, hs, hk] at hwf
        obtain ⟨⟨hd, ha⟩, ho⟩ := hwf
        have h := handleTransfer_due env w signature infoMap source sourceKey hs hk hd ha ho
        simpa [processInstruction, dueRecord, hp, hparsed, hinfo, h1, h2] using h
      | _ => simp [processInstruction, dueRecord, hp, hparsed, hinfo, h1, h2, handleTransfer]
    · simp only [processInstruction, dueRecord, hp, hparsed, h1, h2, if_true, if_false]
      split <;> simp

theorem applyInOrder_due {F : Type} (env : Env F) (signature : Signature)
    (ixs : List (Instruction F)) (w : World F)
    (hwf : ∀ ix ∈ ixs, ix.wellFormed env = true) :
    savedRecords (applyInOrder env signature w ixs).calls
        = savedRecords w.calls ++ dueRecords env w.draws signature ixs
      ∧ (applyInOrder env signature w ixs).tokens
          = (dueRecords env w.draws signature ixs).foldl (storeRecord env) w.tokens
      ∧ (applyInOrder env signature w ixs).draws
          = w.draws + (dueRecords env w.draws signature ixs).length := by
  induction ixs generalizing w with
  | nil => simp [applyInOrder, dueRecords]
  | cons ix rest ih =>
    obtain ⟨-, hcalls, htokens, hdraws⟩ :=
      processInstruction_due env w signature ix (hwf ix (List.mem_cons_self _ _))
    obtain ⟨ihcalls, ihtokens, ihdraws⟩ :=
      ih (processInstruction env w signature ix).2 (fun x hx => hwf x (List.mem_cons_of_mem _ hx))
    have hstep : applyInOrder env signature w (ix :: rest)
        = applyInOrder env signature (processInstruction env w signature ix).2 rest := rfl
    rw [hstep, ihcalls, ihtokens, ihdraws, hcalls, htokens, hdraws]
    cases hdue : dueRecord env w.draws signature ix with
    | none => simp [dueRecords, hdue]
    | some t => simp [dueRecords, hdue, Nat.add_assoc, Nat.add_comm 1]

theorem processInstructions_returns {F : Type} (env : Env F) (signature : Signature)
    (ixs : List (Instruction F)) (w : World F)
    (hwf : ∀ ix ∈ ixs, ix.wellFormed env = true) :
    processInstructions env w signature ixs
      = (.returned, applyInOrder env signature w ixs) := by
  induction ixs generalizing w with
  | nil => rfl
  | cons ix rest ih =>
    have hret := (processInstruction_due env w signature ix
      (hwf ix (List.mem_cons_self _ _))).1
    have hrest := ih (processInstruction env w signature ix).2
      (fun x hx => hwf x (List.mem_cons_of_mem _ hx))
    cases hrun : processInstruction env w signature ix with
    | mk o w1 =>
      rw [hrun] at hret hrest
      simp only at hret hrest
      subst hret
      simp only [processInstructions, hrun, hrest]
      simp only [applyInOrder, List.foldl_cons, hrun]

theorem processInnerInstructions_returns {F : Type} (env : Env F) (signature : Signature)
    (groups : List (InnerInstruction F)) (w : World F)
    (hwf : ∀ group ∈ groups, ∀ ix ∈ group.Instructions, ix.wellFormed env = true) :
    processInnerInstructions env w signature groups
      = (.returned,
         applyInOrder env signature w (groups.flatMap (fun group => group.Instructions))) := by
  induction groups generalizing w with
  | nil => rfl
  | cons group rest ih =>
    have hgroup := processInstructions_returns env signature group.Instructions w
      (hwf group (List.mem_cons_self _ _))
    simp only [processInnerInstructions, hgroup,
      ih _ (fun g hg => hwf g (List.mem_cons_of_mem _ hg))]
    simp only [applyInOrder, List.flatMap_cons, List.foldl_append]

theorem storeRecords_fresh {F : Type} (env : Env F) (due ts : List (Token F))
    (hsave : ∀ t ∈ due, env.saveTokenErr t = none)
    (hfresh : ∀ t ∈ due, FreshID ts t.ID)
    (hdistinct : (due.map (fun t => t.ID)).Nodup) :
    due.foldl (storeRecord env) ts = ts ++ due := by
  induction due generalizing ts with
  | nil => simp
  | cons t rest ih =>
    have hstore : storeRecord env ts t = ts ++ [t] := by
      simp only [storeRecord, hsave t (List.mem_cons_self _ _)]
      exact upsert_fresh ts t (hfresh t (List.mem_cons_self _ _))
    rw [List.map_cons, List.nodup_cons] at hdistinct
    rw [List.foldl_cons, hstore, ih (ts ++ [t])
      (fun x hx => hsave x (List.mem_cons_of_mem _ hx)) ?_ hdistinct.2]
    · simp
    · intro x hx y hy
      rcases List.mem_append.mp hy with hy | hy
      · exact hfresh x (List.mem_cons_of_mem _ hx) y hy
      · rw [List.mem_singleton.mp hy]
        intro heq
        exact hdistinct.1 (List.mem_map.mpr ⟨x, hx, heq.symm⟩)

/-- C30: for every fetched transaction whose payloads are well-formed,
ProcessTransaction returns normally, having processed the instructions of all
its groups one after the other in their order of appearance; the records it
passes to SaveToken are exactly the records the applicable instructions are
due, in that order, whatever was dropped before them; the ownership records are
those of the start with each due record written in turn, a write the store
rejects changing nothing; and when the store accepts the writes and the
identifiers drawn are new and distinct, the due records are appended in order. -/
theorem transaction_reconciled_in_order {F : Type} (env : Env F) (feed : Feed F)
    (w : World F) (signature : Signature) (txMeta : TransactionMeta F)
    (hget : feed.GetTransaction signature = .ok (some ⟨some ⟨some txMeta⟩⟩))
    (hwf : ∀ group ∈ txMeta.InnerInstructions, ∀ ix ∈ group.Instructions,
      ix.wellFormed env = true) :
    (ProcessTransaction env feed w signature).1 = .returned
      ∧ (ProcessTransaction env feed w signature).2
          = applyInOrder env signature (w.log (.GetTransaction signature))
              (txMeta.InnerInstructions.flatMap (fun group => group.Instructions))
      ∧ savedRecords (ProcessTransaction env feed w signature).2.calls
          = savedRecords w.calls
            ++ dueRecords env w.draws signature
                (txMeta.InnerInstructions.flatMap (fun group => group.Instructions))
      ∧ (ProcessTransaction env feed w signature).2.tokens
          = (dueRecords env w.draws signature
              (txMeta.InnerInstructions.flatMap (fun group => group.Instructions))).foldl
              (storeRecord env) w.tokens
      ∧ ((∀ t ∈ dueRecords env w.draws signature
              (txMeta.InnerInstructions.flatMap (fun group => group.Instructions)),
            env.saveTokenErr t = none ∧ FreshID w.tokens t.ID) →
          ((dueRecords env w.draws signature
              (txMeta.InnerInstructions.flatMap (fun group => group.Instructions))).map
              (fun t => t.ID)).Nodup →
          (ProcessTransaction env feed w signature).2.tokens
            = w.tokens
              ++ dueRecords env w.draws signature
                  (txMeta.InnerInstructions.flatMap (fun group => group.Instructions))) := by
  have hrun : ProcessTransaction env feed w signature
      = (.returned, applyInOrder env signature (w.log (.GetTransaction signature))
          (txMeta.InnerInstructions.flatMap (fun group => group.Instructions))) := by
    simp only [ProcessTransaction, hget]
    exact processInnerInstructions_returns env signature txMeta.InnerInstructions _ hwf
  have hflat : ∀ ix ∈ txMeta.InnerInstructions.flatMap (fun group => group.Instructions),
      ix.wellFormed env = true := by
    intro ix hix
    obtain ⟨group, hgroup, hmem⟩ := List.mem_flatMap.mp hix
    exact hwf group hgroup ix hmem
  obtain ⟨hcalls, htokens, -⟩ := applyInOrder_due env signature _
    (w.log (.GetTransaction signature)) hflat
  have hsaved : savedRecords (w.log (.GetTransaction signature)).calls = savedRecords w.calls := by
    simp [savedRecords_append, savedRecords, Call.saved]
  rw [hsaved] at hcalls
  simp only [log_tokens, log_draws] at hcalls htokens
  rw [hrun]
  refine ⟨rfl, rfl, hcalls, htokens, fun hok hdistinct => ?_⟩
  rw [htokens]
  exact storeRecords_fresh env _ _ (fun t ht => (hok t ht).1) (fun t ht => (hok t ht).2)
    hdistinct

/-- Witness of C30: in the transaction BATCH an unparsed instruction, a mintTo
for an unknown mint, an instruction of another program, a mintTo for an unknown
owner and an instruction of another type are dropped, the write of the first
mintTo is rejected, and the transfer and the mintTo after them are applied. -/
theorem transaction_reconciled_in_order_witness :
    (ProcessTransaction exEnvRejecting exFeedBatch exWorldHeld ⟨"BATCH"⟩).1 = .returned
    ∧ savedRecords (ProcessTransaction exEnvRejecting exFeedBatch exWorldHeld ⟨"BATCH"⟩).2.calls
      = [mintRecord exEnvRejecting 0 ⟨"BATCH"⟩ "MINT" "ATA-PK1-MINT" "PK1" 100000000000,
         transferRecord exEnvRejecting 1 ⟨"BATCH"⟩ "MINT" "ATA-PK2-MINT" "PK2" 50000000000,
         mintRecord exEnvRejecting 2 ⟨"BATCH"⟩ "MINT" "ATA-PK1-MINT" "PK1" 100000000000]
    ∧ (ProcessTransaction exEnvRejecting exFeedBatch exWorldHeld ⟨"BATCH"⟩).2.tokens
      = exWorldHeld.tokens
        ++ [transferRecord exEnvRejecting 1 ⟨"BATCH"⟩ "MINT" "ATA-PK2-MINT" "PK2" 50000000000,
            mintRecord exEnvRejecting 2 ⟨"BATCH"⟩ "MINT" "ATA-PK1-MINT" "PK1" 100000000000] :=
  have h := transaction_reconciled_in_order exEnvRejecting exFeedBatch exWorldHeld ⟨"BATCH"⟩
    exBatchMeta rfl (by decide)
  ⟨h.1, h.2.2.1.trans (by decide), h.2.2.2.1.trans (by decide)⟩

end Tiquin
